import Mathlib

/-!
# perun-node: session layer, node, contract registry and channel states

A shallow embedding of `session/session.go`, of the part of `client/client.go` the
session drives, of the session map of `node/node.go` with two handlers of
`api/grpc/server.go`, of `blockchain/ethereum/registry.go` and of the state codec of
go-perun (`channel/state.go`, `channel/app.go`), followed by theorems about them.

Conventions of the embedding.

* A Go `map[string]V` is an association list `List (String × V)`: `mapLookup`,
  `mapInsert` and `mapDelete` are the map operations, and a `range` over the map
  visits the entries in list order. Go leaves the iteration order unspecified; a
  theorem quantified over every session therefore covers every order.
* Operations run one at a time, to completion. The session mutex is free at every
  call and is left out; a channel mutex is the field `locked`, and `Lock` on a held
  mutex never returns (`none`).
* A panic (index out of range) is `none`.
* Collaborators outside the session (ID provider, channel client, wallets, proposal
  responders, notifier) are data: what they hold, and the values their calls
  return. Every call made on a collaborator is appended to the ghost field `trace`.
* `time.Now()` is an argument, in nanoseconds since the Unix epoch.
-/

set_option autoImplicit false

namespace PerunNode

/-- OwnAlias is the alias under which the local user is stored in the ID provider. -/
def OwnAlias : String := "self"

/-- Peer of the root package: alias, off-chain address, comm address and comm type. -/
structure Peer where
  Alias : String
  OffChainAddr : String
  CommAddr : String
  CommType : String
deriving DecidableEq, Repr, Inhabited

/-- BalInfo of the root package. -/
structure BalInfo where
  Currency : String
  Parts : List String
  Bal : List String
deriving DecidableEq, Repr, Inhabited

/-- App of the root package: definition and data, both kept as opaque strings. -/
structure App where
  Def : String
  Data : String
deriving DecidableEq, Repr, Inhabited

/-- ChInfo of the root package. -/
structure ChInfo where
  ChID : String
  BalInfo : BalInfo
  App : App
  Version : String
deriving DecidableEq, Repr, Inhabited

/-- ChProposalNotif of the root package. -/
structure ChProposalNotif where
  ProposalID : String
  OpeningBalInfo : BalInfo
  App : App
  ChallengeDurSecs : Nat
  Expiry : Int
deriving DecidableEq, Repr, Inhabited

/-- An argument printed by a format verb in an error message. -/
inductive FmtArg where
  | str (s : String)
  | strs (l : List String)
  | infos (l : List ChInfo)
  | peerMap (m : List (String × Peer))
deriving DecidableEq, Repr

/-- Error values. The first group are the sentinel errors of the root package, the
second group the ways the session builds errors (`errors.New`, `fmt.Errorf` without
and with `%w`, and the wrappers of `github.com/pkg/errors`), `outside` is an error
returned by a collaborator (go-perun, the message bus). -/
inductive Err where
  | ErrSessionClosed
  | ErrUnknownAlias
  | ErrPeerExists
  | ErrPeerAliasInUse
  | ErrSubAlreadyExists
  | ErrNoActiveSub
  | ErrUnknownProposalID
  | ErrRespTimeoutExpired
  | ErrOpenCh
  | ErrPeerRejected
  | ErrUnknownChID
  | ErrUnsupportedCurrency
  | outside (msg : String)
  | errorf (format : String) (args : List FmtArg)
  | errorfW (format : String) (w : Err) (args : List FmtArg)
  | withStack (e : Err)
  | withMessage (e : Err) (msg : String)
  | wrap (e : Err) (msg : String)
deriving DecidableEq, Repr

/-- The chain walk of `errors.Is`: the error itself, or what it wraps. -/
def Err.Is : Err → Err → Bool
  | .errorfW f w a, t => decide (Err.errorfW f w a = t) || Err.Is w t
  | .withStack e, t => decide (Err.withStack e = t) || Err.Is e t
  | .withMessage e m, t => decide (Err.withMessage e m = t) || Err.Is e t
  | .wrap e m, t => decide (Err.wrap e m = t) || Err.Is e t
  | e, t => decide (e = t)

/-- `errors.WithMessage(err, msg)`: nil stays nil. -/
def WithMessage (err : Option Err) (msg : String) : Option Err :=
  err.map (fun e => Err.withMessage e msg)

/-- `errors.Wrap(err, msg)`: nil stays nil. -/
def Wrap (err : Option Err) (msg : String) : Option Err :=
  err.map (fun e => Err.wrap e msg)

/-- The values the message of an error prints: the arguments of the `fmt.Errorf` calls
along the chain of the errors it wraps, those of the wrapped error first. -/
def Err.args : Err → List FmtArg
  | .errorf _ a => a
  | .errorfW _ w a => Err.args w ++ a
  | .withStack e => Err.args e
  | .withMessage e _ => Err.args e
  | .wrap e _ => Err.args e
  | _ => []

/-- Functions of this repository that the session calls and that are not part of the
translated sources. They are parameters of the embedding: every theorem holds for
each choice of them, unless it names an assumption on one.

* `GetAPIError` of the root package, on a non-nil error (nil is mapped to nil, see
  `getAPIError`);
* `IsSupported` and the parser of package `currency`;
* `makeBalInfoFromRawBal` and `makeApp` of package `session`. -/
structure Env where
  GetAPIError : Err → Err
  currencyIsSupported : String → Bool
  currencyParse : String → String → Except String Nat
  makeBalInfoFromRawBal : List String → String → List Nat → BalInfo
  makeApp : String → String → App

/-- `perun.GetAPIError(err)`: nil for nil, otherwise the API error of `err`. -/
def getAPIError (env : Env) (err : Option Err) : Option Err :=
  err.map env.GetAPIError

/-! ## Go maps -/

/-- `v, ok := m[k]`. -/
def mapLookup {V : Type} (m : List (String × V)) (k : String) : Option V :=
  (m.find? (fun e => e.1 == k)).map (fun e => e.2)

/-- `delete(m, k)`. -/
def mapDelete {V : Type} (m : List (String × V)) (k : String) : List (String × V) :=
  m.filter (fun e => !(e.1 == k))

/-- `m[k] = v`: the value under an existing key is replaced, a new key is added. -/
def mapInsert {V : Type} : List (String × V) → String → V → List (String × V)
  | [], k, v => [(k, v)]
  | e :: m, k, v => if e.1 == k then (k, v) :: m else e :: mapInsert m k v

/-! ## Collaborators -/

/-- The ID provider: the peers it holds. Modelled from the spec: package
`idprovider/local` is not under src; §4.1 gives `read_by_alias`,
`read_by_off_chain_addr` and `write(alias, Peer)` with aliases unique within one
provider. -/
structure IDProvider where
  peers : List Peer
deriving DecidableEq, Repr, Inhabited

/-- `ReadByAlias(alias)`. -/
def IDProvider.ReadByAlias (idp : IDProvider) (al : String) : Option Peer :=
  idp.peers.find? (fun p => p.Alias == al)

/-- `ReadByOffChainAddr(addr)`. -/
def IDProvider.ReadByOffChainAddr (idp : IDProvider) (addr : String) : Option Peer :=
  idp.peers.find? (fun p => p.OffChainAddr == addr)

/-- Modelled from the spec: `Write(alias, peer)` of the ID provider (not under src).
§4.1: aliases are unique, writing an alias that exists is an error (`AliasExists`),
and `initIDProvider` tells the case of an equal peer (`ErrPeerExists`) from the
case of a different peer under the same alias. -/
def IDProvider.Write (idp : IDProvider) (al : String) (p : Peer) :
    Option Err × IDProvider :=
  match idp.ReadByAlias al with
  | some old => if old = p then (some Err.ErrPeerExists, idp) else (some Err.ErrPeerAliasInUse, idp)
  | none => (none, { peers := idp.peers ++ [p] })

/-- A wallet: whether `LockAll` has been called on it. -/
structure Wallet where
  lockedAll : Bool
deriving DecidableEq, Repr, Inhabited

/-- Credential of the root package. -/
structure Credential where
  Addr : String
  Wallet : Wallet
deriving DecidableEq, Repr, Inhabited

/-- User of the root package. -/
structure User where
  Peer : Peer
  OnChain : Credential
  OffChain : Credential
deriving DecidableEq, Repr, Inhabited

/-- The struct `client` of `client/client.go`. The go-perun client and the message
bus are given by the error their `Close` returns (nil as none) and by whether
`Close` has been called on them; the registry by the addresses registered. -/
structure client where
  pClientCloseRet : Option String
  msgBusCloseRet : Option String
  pClientCloseCalled : Bool
  msgBusCloseCalled : Bool
  msgBusRegistry : List (String × String)
deriving DecidableEq, Repr, Inhabited

/-- `client.Register`. -/
def client.Register (c : client) (offChainAddr commAddr : String) : client :=
  { c with msgBusRegistry := c.msgBusRegistry ++ [(offChainAddr, commAddr)] }

/-- `client.Close`: closes the go-perun client, then the message bus, and stops at
the first error. -/
def client.Close (c : client) : Option Err × client :=
  let c1 := { c with pClientCloseCalled := true }
  match c.pClientCloseRet with
  | some e => (Wrap (some (Err.outside e)) "closing channel client", c1)
  | none =>
    let c2 := { c1 with msgBusCloseCalled := true }
    match c.msgBusCloseRet with
    | some e => (Wrap (some (Err.outside e)) "closing message bus", c2)
    | none => (none, c2)


/-! ## Channels -/

/-- Modelled from the spec: the phases of a go-perun channel (package `channel` of
go-perun declares them; the declaration is not under src). §3 lists them in this
order. -/
inductive Phase where
  | Initial | Signing | Funding | Acting | Registering | Registered
  | Progressing | Progressed | Withdrawing | Withdrawn
deriving DecidableEq, Repr, Inhabited

/-- What the session reads of a go-perun channel (`*pclient.Channel`): its ID (in the
hex form the session uses as key), phase, peers, challenge duration and the current
state. -/
structure PChannel where
  ID : String
  phase : Phase
  Peers : List String
  ChallengeDuration : Nat
  Version : Nat
  Balances : List Nat
  AppDef : String
  AppData : String
deriving DecidableEq, Repr, Inhabited

/-- `timeoutConfig` of the session: both durations in nanoseconds. -/
structure timeoutConfig where
  onChainTx : Int
  response : Int
deriving DecidableEq, Repr, Inhabited

/-- Modelled from the spec: the status of a session channel (`session/channel.go`
is not under src). `Close` compares it with `open`. -/
inductive chStatus where
  | «open» | closed
deriving DecidableEq, Repr, Inhabited

/-- Modelled from the spec: the struct `channel` of `session/channel.go` (not under
src), with the fields the session reads: the ID, the go-perun channel, the status,
currency and aliases given to `newCh`, and the channel mutex. -/
structure channel where
  id : String
  pch : PChannel
  status : chStatus
  currency : String
  parts : List String
  timeoutCfg : timeoutConfig
  challengeDurSecs : Nat
  locked : Bool
deriving DecidableEq, Repr, Inhabited

/-- Modelled from the spec: `newCh` of `session/channel.go` (not under src). §4.7:
"construct a Channel wrapping the resulting handle"; a new channel is open and its
mutex is free. -/
def newCh (pch : PChannel) (currency : String) (parts : List String)
    (timeoutCfg : timeoutConfig) (challengeDurSecs : Nat) : channel :=
  { id := pch.ID, pch := pch, status := chStatus.open, currency := currency, parts := parts,
    timeoutCfg := timeoutCfg, challengeDurSecs := challengeDurSecs, locked := false }

/-- Modelled from the spec: `getChInfo` of `session/channel.go` (not under src): the
channel ID with a BalInfo view of the current state, "with aliases filled in from the
Session's alias list" (§4.6). It does not touch the channel mutex. -/
def channel.getChInfo (env : Env) (ch : channel) : ChInfo :=
  { ChID := ch.id,
    BalInfo := env.makeBalInfoFromRawBal ch.parts ch.currency ch.pch.Balances,
    App := env.makeApp ch.pch.AppDef ch.pch.AppData,
    Version := toString ch.pch.Version }

/-! ## Proposals -/

/-- What the session reads of an incoming channel proposal
(`pclient.ChannelProposal`). The client hands only validated proposals to the
handler, so `InitBals.Balances[0]` exists; it is read with the empty list as default. -/
structure ChannelProposal where
  ProposalID : String
  PeerAddrs : List String
  InitBals : List (List Nat)
  ChallengeDuration : Nat
  AppDef : String
  InitData : String
deriving DecidableEq, Repr, Inhabited

deriving instance DecidableEq for Except

/-- A proposal responder (`chProposalResponder`): a name to tell responders apart in
the trace, and what its `Accept` and `Reject` return. -/
structure chProposalResponder where
  name : String
  acceptRet : Except String PChannel
  rejectRet : Option String
deriving DecidableEq, Repr

/-- The outgoing proposal built by `OpenCh`. -/
structure LedgerChannelProposal where
  ChallengeDuration : Nat
  Proposer : String
  Assets : List String
  Balances : List (List Nat)
  PeerAddrs : List String
  App : App
deriving DecidableEq, Repr, Inhabited

/-- A call made by the session on one of its collaborators. `notify` is the start of
a goroutine running the proposal notifier on a notification. -/
inductive Call where
  | idpWrite (al : String) (p : Peer)
  | idpReadByAlias (al : String)
  | idpReadByOffChainAddr (addr : String)
  | chClientRegister (offChainAddr commAddr : String)
  | chClientProposeChannel (p : LedgerChannelProposal)
  | chClientClose
  | onChainLockAll
  | offChainLockAll
  | respAccept (responder : String) (participant : String)
  | respReject (responder : String) (reason : String)
  | notify (notifier : String) (notif : ChProposalNotif)
deriving DecidableEq, Repr

/-- `chProposalResponderEntry`. -/
structure chProposalResponderEntry where
  proposal : ChannelProposal
  notif : ChProposalNotif
  responder : chProposalResponder
deriving DecidableEq, Repr

/-- The struct `session`. A notifier (a Go function value) is given by a name; nil is
`none`. `trace` is the ghost record of the calls made on collaborators, oldest first. -/
structure session where
  id : String
  isOpen : Bool
  timeoutCfg : timeoutConfig
  user : User
  chAsset : String
  chClient : client
  idProvider : IDProvider
  chs : List (String × channel)
  chProposalNotifier : Option String
  chProposalNotifsCache : List ChProposalNotif
  chProposalResponders : List (String × chProposalResponderEntry)
  trace : List Call
deriving DecidableEq, Repr

/-- `time.Time.Unix()` of an instant given in nanoseconds: whole seconds, rounded
down. -/
def Unix (t : Int) : Int := t / 1000000000

/-- Modelled from the spec: the constant `ETH` of package `currency` (not under src);
§4.2 names the symbol `ETH`. -/
def currencyETH : String := "ETH"

/-- The zero value `perun.Peer{}`. -/
def zeroPeer : Peer := { Alias := "", OffChainAddr := "", CommAddr := "", CommType := "" }

/-- The zero value `perun.ChInfo{}`. -/
def zeroChInfo : ChInfo :=
  { ChID := "", BalInfo := { Currency := "", Parts := [], Bal := [] },
    App := { Def := "", Data := "" }, Version := "" }

/-! ## Session operations -/

/-- `session.AddContact`. -/
def session.AddContact (env : Env) (s : session) (peer : Peer) : Option Err × session :=
  if !s.isOpen then (some Err.ErrSessionClosed, s)
  else
    let r := s.idProvider.Write peer.Alias peer
    (getAPIError env r.1,
      { s with idProvider := r.2, trace := s.trace ++ [Call.idpWrite peer.Alias peer] })

/-- `session.GetContact`. -/
def session.GetContact (s : session) (al : String) : (Peer × Option Err) × session :=
  if !s.isOpen then ((zeroPeer, some Err.ErrSessionClosed), s)
  else
    let s1 := { s with trace := s.trace ++ [Call.idpReadByAlias al] }
    match s.idProvider.ReadByAlias al with
    | none => ((zeroPeer, some Err.ErrUnknownAlias), s1)
    | some peer => ((peer, none), s1)

/-- The loop of `sanitizeBalInfo`: the last index at which the own alias stands, 0
when it stands nowhere. `idx` is the index of the head of the list, `ownIdx` the
value found so far. -/
def sanitizeOwnIdx : List String → Nat → Nat → Nat
  | [], _, ownIdx => ownIdx
  | p :: ps, idx, ownIdx => sanitizeOwnIdx ps (idx + 1) (if p = OwnAlias then idx else ownIdx)

/-- `sanitizeBalInfo`. The Go function rearranges the two slices in place; the
rearranged BalInfo is returned here. Reading `Bal[ownIdx]` beyond the end of `Bal`
panics (`none`); `Parts[0]` exists whenever `ownIdx` is not 0. -/
def sanitizeBalInfo (balInfo : BalInfo) : Option BalInfo :=
  let ownIdx := sanitizeOwnIdx balInfo.Parts 0 0
  if ownIdx ≠ 0 then
    let parts1 := balInfo.Parts.set ownIdx (balInfo.Parts.getD 0 "")
    let parts2 := parts1.set 0 OwnAlias
    match balInfo.Bal[ownIdx]? with
    | none => none
    | some ownAmount =>
      let bal1 := balInfo.Bal.set ownIdx (balInfo.Bal.getD 0 "")
      let bal2 := bal1.set 0 ownAmount
      some { balInfo with Parts := parts2, Bal := bal2 }
  else some balInfo

/-- The variables of the loop of `retrieveParts`. `parts` is filled from the left: the
entries not yet reached are left out, an entry for an alias that was not found is the
zero Peer. -/
structure retrieveState where
  knownParts : List (String × Peer)
  parts : List Peer
  missingParts : List String
  repeatedParts : List String
  foundOwnAlias : Bool
deriving DecidableEq, Repr

/-- The loop of `retrieveParts`. -/
def retrievePartsLoop (idProvider : IDProvider) : List String → retrieveState → retrieveState
  | [], st => st
  | al :: rest, st =>
    let found := if al = OwnAlias then true else st.foundOwnAlias
    match idProvider.ReadByAlias al with
    | none =>
      retrievePartsLoop idProvider rest
        { st with foundOwnAlias := found, missingParts := st.missingParts ++ [al],
                  parts := st.parts ++ [zeroPeer] }
    | some peer =>
      let repeated :=
        if (mapLookup st.knownParts al).isSome then st.repeatedParts ++ [al]
        else st.repeatedParts
      retrievePartsLoop idProvider rest
        { knownParts := mapInsert st.knownParts al peer, parts := st.parts ++ [peer],
          missingParts := st.missingParts, repeatedParts := repeated, foundOwnAlias := found }

/-- `retrieveParts`. Both error messages print `knownParts`. A nil slice is the empty
list. -/
def retrieveParts (aliases : List String) (idProvider : IDProvider) : List Peer × Option Err :=
  let st := retrievePartsLoop idProvider aliases
    { knownParts := [], parts := [], missingParts := [], repeatedParts := [],
      foundOwnAlias := false }
  if st.missingParts.length ≠ 0 then
    ([], some (Err.errorf "No peers found in idProvider for the following alias(es): %v"
      [FmtArg.peerMap st.knownParts]))
  else if st.repeatedParts.length ≠ 0 then
    ([], some (Err.errorf "Repeated entries in aliases: %v" [FmtArg.peerMap st.knownParts]))
  else if !st.foundOwnAlias then
    ([], some (Err.errorf "No entry for self found in aliases" []))
  else (st.parts, none)

/-- `registerParts`, on the channel client: the client after the registrations and
the calls made. -/
def registerParts : List Peer → client → client × List Call
  | [], r => (r, [])
  | p :: ps, r =>
    if p.Alias ≠ OwnAlias then
      let res := registerParts ps (r.Register p.OffChainAddr p.CommAddr)
      (res.1, Call.chClientRegister p.OffChainAddr p.CommAddr :: res.2)
    else registerParts ps r

/-- `makeOffChainAddrs`. -/
def makeOffChainAddrs (parts : List Peer) : List String :=
  parts.map (fun p => p.OffChainAddr)

/-- The loop of `makeAllocation`: parses the amounts from the left and stops at the
first that does not parse. -/
def parseBal (env : Env) (currency : String) : List String → Except Err (List Nat)
  | [] => .ok []
  | b :: rest =>
    match env.currencyParse currency b with
    | .error e => .error (Err.withMessage (Err.outside e) ("Parsing amount: " ++ b))
    | .ok n =>
      match parseBal env currency rest with
      | .error e => .error e
      | .ok ns => .ok (n :: ns)

/-- `makeAllocation`: the assets and the balances of the allocation. -/
def makeAllocation (env : Env) (balInfo : BalInfo) (chAsset : String) :
    Except Err (List String × List (List Nat)) :=
  if !env.currencyIsSupported balInfo.Currency then .error Err.ErrUnsupportedCurrency
  else
    match parseBal env balInfo.Currency balInfo.Bal with
    | .error e => .error e
    | .ok balance => .ok ([chAsset], [balance])

/-- `session.addCh`. -/
def session.addCh (s : session) (ch : channel) : session :=
  { s with chs := mapInsert s.chs ch.id ch }

/-- `strings.Contains`. -/
def stringsContains (s sub : String) : Bool :=
  decide (List.IsInfix sub.toList s.toList)

/-- `session.OpenCh`. `proposeRet` is what `ProposeChannel` returns for the proposal.
The result is `none` when `sanitizeBalInfo` panics. -/
def session.OpenCh (env : Env) (s : session) (openingBalInfo : BalInfo) (app : App)
    (challengeDurSecs : Nat) (proposeRet : Except String PChannel) :
    Option ((ChInfo × Option Err) × session) :=
  if !s.isOpen then some ((zeroChInfo, some Err.ErrSessionClosed), s)
  else
    match sanitizeBalInfo openingBalInfo with
    | none => none
    | some openingBalInfo =>
      let s1 := { s with trace := s.trace ++ openingBalInfo.Parts.map Call.idpReadByAlias }
      match retrieveParts openingBalInfo.Parts s.idProvider with
      | (_, some err) => some ((zeroChInfo, getAPIError env (some err)), s1)
      | (parts, none) =>
        let reg := registerParts parts s1.chClient
        let s2 := { s1 with chClient := reg.1, trace := s1.trace ++ reg.2 }
        match makeAllocation env openingBalInfo s.chAsset with
        | .error err => some ((zeroChInfo, getAPIError env (some err)), s2)
        | .ok allocations =>
          let proposal : LedgerChannelProposal :=
            { ChallengeDuration := challengeDurSecs, Proposer := s.user.Peer.OffChainAddr,
              Assets := allocations.1, Balances := allocations.2,
              PeerAddrs := makeOffChainAddrs parts, App := app }
          let s3 := { s2 with trace := s2.trace ++ [Call.chClientProposeChannel proposal] }
          match proposeRet with
          | .error e =>
            let err :=
              if stringsContains e "channel proposal rejected" then Err.ErrPeerRejected
              else Err.outside e
            some ((zeroChInfo, getAPIError env (some err)), s3)
          | .ok pch =>
            let ch := newCh pch openingBalInfo.Currency openingBalInfo.Parts s.timeoutCfg
              challengeDurSecs
            some ((ch.getChInfo env, none), s3.addCh ch)

/-- `session.rejectChProposal`: calls `Reject` on the responder and returns its
error. -/
def session.rejectChProposal (s : session) (responder : chProposalResponder)
    (reason : String) : Option Err × session :=
  (responder.rejectRet.map Err.outside,
    { s with trace := s.trace ++ [Call.respReject responder.name reason] })

/-- The result of the loop of `HandleProposal` over the peer addresses: the aliases
(the zero value "" from the first unknown address on), the unknown address at which
the loop stopped, and the reads made on the ID provider. -/
structure resolvedPeers where
  parts : List String
  unknown : Option String
  reads : List Call
deriving DecidableEq, Repr

/-- The loop of `HandleProposal` over the peer addresses of the proposal. -/
def resolvePeerAddrs (idProvider : IDProvider) : List String → resolvedPeers
  | [] => { parts := [], unknown := none, reads := [] }
  | a :: rest =>
    match idProvider.ReadByOffChainAddr a with
    | none =>
      { parts := "" :: rest.map (fun _ => ""), unknown := some a,
        reads := [Call.idpReadByOffChainAddr a] }
    | some p =>
      let r := resolvePeerAddrs idProvider rest
      { parts := p.Alias :: r.parts, unknown := r.unknown,
        reads := Call.idpReadByOffChainAddr a :: r.reads }

/-- `chProposalNotif`. -/
def chProposalNotif (env : Env) (parts : List String) (curr : String)
    (chProposal : ChannelProposal) (expiry : Int) : ChProposalNotif :=
  { ProposalID := chProposal.ProposalID,
    OpeningBalInfo := env.makeBalInfoFromRawBal parts curr (chProposal.InitBals.headD []),
    App := env.makeApp chProposal.AppDef chProposal.InitData,
    ChallengeDurSecs := chProposal.ChallengeDuration,
    Expiry := expiry }

/-- `session.HandleProposal`, called at the instant `now`. -/
def session.HandleProposal (env : Env) (s : session) (now : Int)
    (chProposal : ChannelProposal) (responder : chProposalResponder) : session :=
  let expiry := Unix (now + s.timeoutCfg.response)
  if !s.isOpen then s
  else
    let r := resolvePeerAddrs s.idProvider chProposal.PeerAddrs
    let s1 := { s with trace := s.trace ++ r.reads }
    let s2 :=
      match r.unknown with
      | some _ => (s1.rejectChProposal responder "peer not found in session idProvider").2
      | none => s1
    let expiry := match r.unknown with
      | some _ => 0
      | none => expiry
    let notif := chProposalNotif env r.parts currencyETH chProposal expiry
    let entry : chProposalResponderEntry :=
      { proposal := chProposal, notif := notif, responder := responder }
    let s3 :=
      if expiry ≠ 0 then
        { s2 with chProposalResponders := mapInsert s2.chProposalResponders notif.ProposalID entry }
      else s2
    match s3.chProposalNotifier with
    | none => { s3 with chProposalNotifsCache := s3.chProposalNotifsCache ++ [notif] }
    | some notifier => { s3 with trace := s3.trace ++ [Call.notify notifier notif] }

/-- The loop of `SubChProposals` that sends the cached notifications: `i` counts down
from the length of the cache; each round starts the notifier on `cache[0]` and
re-slices the cache to `cache[1:i]`. Indexing or slicing beyond the end panics
(`none`). Returns the cache left and the calls made. -/
def sendCached (notifier : String) : Nat → List ChProposalNotif → List Call →
    Option (List ChProposalNotif × List Call)
  | 0, cache, calls => some (cache, calls)
  | i + 1, cache, calls =>
    match cache with
    | [] => none
    | n :: _ =>
      if i + 1 ≤ cache.length then
        sendCached notifier i ((cache.take (i + 1)).drop 1) (calls ++ [Call.notify notifier n])
      else none

/-- `session.SubChProposals`. -/
def session.SubChProposals (s : session) (notifier : String) :
    Option (Option Err × session) :=
  if !s.isOpen then some (some Err.ErrSessionClosed, s)
  else
    match s.chProposalNotifier with
    | some _ => some (some Err.ErrSubAlreadyExists, s)
    | none =>
      match sendCached notifier s.chProposalNotifsCache.length s.chProposalNotifsCache [] with
      | none => none
      | some (cache, calls) =>
        some (none, { s with chProposalNotifier := some notifier,
                             chProposalNotifsCache := cache,
                             trace := s.trace ++ calls })

/-- `session.UnsubChProposals`. -/
def session.UnsubChProposals (s : session) : Option Err × session :=
  if !s.isOpen then (some Err.ErrSessionClosed, s)
  else
    match s.chProposalNotifier with
    | none => (some Err.ErrNoActiveSub, s)
    | some _ => (none, { s with chProposalNotifier := none })

/-- `session.acceptChProposal`. -/
def session.acceptChProposal (env : Env) (s : session) (entry : chProposalResponderEntry) :
    (ChInfo × Option Err) × session :=
  let s1 := { s with trace := s.trace ++
    [Call.respAccept entry.responder.name s.user.Peer.OffChainAddr] }
  match entry.responder.acceptRet with
  | .error e => ((zeroChInfo, some (Err.outside e)), s1)
  | .ok pch =>
    let ch := newCh pch currencyETH entry.notif.OpeningBalInfo.Parts s.timeoutCfg
      entry.notif.ChallengeDurSecs
    ((ch.getChInfo env, none), s1.addCh ch)

/-- `session.RespondChProposal`, called at the instant `now`. -/
def session.RespondChProposal (env : Env) (s : session) (now : Int) (chProposalID : String)
    (accept : Bool) : (ChInfo × Option Err) × session :=
  if !s.isOpen then ((zeroChInfo, some Err.ErrSessionClosed), s)
  else
    match mapLookup s.chProposalResponders chProposalID with
    | none => ((zeroChInfo, some Err.ErrUnknownProposalID), s)
    | some entry =>
      let s1 := { s with chProposalResponders := mapDelete s.chProposalResponders chProposalID }
      let currTime := Unix now
      if entry.notif.Expiry < currTime then ((zeroChInfo, some Err.ErrRespTimeoutExpired), s1)
      else
        match accept with
        | true =>
          let r := s1.acceptChProposal env entry
          ((r.1.1, getAPIError env r.1.2), r.2)
        | false =>
          let r := s1.rejectChProposal entry.responder "rejected by user"
          ((zeroChInfo, getAPIError env r.1), r.2)

/-- `session.GetChsInfo`. -/
def session.GetChsInfo (env : Env) (s : session) : List ChInfo :=
  s.chs.map (fun e => e.2.getChInfo env)

/-- `session.GetCh`. -/
def session.GetCh (s : session) (chID : String) : Option channel × Option Err :=
  match mapLookup s.chs chID with
  | none => (none, some Err.ErrUnknownChID)
  | some ch => (some ch, none)

/-- The state of the loop of `Close` over the channels: the channels visited (their
mutexes acquired), the infos of the open channels and the IDs of the channels in an
unexpected phase. -/
structure closeState where
  visited : List (String × channel)
  openChsInfo : List ChInfo
  unexpectedPhaseChIDs : List String
deriving DecidableEq, Repr

/-- The loop of `Close`: acquires the mutex of each channel in turn (never returning
when one is held) and collects the two lists. -/
def closeLoop (env : Env) : List (String × channel) → closeState → Option closeState
  | [], st => some st
  | (k, ch) :: rest, st =>
    if ch.locked then none
    else
      let ch1 := { ch with locked := true }
      let phase := ch1.pch.phase
      let ids :=
        if phase ≠ Phase.Acting ∧ phase ≠ Phase.Withdrawn then st.unexpectedPhaseChIDs ++ [ch1.id]
        else st.unexpectedPhaseChIDs
      let infos :=
        if ch1.status = chStatus.open then st.openChsInfo ++ [ch1.getChInfo env]
        else st.openChsInfo
      closeLoop env rest
        { visited := st.visited ++ [(k, ch1)], openChsInfo := infos, unexpectedPhaseChIDs := ids }

/-- `session.unlockAllChs`. -/
def session.unlockAllChs (s : session) : session :=
  { s with chs := s.chs.map (fun e => (e.1, { e.2 with locked := false })) }

/-- `session.close`: locks both wallets and closes the channel client. -/
def session.close (s : session) : Option Err × session :=
  let user1 := { s.user with
    OnChain := { s.user.OnChain with Wallet := { lockedAll := true } },
    OffChain := { s.user.OffChain with Wallet := { lockedAll := true } } }
  let r := s.chClient.Close
  (WithMessage r.1 "closing session",
    { s with user := user1, chClient := r.2,
             trace := s.trace ++ [Call.onChainLockAll, Call.offChainLockAll, Call.chClientClose] })

/-- `session.Close`. The channel list returned is `none` for a nil slice. The result
is `none` when the call never returns, because a channel mutex is held. -/
def session.Close (env : Env) (s : session) (force : Bool) :
    Option ((Option (List ChInfo) × Option Err) × session) :=
  if !s.isOpen then some ((none, some Err.ErrSessionClosed), s)
  else
    match closeLoop env s.chs { visited := [], openChsInfo := [], unexpectedPhaseChIDs := [] } with
    | none => none
    | some st =>
      let s1 := { s with chs := st.visited }
      if st.unexpectedPhaseChIDs.length ≠ 0 then
        let err := Err.errorf "chs in unexpected phase during session close: %v"
          [FmtArg.strs st.unexpectedPhaseChIDs]
        some ((none, getAPIError env (some (Err.withStack err))), s1.unlockAllChs)
      else if !force ∧ st.openChsInfo.length ≠ 0 then
        let err := Err.errorfW "%w: %v" Err.ErrOpenCh [FmtArg.infos st.openChsInfo]
        some ((some st.openChsInfo, getAPIError env (some (Err.withStack err))), s1.unlockAllChs)
      else
        let s2 := { s1 with isOpen := false }
        let r := s2.close
        some ((some st.openChsInfo, r.1), r.2)

/-! ## Sample values, used to instantiate the theorems -/

/-- A choice of the functions taken as parameters: `GetAPIError` takes an error out of
its stack wrapper and returns what a `%w` wraps, any other error stays as it is. -/
def sampleEnv : Env :=
  { GetAPIError := fun e =>
      match e with
      | .withStack (.errorfW _ w _) => w
      | .withStack e1 => e1
      | e1 => e1,
    currencyIsSupported := fun c => c == "ETH",
    currencyParse := fun _ a => match a.toNat? with
      | some n => .ok n
      | none => .error "invalid amount",
    makeBalInfoFromRawBal := fun parts curr bals =>
      { Currency := curr, Parts := parts, Bal := bals.map toString },
    makeApp := fun d data => { Def := d, Data := data } }

/-- The sample functions with a `GetAPIError` that returns the error as it is. -/
def sampleEnvKeep : Env :=
  { sampleEnv with GetAPIError := fun e => e }

/-- A peer with alias and address of one's choice. -/
def samplePeer (al addr : String) : Peer :=
  { Alias := al, OffChainAddr := addr, CommAddr := "127.0.0.1:5750", CommType := "tcp" }

/-- A channel with ID, phase and status of one's choice, its mutex free. -/
def sampleCh (id : String) (phase : Phase) (status : chStatus) : channel :=
  { id := id,
    pch := { ID := id, phase := phase, Peers := ["0xa", "0xb"], ChallengeDuration := 10,
             Version := 0, Balances := [1, 2], AppDef := "", AppData := "" },
    status := status, currency := "ETH", parts := ["self", "bob"],
    timeoutCfg := { onChainTx := 0, response := 10000000000 },
    challengeDurSecs := 10, locked := false }

/-- An open session of the user `self`, who knows the peer `bob`, holding the given
channels and responder entries, with no notifier and an empty cache. -/
def sampleSession (chs : List (String × channel))
    (responders : List (String × chProposalResponderEntry)) : session :=
  { id := "s1", isOpen := true,
    timeoutCfg := { onChainTx := 0, response := 10000000000 },
    user := { Peer := samplePeer "self" "0xa",
              OnChain := { Addr := "0x1", Wallet := { lockedAll := false } },
              OffChain := { Addr := "0xa", Wallet := { lockedAll := false } } },
    chAsset := "0xasset",
    chClient := { pClientCloseRet := none, msgBusCloseRet := none, pClientCloseCalled := false,
                  msgBusCloseCalled := false, msgBusRegistry := [] },
    idProvider := { peers := [samplePeer "self" "0xa", samplePeer "bob" "0xb"] },
    chs := chs, chProposalNotifier := none, chProposalNotifsCache := [],
    chProposalResponders := responders, trace := [] }

/-! ## Closing a session -/

/-- Whether `Close` counts the phase of the channel as unexpected. -/
def channel.unexpectedPhase (ch : channel) : Bool :=
  decide (ch.pch.phase ≠ Phase.Acting ∧ ch.pch.phase ≠ Phase.Withdrawn)

/-- Whether the status of the channel is open. -/
def channel.isOpenCh (ch : channel) : Bool :=
  decide (ch.status = chStatus.open)

/-- The infos of the channels of the session whose status is open, in the order of
the iteration. -/
def session.openChsInfo (env : Env) (s : session) : List ChInfo :=
  (s.chs.filter (fun e => e.2.isOpenCh)).map (fun e => e.2.getChInfo env)

/-- The IDs of the channels of the session whose phase is neither Acting nor
Withdrawn, in the order of the iteration. -/
def session.unexpectedPhaseChIDs (s : session) : List String :=
  (s.chs.filter (fun e => e.2.unexpectedPhase)).map (fun e => e.2.id)

/-- The channels with every mutex held. -/
def lockAll (chs : List (String × channel)) : List (String × channel) :=
  chs.map (fun e => (e.1, { e.2 with locked := true }))


/-- The session after `Close` went through: every channel mutex held, the open flag
cleared, `close` run. -/
def session.closed (s : session) : session :=
  ({ s with chs := lockAll s.chs, isOpen := false } : session).close.2

/-- The notification `HandleProposal` builds on an open session for a proposal
arriving at the instant `now`: expiry 0 when a peer address is unknown, the instant
plus the response timeout otherwise. -/
def session.proposalNotif (env : Env) (s : session) (now : Int) (chProposal : ChannelProposal) :
    ChProposalNotif :=
  chProposalNotif env (resolvePeerAddrs s.idProvider chProposal.PeerAddrs).parts currencyETH
    chProposal
    (match (resolvePeerAddrs s.idProvider chProposal.PeerAddrs).unknown with
      | some _ => 0
      | none => Unix (now + s.timeoutCfg.response))

/-- One call of `HandleProposal` by the channel client: the instant, the proposal and
its responder. -/
structure arrival where
  now : Int
  chProposal : ChannelProposal
  responder : chProposalResponder
deriving DecidableEq, Repr

/-- The session after `HandleProposal` has handled the arrivals, first to last. -/
def session.handleProposals (env : Env) (s : session) : List arrival → session
  | [] => s
  | a :: rest =>
    (s.HandleProposal env a.now a.chProposal a.responder).handleProposals env rest

/-- Whether the call starts the proposal notifier. -/
def Call.isNotify : Call → Bool
  | .notify _ _ => true
  | _ => false

/-- Whether the call is a `Reject` on a proposal responder. -/
def Call.isReject : Call → Bool
  | .respReject _ _ => true
  | _ => false

/-- Whether the call is an `Accept` on a proposal responder. -/
def Call.isAccept : Call → Bool
  | .respAccept _ _ => true
  | _ => false

/-- A proposal, with ID and peer addresses of one's choice. -/
def sampleProposal (id : String) (peerAddrs : List String) : ChannelProposal :=
  { ProposalID := id, PeerAddrs := peerAddrs, InitBals := [[1, 2]], ChallengeDuration := 10,
    AppDef := "", InitData := "" }

/-- A responder whose `Accept` returns a channel with the given ID and whose `Reject`
returns no error. -/
def sampleResponder (name chID : String) : chProposalResponder :=
  { name := name, acceptRet := .ok (sampleCh chID Phase.Acting chStatus.open).pch,
    rejectRet := none }

/-- A responder entry for a proposal of the peer `bob`, with ID and expiry of one's
choice. -/
def sampleEntry (id : String) (expiry : Int) : chProposalResponderEntry :=
  { proposal := sampleProposal id ["0xa", "0xb"],
    notif := chProposalNotif sampleEnv ["self", "bob"] currencyETH
      (sampleProposal id ["0xa", "0xb"]) expiry,
    responder := sampleResponder "r1" "c1" }

/-- The sample session with a response timeout of half a second. -/
def sampleSessionShortTimeout : session :=
  { sampleSession [] [] with timeoutCfg := { onChainTx := 0, response := 500000000 } }

/-- The result of the loop of `handleRestoredCh` over the peers of the channel: the
peers and aliases found, whether every address was known (the loop stops at the first
unknown one), and the reads made on the ID provider. -/
structure restoredPeers where
  parts : List Peer
  aliases : List String
  ok : Bool
  reads : List Call
deriving DecidableEq, Repr

/-- The loop of `handleRestoredCh` over the peers of the persisted channel. -/
def resolveRestoredPeers (idProvider : IDProvider) : List String → restoredPeers
  | [] => { parts := [], aliases := [], ok := true, reads := [] }
  | a :: rest =>
    match idProvider.ReadByOffChainAddr a with
    | none => { parts := [], aliases := [], ok := false, reads := [Call.idpReadByOffChainAddr a] }
    | some p =>
      let r := resolveRestoredPeers idProvider rest
      { parts := p :: r.parts, aliases := p.Alias :: r.aliases, ok := r.ok,
        reads := Call.idpReadByOffChainAddr a :: r.reads }

/-- `session.handleRestoredCh`. -/
def session.handleRestoredCh (s : session) (pch : PChannel) : session :=
  if pch.phase ≠ Phase.Acting then s
  else
    let r := resolveRestoredPeers s.idProvider pch.Peers
    let s1 := { s with trace := s.trace ++ r.reads }
    if !r.ok then s1
    else
      let reg := registerParts r.parts s1.chClient
      let s2 := { s1 with chClient := reg.1, trace := s1.trace ++ reg.2 }
      let ch := newCh pch currencyETH r.aliases s.timeoutCfg pch.ChallengeDuration
      s2.addCh ch

/-- Modelled from the spec: `RestoreChs` of the channel client, which `New` calls with
`handleRestoredCh` (this method is not under src). §4.7: "the Session iterates
persisted channels": the handler is called once on each persisted channel. -/
def session.restoreChs (s : session) : List PChannel → session
  | [] => s
  | pch :: rest => (s.handleRestoredCh pch).restoreChs rest

/-- Whether the persisted channel is in phase Acting and each of its peer addresses
is known to the ID provider of the session. -/
def session.restorable (s : session) (pch : PChannel) : Bool :=
  decide (pch.phase = Phase.Acting) &&
    pch.Peers.all (fun a => (s.idProvider.ReadByOffChainAddr a).isSome)

/-- The session channel `handleRestoredCh` builds for a persisted channel. -/
def session.restoredCh (s : session) (pch : PChannel) : channel :=
  newCh pch currencyETH (resolveRestoredPeers s.idProvider pch.Peers).aliases s.timeoutCfg
    pch.ChallengeDuration

/-- Whether the call registers a peer with the channel client. -/
def Call.isRegister : Call → Bool
  | .chClientRegister _ _ => true
  | _ => false

/-- The sample session with the notifier `n` registered. -/
def sampleSessionSubscribed : session :=
  { sampleSession [] [] with chProposalNotifier := some "n" }

/-- A BalInfo with the own alias at the indices 1 and 3. -/
def sampleBalInfo : BalInfo :=
  { Currency := "ETH", Parts := ["bob", "self", "carol", "self"], Bal := ["1", "2", "3", "4"] }

/-! ## Contract registry (`blockchain/ethereum/registry.go`)

An address (`pwallet.Address`) is given by its string form, so `String()` is the
address itself and `Equals` is equality; the nil address is not a value of the type.
The chain backend is given, call by call, by what its validation returns. -/

/-- The errors `RegisterAssetERC20` returns: the `AssetERC20RegisteredError` of package
`blockchain`, built from an asset and a symbol, and an error of the chain backend. -/
inductive RegistryErr where
  | AssetERC20RegisteredError (asset symbol : String)
  | chain (msg : String)
deriving DecidableEq, Repr

/-- The struct `contractRegistry`. `chainCalls` is the ghost record of the calls of
`ValidateAssetERC20` made on the chain backend, as (token, asset), oldest first. -/
structure contractRegistry where
  adjudicator : String
  assetETH : String
  assets : List (String × String)
  chainCalls : List (String × String)
deriving DecidableEq, Repr

/-- `NewContractRegistry`. `adjudicatorRet` and `assetETHRet` are what
`ValidateAdjudicator` and `ValidateAssetETH` return (nil as none). -/
def NewContractRegistry (adjudicator assetETH : String)
    (adjudicatorRet assetETHRet : Option String) : Except RegistryErr contractRegistry :=
  match adjudicatorRet with
  | some e => .error (RegistryErr.chain e)
  | none =>
    match assetETHRet with
    | some e => .error (RegistryErr.chain e)
    | none => .ok { adjudicator := adjudicator, assetETH := assetETH, assets := [],
                    chainCalls := [] }

/-- `contractRegistry.isSymbolRegistered`: the asset under the symbol (nil as none) and
whether there is one. An address stored is never nil. -/
def contractRegistry.isSymbolRegistered (r : contractRegistry) (symbol : String) :
    Option String × Bool :=
  match mapLookup r.assets symbol with
  | some asset => (some asset, true)
  | none => (none, false)

/-- `contractRegistry.isAssetRegistered`: the symbol of the first entry, in the order of
the iteration, whose asset equals the given one. -/
def contractRegistry.isAssetRegistered (r : contractRegistry) (asset : String) :
    String × Bool :=
  match r.assets.find? (fun e => e.2 == asset) with
  | some e => (e.1, true)
  | none => ("", false)

/-- `contractRegistry.RegisterAssetERC20`. `chainRet` is what `ValidateAssetERC20`
returns for the adjudicator, token and asset: the symbol and the decimals, or an
error. Returns the symbol, the decimals and the error (nil as none). -/
def contractRegistry.RegisterAssetERC20 (r : contractRegistry) (token asset : String)
    (chainRet : Except String (String × Nat)) :
    (String × Nat × Option RegistryErr) × contractRegistry :=
  match r.isAssetRegistered asset with
  | (symbol, true) => (("", 0, some (RegistryErr.AssetERC20RegisteredError asset symbol)), r)
  | (_, false) =>
    let r1 := { r with chainCalls := r.chainCalls ++ [(token, asset)] }
    match chainRet with
    | .error e => (("", 0, some (RegistryErr.chain e)), r1)
    | .ok (symbol, maxDecimals) =>
      match r1.isSymbolRegistered symbol with
      | (some alreadyRegisteredAsset, true) =>
        (("", 0, some (RegistryErr.AssetERC20RegisteredError alreadyRegisteredAsset symbol)), r1)
      | _ => ((symbol, maxDecimals, none), { r1 with assets := mapInsert r1.assets symbol asset })

/-- `contractRegistry.Adjudicator`. -/
def contractRegistry.Adjudicator (r : contractRegistry) : String := r.adjudicator

/-- `contractRegistry.AssetETH`. -/
def contractRegistry.AssetETH (r : contractRegistry) : String := r.assetETH

/-- `contractRegistry.Assets`. -/
def contractRegistry.Assets (r : contractRegistry) : List (String × String) :=
  r.assets.foldl (fun assetsCopy e => mapInsert assetsCopy e.1 e.2) [("ETH", r.assetETH)]

/-- `contractRegistry.Asset`. -/
def contractRegistry.Asset (r : contractRegistry) (symbol : String) : Option String × Bool :=
  r.isSymbolRegistered symbol

/-- `contractRegistry.Symbol`. -/
def contractRegistry.Symbol (r : contractRegistry) (asset : String) : String × Bool :=
  r.isAssetRegistered asset

/-- One call of `RegisterAssetERC20`: the arguments and what the chain returns. -/
structure registerCall where
  token : String
  asset : String
  chainRet : Except String (String × Nat)
deriving DecidableEq, Repr

/-- The registry after the calls of `RegisterAssetERC20`, first to last. -/
def contractRegistry.registerAll (r : contractRegistry) : List registerCall → contractRegistry
  | [] => r
  | c :: rest => (r.RegisterAssetERC20 c.token c.asset c.chainRet).2.registerAll rest

/-- A new registry with adjudicator `0xadj` and ETH asset `0xeth`. -/
def sampleRegistry : contractRegistry :=
  { adjudicator := "0xadj", assetETH := "0xeth", assets := [], chainCalls := [] }

/-- No symbol and no asset occurs in two entries of the registry. -/
def contractRegistry.distinct (r : contractRegistry) : Prop :=
  (r.assets.map (fun e => e.1)).Nodup ∧ (r.assets.map (fun e => e.2)).Nodup

/-! ## Channel states (go-perun, `channel/state.go` and `channel/app.go`)

A byte string is a list of numbers. A writer is a buffer, so writing does not fail,
and a reader is the byte string still to be read: a decoder returns the value with
the bytes it left, or an error. A channel ID and an address are the numbers their
bytes spell. -/

namespace pchannel

/-- The bytes written to a writer, or left in a reader. -/
abbrev Bytes := List Nat

/-- The interface `Data`: what the `Encode` of the data writes, or its error. -/
structure Data where
  Encode : Except Err Bytes
deriving DecidableEq, Repr

/-- The interface `App`: the `NoApp`, or an app with its definition `Def()` and its
`DecodeData`. -/
inductive App where
  | noApp
  | app (Def : Nat) (DecodeData : Bytes → Except Err (Data × Bytes))

/-- `IsNoApp`. -/
def IsNoApp : App → Bool
  | .noApp => true
  | .app _ _ => false

/-- Modelled from the spec: the struct `Allocation` (`channel/allocation.go` is not
under src). §3: an allocation holds assets and per-participant integer balances;
`session.makeAllocation` fills `Assets` and `Balances`, one row of balances an asset. -/
structure Allocation where
  Assets : List Nat
  Balances : List (List Nat)
deriving DecidableEq, Repr

/-- The struct `State`. -/
structure State where
  ID : Nat
  Version : Nat
  App : App
  Allocation : Allocation
  Data : Data
  IsFinal : Bool

/-- Functions of go-perun that the state code calls and that are not part of the
translated sources: `perunio.Encode` and `perunio.Decode` on a channel ID, a uint64,
an allocation and a bool, the encoder of an address and `wallet.DecodeAddress`, the
package-level `Resolve`, the `DecodeData` of the `NoApp`, `Allocation.Equal` and
`perunio.EqualEncoding`. They are parameters of the embedding. -/
structure Wire where
  encodeID : Nat → Bytes
  decodeID : Bytes → Except Err (Nat × Bytes)
  encodeUint64 : Nat → Bytes
  decodeUint64 : Bytes → Except Err (Nat × Bytes)
  encodeAllocation : Allocation → Except Err Bytes
  decodeAllocation : Bytes → Except Err (Allocation × Bytes)
  encodeBool : Bool → Bytes
  decodeBool : Bytes → Except Err (Bool × Bytes)
  encodeAddress : Nat → Bytes
  DecodeAddress : Bytes → Except Err (Nat × Bytes)
  Resolve : Nat → Except Err App
  NoAppDecodeData : Bytes → Except Err (Data × Bytes)
  AllocationEqual : Allocation → Allocation → Option Err
  EqualEncoding : Data → Data → Except Err Bool

/-- What is assumed of the functions taken as parameters: each decoder reads back what
its encoder wrote and leaves the bytes that follow; an allocation read back equals the
one written; `EqualEncoding` holds of two data with the same encoding. -/
structure Wire.Lawful (w : Wire) : Prop where
  id : ∀ (id : Nat) (rest : Bytes), id < 2 ^ 256 →
    w.decodeID (w.encodeID id ++ rest) = .ok (id, rest)
  uint64 : ∀ (v : Nat) (rest : Bytes), v < 2 ^ 64 →
    w.decodeUint64 (w.encodeUint64 v ++ rest) = .ok (v, rest)
  allocation : ∀ (a : Allocation) (bs rest : Bytes), w.encodeAllocation a = .ok bs →
    ∃ a1, w.decodeAllocation (bs ++ rest) = .ok (a1, rest) ∧ w.AllocationEqual a a1 = none
  bool : ∀ (b : Bool) (rest : Bytes), w.decodeBool (w.encodeBool b ++ rest) = .ok (b, rest)
  address : ∀ (a : Nat) (rest : Bytes),
    w.DecodeAddress (w.encodeAddress a ++ rest) = .ok (a, rest)
  equalEncoding : ∀ (d1 d2 : Data) (bs : Bytes), d1.Encode = .ok bs → d2.Encode = .ok bs →
    w.EqualEncoding d1 d2 = .ok true

/-- `App.DecodeData`, of the `NoApp` too. -/
def App.decodeData (w : Wire) : App → Bytes → Except Err (Data × Bytes)
  | .noApp => w.NoAppDecodeData
  | .app _ dec => dec

/-- `OptAppEnc.Encode`: the flag, and the definition of an app that is not the
`NoApp`. -/
def OptAppEnc.Encode (w : Wire) (app : App) : Bytes :=
  match app with
  | .noApp => w.encodeBool false
  | .app d _ => w.encodeBool true ++ w.encodeAddress d

/-- `OptAppDec.Decode`. -/
def OptAppDec.Decode (w : Wire) (r : Bytes) : Except Err (App × Bytes) :=
  match w.decodeBool r with
  | .error e => .error e
  | .ok (hasApp, r1) =>
    if !hasApp then .ok (App.noApp, r1)
    else
      match w.DecodeAddress r1 with
      | .error e => .error (Err.withMessage e "decode app address")
      | .ok (appDef, r2) =>
        match w.Resolve appDef with
        | .error e => .error (Err.withMessage e "resolve app")
        | .ok app => .ok (app, r2)

/-- `AppShouldEqual`. `Def()` is called on two apps that are not the `NoApp` only. -/
def AppShouldEqual (expected actual : App) : Option Err :=
  if IsNoApp expected && IsNoApp actual then none
  else if (!IsNoApp expected && IsNoApp actual) || (IsNoApp expected && !IsNoApp actual) then
    some (Err.errorf "(non-)nil App definitions" [])
  else
    match expected, actual with
    | .app d1 _, .app d2 _ =>
      if d1 ≠ d2 then some (Err.errorf "different App definitions" []) else none
    | _, _ => none

/-- `State.Encode`: the bytes written, or the error. The values are written in the
order ID, version, allocation, IsFinal, optional app, data. -/
def State.Encode (w : Wire) (s : State) : Except Err Bytes :=
  match w.encodeAllocation s.Allocation with
  | .error e => .error (Err.withMessage e "state encode")
  | .ok alloc =>
    match s.Data.Encode with
    | .error e => .error (Err.withMessage e "state encode")
    | .ok data =>
      .ok (w.encodeID s.ID ++ w.encodeUint64 s.Version ++ alloc ++ w.encodeBool s.IsFinal ++
        OptAppEnc.Encode w s.App ++ data)

/-- `State.Decode`: the state read and the bytes left in the reader, or the error. -/
def State.Decode (w : Wire) (r : Bytes) : Except Err (State × Bytes) :=
  match w.decodeID r with
  | .error e => .error (Err.withMessage e "id or version decode")
  | .ok (id, r1) =>
    match w.decodeUint64 r1 with
    | .error e => .error (Err.withMessage e "id or version decode")
    | .ok (version, r2) =>
      match w.decodeAllocation r2 with
      | .error e => .error (Err.withMessage e "id or version decode")
      | .ok (allocation, r3) =>
        match w.decodeBool r3 with
        | .error e => .error (Err.withMessage e "id or version decode")
        | .ok (isFinal, r4) =>
          match OptAppDec.Decode w r4 with
          | .error e => .error (Err.withMessage e "id or version decode")
          | .ok (app, r5) =>
            match app.decodeData w r5 with
            | .error e => .error (Err.withMessage e "app decode data")
            | .ok (data, r6) =>
              .ok ({ ID := id, Version := version, App := app, Allocation := allocation,
                     Data := data, IsFinal := isFinal }, r6)

/-- `State.Equal`, of two states that are not the same object. -/
def State.Equal (w : Wire) (s t : State) : Option Err :=
  if s.ID ≠ t.ID then some (Err.errorf "different IDs" [])
  else if s.Version ≠ t.Version then some (Err.errorf "different Versions" [])
  else
    match AppShouldEqual s.App t.App with
    | some err => some err
    | none =>
      match w.AllocationEqual s.Allocation t.Allocation with
      | some err => some (Err.withMessage err "different Allocations")
      | none =>
        match w.EqualEncoding s.Data t.Data with
        | .error err => some (Err.withMessage err "comparing App data encoding")
        | .ok false => some (Err.errorf "different App data" [])
        | .ok true =>
          if s.IsFinal ≠ t.IsFinal then some (Err.errorf "different IsFinal flags" [])
          else none

/-- An app with the definition 5 whose `DecodeData` reads nothing and returns data
with the empty encoding. -/
def sampleApp : App :=
  .app 5 (fun r => .ok ({ Encode := .ok [] }, r))

/-- A sample of the functions taken as parameters: a value is written as one number,
an allocation as the number that codes its two lists; the app definition 5 resolves to
`sampleApp`; the `DecodeData` of the `NoApp` reads nothing. -/
def sampleWire : Wire :=
  { encodeID := fun id => [id],
    decodeID := fun r => match r with
      | [] => .error (Err.outside "EOF")
      | b :: rest => .ok (b, rest),
    encodeUint64 := fun v => [v],
    decodeUint64 := fun r => match r with
      | [] => .error (Err.outside "EOF")
      | b :: rest => .ok (b, rest),
    encodeAllocation := fun a => .ok [Encodable.encode (a.Assets, a.Balances)],
    decodeAllocation := fun r => match r with
      | [] => .error (Err.outside "EOF")
      | b :: rest =>
        match (Encodable.decode b : Option (List Nat × List (List Nat))) with
        | none => .error (Err.outside "invalid allocation")
        | some p => .ok ({ Assets := p.1, Balances := p.2 }, rest),
    encodeBool := fun b => [if b then 1 else 0],
    decodeBool := fun r => match r with
      | [] => .error (Err.outside "EOF")
      | b :: rest => .ok (decide (b ≠ 0), rest),
    encodeAddress := fun a => [a],
    DecodeAddress := fun r => match r with
      | [] => .error (Err.outside "EOF")
      | b :: rest => .ok (b, rest),
    Resolve := fun d => if d = 5 then .ok sampleApp else .error (Err.outside "unknown app"),
    NoAppDecodeData := fun r => .ok ({ Encode := .ok [] }, r),
    AllocationEqual := fun a b => if a = b then none else some (Err.outside "different"),
    EqualEncoding := fun d1 d2 => match d1.Encode, d2.Encode with
      | .ok b1, .ok b2 => .ok (decide (b1 = b2))
      | .error e, _ => .error e
      | _, .error e => .error e }

/-- A state of channel 1 at version 3 with the given app and data. -/
def sampleState (app : App) (data : Bytes) : State :=
  { ID := 1, Version := 3, App := app,
    Allocation := { Assets := [9], Balances := [[1, 2]] },
    Data := { Encode := .ok data }, IsFinal := false }

end pchannel

/-! ## Exchanging two entries of a list, and more sample values -/

/-- The list with the entries at the positions 0 and `k` exchanged; the list itself
when `k` is not a position of it. -/
def exchange0 {α : Type} (l : List α) (k : Nat) : List α :=
  match l[0]?, l[k]? with
  | some a, some b => (l.set k a).set 0 b
  | _, _ => l

/-- A BalInfo that names the own alias twice. -/
def sampleBalInfoTwice : BalInfo :=
  { Currency := "ETH", Parts := ["self", "self"], Bal := ["1", "2"] }

/-- The sample session with a channel client whose go-perun client fails to close. -/
def sampleSessionCloseFails : session :=
  { sampleSession [] [] with
    chClient := { pClientCloseRet := some "boom", msgBusCloseRet := none,
                  pClientCloseCalled := false, msgBusCloseCalled := false,
                  msgBusRegistry := [] } }

/-- The arrival of a proposal of the peer `bob` at the instant 0. -/
def sampleArrival : arrival :=
  { now := 0, chProposal := sampleProposal "p1" ["0xa", "0xb"],
    responder := sampleResponder "r1" "c1" }
/-! ## Constructing a session (`session.New`) -/

/-- The user part of the session configuration: the fields `New` reads or hands to
`NewUnlockedUser`. -/
structure UserConfig where
  Alias : String
  OnChainAddr : String
  OffChainAddr : String
  CommAddr : String
  CommType : String
deriving DecidableEq, Repr, Inhabited

/-- The session configuration: the fields `New` reads. Durations are in nanoseconds. -/
structure Config where
  User : UserConfig
  IDProviderType : String
  IDProviderURL : String
  ChainURL : String
  Asset : String
  Adjudicator : String
  ChainConnTimeout : Int
  OnChainTxTimeout : Int
  ResponseTimeout : Int
  DatabaseDir : String
  PeerReconnTimeout : Int
deriving DecidableEq, Repr, Inhabited

/-- The errors `New` returns: the two sentinel errors of the root package for an
unsupported comm type and an unsupported ID provider type, and any other error. -/
inductive NewErr where
  | ErrUnsupportedCommType
  | ErrUnsupportedIDProviderType
  | err (e : Err)
deriving DecidableEq, Repr

/-- What the collaborators of `NewEthereumPaymentClient` return, call by call (an
error, nil as none): `connectToChain`, `Unlock` on the off-chain wallet,
`pclient.New`, `loadPersister` and `NewListener`; and what `Close` will return on
the go-perun client and on the message bus that are built. -/
structure clientOutcomes where
  connectToChain : Option Err
  unlock : Option Err
  pclientNew : Option Err
  loadPersister : Option Err
  newListener : Option Err
  pClientCloseRet : Option String
  msgBusCloseRet : Option String
deriving DecidableEq, Repr

/-- `NewEthereumPaymentClient`. The configuration, the user and the comm backend are
handed on to the collaborators, whose results are given by `out`. -/
def NewEthereumPaymentClient (out : clientOutcomes) : Except Err client :=
  match out.connectToChain with
  | some err => .error err
  | none =>
    match out.unlock with
    | some err => .error (Err.withMessage err "off-chain account")
    | none =>
      match out.pclientNew with
      | some err => .error (Err.wrap err "initializing state channel client")
      | none =>
        match out.loadPersister with
        | some err => .error err
        | none =>
          match out.newListener with
          | some err => .error err
          | none =>
            .ok { pClientCloseRet := out.pClientCloseRet, msgBusCloseRet := out.msgBusCloseRet,
                  pClientCloseCalled := false, msgBusCloseCalled := false,
                  msgBusRegistry := [] }

/-- `initIDProvider`. `localNew` is what `local.New(idProviderURL, wb)` returns: the ID
provider loaded from the URL, or an error. -/
def initIDProvider (idProviderType : String) (localNew : Except Err IDProvider) (own : Peer) :
    Except NewErr IDProvider :=
  if idProviderType ≠ "yaml" then .error NewErr.ErrUnsupportedIDProviderType
  else
    match localNew with
    | .error err => .error (NewErr.err err)
    | .ok idProvider =>
      let own1 := { own with Alias := OwnAlias }
      let r := idProvider.Write OwnAlias own1
      match r.1 with
      | some err =>
        if !(err.Is Err.ErrPeerExists) then
          .error (NewErr.err (Err.wrap err "registering own user in idProvider"))
        else .ok r.2
      | none => .ok r.2

/-- The two library functions `calcSessionID` uses: the SHA-256 digest in hexadecimal
form of a byte string, and the string form of a UTC instant (`time.Time.String`).
They are parameters of the embedding. -/
structure calcEnv where
  sha256Hex : String → String
  utcString : Int → String

/-- `calcSessionID`: the digest of the off-chain address of the user followed by the
string form of the current UTC time; `now` is what `time.Now()` returns. -/
def calcSessionID (cenv : calcEnv) (userOffChainAddr : String) (now : Int) : String :=
  cenv.sha256Hex (userOffChainAddr ++ cenv.utcString now)

/-- What the collaborators of `New` return: `NewUnlockedUser`, `ParseAddr` of the
wallet backend on the asset of the configuration, `local.New`, the collaborators of
`NewEthereumPaymentClient`, the persisted channels `RestoreChs` hands to the handler
and the error it returns (nil as none); and the instant `time.Now()` returns in
`calcSessionID`. -/
structure newOutcomes where
  unlockedUser : Except Err User
  parseAsset : Except Err String
  localNew : Except Err IDProvider
  chClient : clientOutcomes
  persisted : List PChannel
  restoreRet : Option Err
  now : Int
deriving DecidableEq, Repr

/-- The steps of `New`, for its ghost record: unlocking the user, parsing the asset,
initialising the ID provider, constructing the channel client, restoring the
persisted channels, registering the handlers. -/
inductive newStep where
  | unlockUser | parseAsset | initIDProvider | newChClient | restoreChs | handle
deriving DecidableEq, Repr

/-- `session.New`: the session or the error, and the ghost record of the steps that
were started, first to last. -/
def New (cenv : calcEnv) (cfg : Config) (out : newOutcomes) :
    Except NewErr session × List newStep :=
  match out.unlockedUser with
  | .error err => (.error (NewErr.err err), [newStep.unlockUser])
  | .ok user =>
    if cfg.User.CommType ≠ "tcp" then
      (.error NewErr.ErrUnsupportedCommType, [newStep.unlockUser])
    else
      match out.parseAsset with
      | .error err => (.error (NewErr.err err), [newStep.unlockUser, newStep.parseAsset])
      | .ok chAsset =>
        match initIDProvider cfg.IDProviderType out.localNew user.Peer with
        | .error err =>
          (.error err, [newStep.unlockUser, newStep.parseAsset, newStep.initIDProvider])
        | .ok idProvider =>
          match NewEthereumPaymentClient out.chClient with
          | .error err =>
            (.error (NewErr.err err), [newStep.unlockUser, newStep.parseAsset,
              newStep.initIDProvider, newStep.newChClient])
          | .ok chClient =>
            let sessionID := calcSessionID cenv user.Peer.OffChainAddr out.now
            let timeoutCfg : timeoutConfig :=
              { onChainTx := cfg.OnChainTxTimeout, response := cfg.ResponseTimeout }
            let sess : session :=
              { id := sessionID, isOpen := true, timeoutCfg := timeoutCfg, user := user,
                chAsset := chAsset, chClient := chClient, idProvider := idProvider,
                chs := [], chProposalNotifier := none, chProposalNotifsCache := [],
                chProposalResponders := [], trace := [] }
            let sess1 := sess.restoreChs out.persisted
            match out.restoreRet with
            | some err =>
              (.error (NewErr.err (Err.withMessage err "restoring channels")),
                [newStep.unlockUser, newStep.parseAsset, newStep.initIDProvider,
                  newStep.newChClient, newStep.restoreChs])
            | none =>
              (.ok sess1, [newStep.unlockUser, newStep.parseAsset, newStep.initIDProvider,
                newStep.newChClient, newStep.restoreChs, newStep.handle])

/-! ## The node (`node/node.go`) -/

/-- The error constants of package `node`. -/
inductive NodeErr where
  | ErrUnknownSessionID
deriving DecidableEq, Repr

/-- The errors `OpenSession` returns: the API error for an invalid configuration, built
from the error of `ParseConfig` with the message "parsing config", and the error of
`session.New`. -/
inductive OpenSessionErr where
  | InvalidConfig (e : Err)
  | new (e : NewErr)
deriving DecidableEq, Repr

/-- The struct `node`: the sessions by ID. The configuration of the node is left out,
`OpenSession` and `GetSession` do not read it. -/
structure node where
  sessions : List (String × session)
deriving DecidableEq, Repr

/-- `node.OpenSession`. `parseRet` is what `session.ParseConfig(configFile)` returns.
Returns the session ID, the infos of the channels of the session and the error (nil
as none). -/
def node.OpenSession (env : Env) (cenv : calcEnv) (n : node) (parseRet : Except Err Config)
    (out : newOutcomes) : (String × List ChInfo × Option OpenSessionErr) × node :=
  match parseRet with
  | .error err =>
    (("", [], some (OpenSessionErr.InvalidConfig (Err.withMessage err "parsing config"))), n)
  | .ok sessionConfig =>
    match (New cenv sessionConfig out).1 with
    | .error apiErr => (("", [], some (OpenSessionErr.new apiErr)), n)
    | .ok sess =>
      ((sess.id, sess.GetChsInfo env, none),
        { n with sessions := mapInsert n.sessions sess.id sess })

/-- `node.GetSession`: the session, or the error. -/
def node.GetSession (n : node) (sessionID : String) : Except NodeErr session :=
  match mapLookup n.sessions sessionID with
  | none => .error NodeErr.ErrUnknownSessionID
  | some sess => .ok sess

/-! ## The gRPC server (`api/grpc/server.go`) -/

/-- An error a handler of the server turns into a response: the error of `GetSession`
or the error of the session. The `MsgError` of the response carries its message
(`err.Error()`). -/
inductive handlerErr where
  | node (e : NodeErr)
  | session (e : Err)
deriving DecidableEq, Repr

/-- The `oneof` of a response message: the error variant with the message of the
error, or the success variant with its payload. -/
inductive Response (α : Type) where
  | Error (err : handlerErr)
  | MsgSuccess (payload : α)
deriving DecidableEq, Repr

/-- The struct `PayChServer`: the node. The maps of signalling channels are left out,
the two handlers below do not touch them. -/
structure PayChServer where
  n : node
deriving DecidableEq, Repr

/-- The request of `AddContact`. -/
structure AddContactReq where
  SessionID : String
  Peer : Peer
deriving DecidableEq, Repr

/-- The request of `CloseSession`. -/
structure CloseSessionReq where
  SessionID : String
  Force : Bool
deriving DecidableEq, Repr

/-- `PayChServer.AddContact`: the response (nil as none) and the transport error (nil
as none). The session is held by reference, so the node holds it as `AddContact`
left it. The payload of the success variant is the flag `Success`. -/
def PayChServer.AddContact (env : Env) (a : PayChServer) (req : AddContactReq) :
    (Option (Response Bool) × Option String) × PayChServer :=
  match a.n.GetSession req.SessionID with
  | .error err => ((some (Response.Error (handlerErr.node err)), none), a)
  | .ok sess =>
    let r := sess.AddContact env
      { Alias := req.Peer.Alias, OffChainAddr := req.Peer.OffChainAddr,
        CommAddr := req.Peer.CommAddr, CommType := req.Peer.CommType }
    let a1 : PayChServer := { n := { sessions := mapInsert a.n.sessions req.SessionID r.2 } }
    match r.1 with
    | some err => ((some (Response.Error (handlerErr.session err)), none), a1)
    | none => ((some (Response.MsgSuccess true), none), a1)

/-- `PayChServer.CloseSession`: the stub returns a nil response and a nil error. The
payload of the success variant would be the infos of the open channels. -/
def PayChServer.CloseSession (a : PayChServer) (_req : CloseSessionReq) :
    (Option (Response (List ChInfo)) × Option String) × PayChServer :=
  ((none, none), a)

/-! ## More sample values -/

/-- A choice of the two library functions: the digest of a string is the string, the
string form of an instant is its number of nanoseconds. -/
def sampleCalcEnv : calcEnv :=
  { sha256Hex := fun s => s, utcString := fun t => toString t }

/-- A configuration of the user `self` with comm type and ID provider type of one's
choice. -/
def sampleConfig (commType idProviderType : String) : Config :=
  { User := { Alias := "self", OnChainAddr := "0x1", OffChainAddr := "0xa",
              CommAddr := "127.0.0.1:5750", CommType := commType },
    IDProviderType := idProviderType, IDProviderURL := "idprovider.yaml",
    ChainURL := "ws://127.0.0.1:8545", Asset := "0xasset", Adjudicator := "0xadj",
    ChainConnTimeout := 10000000000, OnChainTxTimeout := 10000000000,
    ResponseTimeout := 10000000000, DatabaseDir := "db", PeerReconnTimeout := 10000000000 }

/-- Collaborators that all succeed for the user `self`: the ID provider loaded knows
`bob`, the given channels are persisted, the clock reads `now`. -/
def sampleOutcomes (persisted : List PChannel) (now : Int) : newOutcomes :=
  { unlockedUser := .ok (sampleSession [] []).user,
    parseAsset := .ok "0xasset",
    localNew := .ok { peers := [samplePeer "bob" "0xb"] },
    chClient := { connectToChain := none, unlock := none, pclientNew := none,
                  loadPersister := none, newListener := none, pClientCloseRet := none,
                  msgBusCloseRet := none },
    persisted := persisted, restoreRet := none, now := now }

/-- The sample configuration with database directory and comm address of one's
choice. -/
def sampleConfigAt (databaseDir commAddr : String) : Config :=
  { sampleConfig "tcp" "yaml" with
    DatabaseDir := databaseDir,
    User := { (sampleConfig "tcp" "yaml").User with CommAddr := commAddr } }

/-- The sample outcomes for the user `self` listening on the given comm address. -/
def sampleOutcomesAt (commAddr : String) (now : Int) : newOutcomes :=
  { sampleOutcomes [] now with
    unlockedUser := .ok { (sampleSession [] []).user with
      Peer := { samplePeer "self" "0xa" with CommAddr := commAddr } } }

/-- A node without sessions. -/
def sampleNode : node := { sessions := [] }

theorem closeLoop_free (env : Env) (chs : List (String × channel)) :
    ∀ st : closeState, (∀ e ∈ chs, e.2.locked = false) →
      closeLoop env chs st = some
        { visited := st.visited ++ lockAll chs,
          openChsInfo := st.openChsInfo ++
            (chs.filter (fun e => e.2.isOpenCh)).map (fun e => e.2.getChInfo env),
          unexpectedPhaseChIDs := st.unexpectedPhaseChIDs ++
            (chs.filter (fun e => e.2.unexpectedPhase)).map (fun e => e.2.id) } := by
  induction chs with
  | nil => intro st _; simp [closeLoop, lockAll]
  | cons e rest ih =>
    intro st hfree
    obtain ⟨k, ch⟩ := e
    have hch : ch.locked = false := hfree (k, ch) (List.mem_cons_self _ _)
    have hrest : ∀ e ∈ rest, e.2.locked = false :=
      fun e he => hfree e (List.mem_cons_of_mem _ he)
    rw [closeLoop]
    simp only [hch, Bool.false_eq_true, if_false]
    rw [ih _ hrest]
    by_cases hp : ch.pch.phase ≠ Phase.Acting ∧ ch.pch.phase ≠ Phase.Withdrawn <;>
      by_cases ho : ch.status = chStatus.open <;>
      simp [hp, ho, lockAll, channel.unexpectedPhase, channel.isOpenCh, channel.getChInfo,
        List.filter_cons]

theorem unlock_lockAll (chs : List (String × channel))
    (hfree : ∀ e ∈ chs, e.2.locked = false) :
    (lockAll chs).map (fun e => (e.1, { e.2 with locked := false })) = chs := by
  induction chs with
  | nil => rfl
  | cons e rest ih =>
    obtain ⟨k, ch⟩ := e
    have hch : ch.locked = false := hfree (k, ch) (List.mem_cons_self _ _)
    have hrest : ∀ e ∈ rest, e.2.locked = false :=
      fun e he => hfree e (List.mem_cons_of_mem _ he)
    have ih1 := ih hrest
    simp only [lockAll] at ih1 ⊢
    rw [List.map_cons, List.map_cons, ih1]
    cases ch
    simp_all

/-- What `Close` does on an open session whose channel mutexes are all free. -/
theorem Close_of_open_free (env : Env) (s : session) (force : Bool)
    (hopen : s.isOpen = true) (hfree : ∀ e ∈ s.chs, e.2.locked = false) :
    s.Close env force =
      if s.unexpectedPhaseChIDs ≠ [] then
        some ((none, some (env.GetAPIError (Err.withStack
          (Err.errorf "chs in unexpected phase during session close: %v"
            [FmtArg.strs s.unexpectedPhaseChIDs])))), s)
      else if force = false ∧ s.openChsInfo env ≠ [] then
        some ((some (s.openChsInfo env), some (env.GetAPIError (Err.withStack
          (Err.errorfW "%w: %v" Err.ErrOpenCh [FmtArg.infos (s.openChsInfo env)])))), s)
      else
        some ((some (s.openChsInfo env),
            ({ s with chs := lockAll s.chs, isOpen := false } : session).close.1),
          ({ s with chs := lockAll s.chs, isOpen := false } : session).close.2) := by
  obtain ⟨id, isOpen, tc, user, asset, cl, idp, chs, nf, cache, resp, tr⟩ := s
  simp only at hopen hfree
  subst hopen
  have hu := unlock_lockAll chs hfree
  unfold session.Close
  simp only [Bool.not_true, Bool.false_eq_true, if_false,
    closeLoop_free env chs _ hfree, List.nil_append, ne_eq, List.length_eq_zero,
    Bool.not_eq_true', getAPIError, Option.map_some', session.unlockAllChs, hu,
    session.unexpectedPhaseChIDs, session.openChsInfo, ite_not]

theorem mem_openChsInfo (env : Env) (s : session) (info : ChInfo) :
    info ∈ s.openChsInfo env ↔
      ∃ e ∈ s.chs, e.2.status = chStatus.open ∧ e.2.getChInfo env = info := by
  simp only [session.openChsInfo, List.mem_map, List.mem_filter, channel.isOpenCh,
    decide_eq_true_eq]
  constructor
  · rintro ⟨e, ⟨he, hst⟩, hi⟩
    exact ⟨e, he, hst, hi⟩
  · rintro ⟨e, he, hst, hi⟩
    exact ⟨e, ⟨he, hst⟩, hi⟩

/-- C1: on an open session whose channels are all in phase Acting or Withdrawn and of
which at least one has status open, `Close(force=false)` returns the infos of exactly
the channels with status open, together with the API error of an error that wraps
`ErrOpenCh` (itself wrapping `ErrOpenCh` when `GetAPIError` keeps what an error
wraps), and leaves the session as it was: still open, the wallets and the channel
client untouched, every channel mutex free again. -/
theorem Close_noforce_with_open_chs (env : Env) (s : session)
    (hopen : s.isOpen = true)
    (hfree : ∀ e ∈ s.chs, e.2.locked = false)
    (hphase : ∀ e ∈ s.chs, e.2.pch.phase = Phase.Acting ∨ e.2.pch.phase = Phase.Withdrawn)
    (hone : ∃ e ∈ s.chs, e.2.status = chStatus.open) :
    s.Close env false = some ((some (s.openChsInfo env), some (env.GetAPIError
      (Err.withStack (Err.errorfW "%w: %v" Err.ErrOpenCh [FmtArg.infos (s.openChsInfo env)])))),
      s) ∧
    (Err.withStack (Err.errorfW "%w: %v" Err.ErrOpenCh
      [FmtArg.infos (s.openChsInfo env)])).Is Err.ErrOpenCh = true ∧
    ((∀ e, e.Is Err.ErrOpenCh = true → (env.GetAPIError e).Is Err.ErrOpenCh = true) →
      (env.GetAPIError (Err.withStack (Err.errorfW "%w: %v" Err.ErrOpenCh
        [FmtArg.infos (s.openChsInfo env)]))).Is Err.ErrOpenCh = true) ∧
    s.openChsInfo env ≠ [] ∧
    (∀ info, info ∈ s.openChsInfo env ↔
      ∃ e ∈ s.chs, e.2.status = chStatus.open ∧ e.2.getChInfo env = info) := by
  have hids : s.unexpectedPhaseChIDs = [] := by
    simp only [session.unexpectedPhaseChIDs, List.map_eq_nil_iff, List.filter_eq_nil_iff]
    intro e he
    have := hphase e he
    simp only [channel.unexpectedPhase, ne_eq, decide_eq_true_eq, not_and, not_not]
    intro h1
    rcases this with h | h
    · exact absurd h h1
    · exact h
  have hinfos : s.openChsInfo env ≠ [] := by
    obtain ⟨e, he, hst⟩ := hone
    have hmem : e ∈ s.chs.filter (fun e => e.2.isOpenCh) := by
      rw [List.mem_filter]
      exact ⟨he, by simp [channel.isOpenCh, hst]⟩
    intro hnil
    simp only [session.openChsInfo, List.map_eq_nil_iff] at hnil
    rw [hnil] at hmem
    exact absurd hmem (List.not_mem_nil _)
  have hwraps : (Err.withStack (Err.errorfW "%w: %v" Err.ErrOpenCh
      [FmtArg.infos (s.openChsInfo env)])).Is Err.ErrOpenCh = true := by
    simp [Err.Is]
  refine ⟨?_, hwraps, fun hkeep => hkeep _ hwraps, hinfos, mem_openChsInfo env s⟩
  rw [Close_of_open_free env s false hopen hfree, if_neg (by simpa using hids),
    if_pos ⟨rfl, hinfos⟩]

/-- Witness of C1: a session with one open channel in phase Acting and one closed
channel in phase Withdrawn. -/
theorem Close_noforce_with_open_chs_witness :
    (sampleSession [("c1", sampleCh "c1" Phase.Acting chStatus.open),
        ("c2", sampleCh "c2" Phase.Withdrawn chStatus.closed)] []).Close sampleEnv false
      = some ((some [(sampleCh "c1" Phase.Acting chStatus.open).getChInfo sampleEnv],
          some Err.ErrOpenCh),
        sampleSession [("c1", sampleCh "c1" Phase.Acting chStatus.open),
          ("c2", sampleCh "c2" Phase.Withdrawn chStatus.closed)] []) := by
  have h := (Close_noforce_with_open_chs sampleEnv
    (sampleSession [("c1", sampleCh "c1" Phase.Acting chStatus.open),
      ("c2", sampleCh "c2" Phase.Withdrawn chStatus.closed)] [])
    rfl (by simp [sampleSession, sampleCh]) (by simp [sampleSession, sampleCh])
    ⟨("c1", sampleCh "c1" Phase.Acting chStatus.open), by simp [sampleSession], rfl⟩).1
  rw [h]
  simp [session.openChsInfo, sampleSession, sampleCh, channel.isOpenCh, sampleEnv]

/-- What `Close` returns on an open session holding a channel in an unexpected phase,
for any `GetAPIError`. -/
theorem Close_unexpected_phase_eq (env : Env) (s : session) (force : Bool)
    (hopen : s.isOpen = true)
    (hfree : ∀ e ∈ s.chs, e.2.locked = false)
    (hbad : ∃ e ∈ s.chs, e.2.pch.phase ≠ Phase.Acting ∧ e.2.pch.phase ≠ Phase.Withdrawn) :
    s.Close env force = some ((none, some (env.GetAPIError (Err.withStack
        (Err.errorf "chs in unexpected phase during session close: %v"
          [FmtArg.strs s.unexpectedPhaseChIDs])))), s) ∧
    s.unexpectedPhaseChIDs ≠ [] := by
  have hne : s.unexpectedPhaseChIDs ≠ [] := by
    obtain ⟨e, he, hp⟩ := hbad
    have hmem : e ∈ s.chs.filter (fun e => e.2.unexpectedPhase) := by
      rw [List.mem_filter]
      exact ⟨he, by simp [channel.unexpectedPhase, hp]⟩
    intro hnil
    simp only [session.unexpectedPhaseChIDs, List.map_eq_nil_iff] at hnil
    rw [hnil] at hmem
    exact absurd hmem (List.not_mem_nil _)
  refine ⟨?_, hne⟩
  rw [Close_of_open_free env s force hopen hfree, if_pos hne]

/-- C2: on an open session holding at least one channel whose phase is neither Acting
nor Withdrawn, `Close` returns, for either value of `force` and whether or not a
channel is open, a nil channel list and an error; when `GetAPIError` keeps the values
the message of an error prints (`hkeep`), the message of the error returned prints
one value, the list of the IDs of exactly those channels. The session is left as it
was, still open, and every channel mutex is free again. -/
theorem Close_unexpected_phase (env : Env) (s : session) (force : Bool)
    (hopen : s.isOpen = true)
    (hfree : ∀ e ∈ s.chs, e.2.locked = false)
    (hbad : ∃ e ∈ s.chs, e.2.pch.phase ≠ Phase.Acting ∧ e.2.pch.phase ≠ Phase.Withdrawn)
    (hkeep : ∀ e, (env.GetAPIError e).args = e.args) :
    ∃ err ids,
      s.Close env force = some ((none, some err), s) ∧
      err = env.GetAPIError (Err.withStack
        (Err.errorf "chs in unexpected phase during session close: %v" [FmtArg.strs ids])) ∧
      err.args = [FmtArg.strs ids] ∧
      ids ≠ [] ∧
      (∀ id, id ∈ ids ↔
        ∃ e ∈ s.chs, e.2.id = id ∧
          e.2.pch.phase ≠ Phase.Acting ∧ e.2.pch.phase ≠ Phase.Withdrawn) ∧
      (∀ r, s.Close env force = some r →
        r.1.1 = none ∧ r.2 = s ∧ r.2.isOpen = true ∧ ∀ e ∈ r.2.chs, e.2.locked = false) := by
  obtain ⟨hclose, hne⟩ := Close_unexpected_phase_eq env s force hopen hfree hbad
  refine ⟨_, s.unexpectedPhaseChIDs, hclose, rfl, ?_, hne, ?_, ?_⟩
  · rw [hkeep]
    rfl
  · intro id
    simp only [session.unexpectedPhaseChIDs, List.mem_map, List.mem_filter,
      channel.unexpectedPhase, decide_eq_true_eq]
    constructor
    · rintro ⟨e, ⟨he, hp⟩, hid⟩
      exact ⟨e, he, hid, hp⟩
    · rintro ⟨e, he, hid, hp⟩
      exact ⟨e, ⟨he, hp⟩, hid⟩
  · intro r hr
    rw [hclose] at hr
    cases hr
    exact ⟨rfl, rfl, hopen, hfree⟩

/-- Witness of C2: a session with an open channel in phase Registering and one in
phase Acting, closed with force; the error returned prints the ID `c1`. -/
theorem Close_unexpected_phase_witness :
    (sampleSession [("c1", sampleCh "c1" Phase.Registering chStatus.open),
        ("c2", sampleCh "c2" Phase.Acting chStatus.open)] []).Close sampleEnvKeep true
      = some ((none, some (Err.withStack
          (Err.errorf "chs in unexpected phase during session close: %v"
            [FmtArg.strs ["c1"]]))),
        sampleSession [("c1", sampleCh "c1" Phase.Registering chStatus.open),
          ("c2", sampleCh "c2" Phase.Acting chStatus.open)] []) ∧
    (Err.withStack (Err.errorf "chs in unexpected phase during session close: %v"
      [FmtArg.strs ["c1"]])).args = [FmtArg.strs ["c1"]] ∧
    ∃ err ids,
      (sampleSession [("c1", sampleCh "c1" Phase.Registering chStatus.open),
        ("c2", sampleCh "c2" Phase.Acting chStatus.open)] []).Close sampleEnvKeep true
        = some ((none, some err),
          sampleSession [("c1", sampleCh "c1" Phase.Registering chStatus.open),
            ("c2", sampleCh "c2" Phase.Acting chStatus.open)] []) ∧
      err.args = [FmtArg.strs ids] ∧ ids ≠ [] := by
  obtain ⟨err, ids, h1, _, h3, h4, _⟩ := Close_unexpected_phase sampleEnvKeep
    (sampleSession [("c1", sampleCh "c1" Phase.Registering chStatus.open),
      ("c2", sampleCh "c2" Phase.Acting chStatus.open)] []) true
    rfl (by simp [sampleSession, sampleCh])
    ⟨("c1", sampleCh "c1" Phase.Registering chStatus.open), by simp [sampleSession],
      by simp [sampleCh]⟩ (fun _ => rfl)
  exact ⟨rfl, rfl, err, ids, h1, h3, h4⟩

theorem client_Close_pClient (c : client) : c.Close.2.pClientCloseCalled = true := by
  unfold client.Close
  split
  · rfl
  · split <;> rfl

theorem client_Close_msgBus (c : client) (h : c.pClientCloseRet = none) :
    c.Close.2.msgBusCloseCalled = true := by
  unfold client.Close
  split
  · rename_i e he
    rw [h] at he
    cases he
  · split <;> rfl

/-- C3: on an open session whose channels are all in phase Acting or Withdrawn, with
`force` set or no channel of status open, `Close` clears `isOpen`, calls `LockAll` on
the on-chain and on the off-chain wallet, calls `Close` on the channel client (which
closes the go-perun client and, when that gives no error, the message bus) and
returns the infos of exactly the channels whose status is open, the empty list when
`force` is false; the error returned is the one of closing the channel client. -/
theorem Close_closes_session (env : Env) (s : session) (force : Bool)
    (hopen : s.isOpen = true)
    (hfree : ∀ e ∈ s.chs, e.2.locked = false)
    (hphase : ∀ e ∈ s.chs, e.2.pch.phase = Phase.Acting ∨ e.2.pch.phase = Phase.Withdrawn)
    (hok : force = true ∨ ∀ e ∈ s.chs, e.2.status ≠ chStatus.open) :
    s.Close env force = some ((some (s.openChsInfo env),
      WithMessage s.chClient.Close.1 "closing session"), s.closed) ∧
    (∀ info, info ∈ s.openChsInfo env ↔
      ∃ e ∈ s.chs, e.2.status = chStatus.open ∧ e.2.getChInfo env = info) ∧
    (force = false → s.openChsInfo env = []) ∧
    s.closed.isOpen = false ∧
    s.closed.user.OnChain.Wallet.lockedAll = true ∧
    s.closed.user.OffChain.Wallet.lockedAll = true ∧
    s.closed.chClient = s.chClient.Close.2 ∧
    s.closed.chClient.pClientCloseCalled = true ∧
    (s.chClient.pClientCloseRet = none → s.closed.chClient.msgBusCloseCalled = true) ∧
    s.closed.trace = s.trace ++ [Call.onChainLockAll, Call.offChainLockAll, Call.chClientClose] := by
  have hids : s.unexpectedPhaseChIDs = [] := by
    simp only [session.unexpectedPhaseChIDs, List.map_eq_nil_iff, List.filter_eq_nil_iff]
    intro e he
    have := hphase e he
    simp only [channel.unexpectedPhase, ne_eq, decide_eq_true_eq, not_and, not_not]
    intro h1
    rcases this with h | h
    · exact absurd h h1
    · exact h
  have hnil : force = false → s.openChsInfo env = [] := by
    intro hf
    rcases hok with h | h
    · rw [hf] at h; exact absurd h (by decide)
    · simp only [session.openChsInfo, List.map_eq_nil_iff, List.filter_eq_nil_iff]
      intro e he
      simp [channel.isOpenCh, h e he]
  refine ⟨?_, mem_openChsInfo env s, hnil, ?_, ?_, ?_, ?_, ?_, ?_, ?_⟩
  · rw [Close_of_open_free env s force hopen hfree, if_neg (by simpa using hids),
      if_neg (by rintro ⟨hf, hne⟩; exact hne (hnil hf))]
    rfl
  · rfl
  · rfl
  · rfl
  · rfl
  · exact client_Close_pClient s.chClient
  · exact client_Close_msgBus s.chClient
  · rfl

/-- Witness of C3: a session with an open channel in phase Acting, closed with force. -/
theorem Close_closes_session_witness :
    ((sampleSession [("c1", sampleCh "c1" Phase.Acting chStatus.open)] []).Close sampleEnv true).map
        (fun r => (r.1, r.2.isOpen, r.2.chClient.pClientCloseCalled, r.2.chClient.msgBusCloseCalled))
      = some ((some [(sampleCh "c1" Phase.Acting chStatus.open).getChInfo sampleEnv], none),
          false, true, true) := by
  have h := (Close_closes_session sampleEnv
    (sampleSession [("c1", sampleCh "c1" Phase.Acting chStatus.open)] []) true
    rfl (by simp [sampleSession, sampleCh]) (by simp [sampleSession, sampleCh])
    (Or.inl rfl)).1
  rw [h]
  simp [session.openChsInfo, sampleSession, sampleCh, channel.isOpenCh, sampleEnv,
    session.closed, session.close, client.Close, WithMessage]

/-- C4: on a session whose `isOpen` flag is false, each of `AddContact`, `GetContact`,
`OpenCh`, `SubChProposals`, `UnsubChProposals`, `RespondChProposal` and `Close`
returns `ErrSessionClosed` and leaves the whole session as it was: channels,
responder entries, notifier and notification cache unchanged, and no call made on
the ID provider, the channel client or any other collaborator (the trace is
unchanged). -/
theorem closed_session_rejects (env : Env) (s : session) (h : s.isOpen = false)
    (peer : Peer) (al : String) (openingBalInfo : BalInfo) (app : App)
    (challengeDurSecs : Nat) (proposeRet : Except String PChannel) (notifier : String)
    (now : Int) (chProposalID : String) (accept force : Bool) :
    s.AddContact env peer = (some Err.ErrSessionClosed, s) ∧
    s.GetContact al = ((zeroPeer, some Err.ErrSessionClosed), s) ∧
    s.OpenCh env openingBalInfo app challengeDurSecs proposeRet
      = some ((zeroChInfo, some Err.ErrSessionClosed), s) ∧
    s.SubChProposals notifier = some (some Err.ErrSessionClosed, s) ∧
    s.UnsubChProposals = (some Err.ErrSessionClosed, s) ∧
    s.RespondChProposal env now chProposalID accept
      = ((zeroChInfo, some Err.ErrSessionClosed), s) ∧
    s.Close env force = some ((none, some Err.ErrSessionClosed), s) := by
  simp [session.AddContact, session.GetContact, session.OpenCh, session.SubChProposals,
    session.UnsubChProposals, session.RespondChProposal, session.Close, h]

/-- Witness of C4: the session left by a forced `Close`, which still holds its channel
and a responder entry. -/
theorem closed_session_rejects_witness :
    ((sampleSession [("c1", sampleCh "c1" Phase.Acting chStatus.open)] []).closed.Close
        sampleEnv true).map (fun r => r.1)
      = some (none, some Err.ErrSessionClosed) := by
  rw [(closed_session_rejects sampleEnv
    (sampleSession [("c1", sampleCh "c1" Phase.Acting chStatus.open)] []).closed rfl
    zeroPeer "bob" default default 0 (.error "") "n" 0 "p" true true).2.2.2.2.2.2]
  rfl

/-- C5 (as stated, refuted): the session left by a forced `Close` is closed and still
holds the channel `c1`; `GetCh` on it returns that channel and a nil error, not
`ErrSessionClosed`. -/
theorem GetCh_closed_session_counterexample :
    (sampleSession [("c1", sampleCh "c1" Phase.Acting chStatus.open)] []).Close sampleEnv true
      = some ((some [(sampleCh "c1" Phase.Acting chStatus.open).getChInfo sampleEnv], none),
          (sampleSession [("c1", sampleCh "c1" Phase.Acting chStatus.open)] []).closed) ∧
    (sampleSession [("c1", sampleCh "c1" Phase.Acting chStatus.open)] []).closed.isOpen = false ∧
    (sampleSession [("c1", sampleCh "c1" Phase.Acting chStatus.open)] []).closed.GetCh "c1"
      = (some { sampleCh "c1" Phase.Acting chStatus.open with locked := true }, none) ∧
    ((sampleSession [("c1", sampleCh "c1" Phase.Acting chStatus.open)] []).closed.GetCh "c1").2
      ≠ some Err.ErrSessionClosed := by
  refine ⟨?_, rfl, ?_, ?_⟩
  · rw [Close_of_open_free sampleEnv _ true rfl (by simp [sampleSession, sampleCh])]
    simp [session.unexpectedPhaseChIDs, session.openChsInfo, sampleSession, sampleCh,
      channel.unexpectedPhase, channel.isOpenCh, session.closed, session.close, client.Close,
      WithMessage, lockAll]
  · simp [session.GetCh, session.closed, session.close, sampleSession, lockAll, mapLookup]
  · simp [session.GetCh, session.closed, session.close, sampleSession, lockAll, mapLookup]

/-- C5 (amended): `GetCh` does not look at `isOpen`. On every session, open or closed,
it returns the channel stored under the ID with a nil error when there is one and
`ErrUnknownChID` when there is none; it never returns `ErrSessionClosed`. -/
theorem GetCh_ignores_isOpen (s : session) (chID : String) :
    (∀ ch, mapLookup s.chs chID = some ch → s.GetCh chID = (some ch, none)) ∧
    (mapLookup s.chs chID = none → s.GetCh chID = (none, some Err.ErrUnknownChID)) ∧
    (s.GetCh chID).2 ≠ some Err.ErrSessionClosed ∧
    s.GetCh chID = ({ s with isOpen := !s.isOpen } : session).GetCh chID := by
  refine ⟨?_, ?_, ?_, rfl⟩
  · intro ch h
    simp [session.GetCh, h]
  · intro h
    simp [session.GetCh, h]
  · unfold session.GetCh
    cases mapLookup s.chs chID <;> simp

theorem sendCached_all (notifier : String) (cache : List ChProposalNotif) :
    ∀ calls : List Call, sendCached notifier cache.length cache calls
      = some ([], calls ++ cache.map (Call.notify notifier)) := by
  induction cache with
  | nil => intro calls; simp [sendCached]
  | cons n rest ih =>
    intro calls
    rw [List.length_cons, sendCached]
    simp only [List.length_cons, le_refl, if_true, List.take_succ_cons, List.take_length,
      List.drop_succ_cons, List.drop_zero]
    rw [ih]
    simp

/-- What `SubChProposals` does on an open session without a notifier. -/
theorem SubChProposals_of_open_none (s : session) (notifier : String)
    (hopen : s.isOpen = true) (hnone : s.chProposalNotifier = none) :
    s.SubChProposals notifier = some (none,
      { s with chProposalNotifier := some notifier, chProposalNotifsCache := [],
               trace := s.trace ++ s.chProposalNotifsCache.map (Call.notify notifier) }) := by
  unfold session.SubChProposals
  simp [hopen, hnone, sendCached_all]

/-- C6: on an open session with a proposal notifier registered, `SubChProposals`
returns `ErrSubAlreadyExists` and leaves the session, and so the registered notifier
and the notification cache, as it was; on an open session without a notifier it
returns nil and registers the notifier given. -/
theorem SubChProposals_second_sub (s : session) (notifier : String)
    (hopen : s.isOpen = true) :
    (∀ old, s.chProposalNotifier = some old →
      s.SubChProposals notifier = some (some Err.ErrSubAlreadyExists, s)) ∧
    (s.chProposalNotifier = none →
      ∃ s1, s.SubChProposals notifier = some (none, s1) ∧
        s1.chProposalNotifier = some notifier) := by
  constructor
  · intro old h
    simp [session.SubChProposals, hopen, h]
  · intro h
    exact ⟨_, SubChProposals_of_open_none s notifier hopen h, rfl⟩

/-- Witness of C6: a second subscription right after a first one. -/
theorem SubChProposals_second_sub_witness :
    ∃ s1, (sampleSession [] []).SubChProposals "n1" = some (none, s1) ∧
      s1.SubChProposals "n2" = some (some Err.ErrSubAlreadyExists, s1) ∧
      s1.chProposalNotifier = some "n1" := by
  obtain ⟨s1, h1, h2⟩ := (SubChProposals_second_sub (sampleSession [] []) "n1" rfl).2 rfl
  refine ⟨s1, h1, ?_, h2⟩
  have hopen : s1.isOpen = true := by
    rw [SubChProposals_of_open_none _ _ rfl rfl] at h1
    cases h1
    rfl
  exact (SubChProposals_second_sub s1 "n2" hopen).1 "n1" h2

theorem resolvePeerAddrs_reads_notify (idp : IDProvider) (addrs : List String) :
    (resolvePeerAddrs idp addrs).reads.filter Call.isNotify = [] := by
  induction addrs with
  | nil => rfl
  | cons a rest ih =>
    unfold resolvePeerAddrs
    cases idp.ReadByOffChainAddr a with
    | none => simp [Call.isNotify]
    | some p => simp [Call.isNotify, ih]

/-- What `HandleProposal` does on an open session without a notifier: the session
stays open and without notifier, the notification is appended to the cache, and the
notifier is not started. -/
theorem HandleProposal_of_open_none (env : Env) (s : session) (now : Int)
    (chProposal : ChannelProposal) (responder : chProposalResponder)
    (hopen : s.isOpen = true) (hnone : s.chProposalNotifier = none) :
    (s.HandleProposal env now chProposal responder).isOpen = true ∧
    (s.HandleProposal env now chProposal responder).chProposalNotifier = none ∧
    (s.HandleProposal env now chProposal responder).idProvider = s.idProvider ∧
    (s.HandleProposal env now chProposal responder).timeoutCfg = s.timeoutCfg ∧
    (s.HandleProposal env now chProposal responder).chProposalNotifsCache
      = s.chProposalNotifsCache ++ [s.proposalNotif env now chProposal] ∧
    (s.HandleProposal env now chProposal responder).trace.filter Call.isNotify
      = s.trace.filter Call.isNotify := by
  unfold session.HandleProposal session.proposalNotif
  simp only [hopen, Bool.not_true, Bool.false_eq_true, if_false]
  cases hu : (resolvePeerAddrs s.idProvider chProposal.PeerAddrs).unknown with
  | some a =>
    simp [session.rejectChProposal, hnone, hopen, Call.isNotify,
      resolvePeerAddrs_reads_notify]
  | none =>
    by_cases he : Unix (now + s.timeoutCfg.response) = 0
    · simp [he, hnone, hopen, resolvePeerAddrs_reads_notify]
    · simp [he, hnone, hopen, resolvePeerAddrs_reads_notify]

theorem proposalNotif_congr (env : Env) (s t : session) (now : Int) (p : ChannelProposal)
    (hidp : t.idProvider = s.idProvider) (htc : t.timeoutCfg = s.timeoutCfg) :
    t.proposalNotif env now p = s.proposalNotif env now p := by
  simp [session.proposalNotif, hidp, htc]

/-- What `HandleProposal` does, call after call, on an open session without a
notifier. -/
theorem handleProposals_of_open_none (env : Env) (arrivals : List arrival) :
    ∀ s : session, s.isOpen = true → s.chProposalNotifier = none →
      (s.handleProposals env arrivals).isOpen = true ∧
      (s.handleProposals env arrivals).chProposalNotifier = none ∧
      (s.handleProposals env arrivals).chProposalNotifsCache
        = s.chProposalNotifsCache ++
            arrivals.map (fun a => s.proposalNotif env a.now a.chProposal) ∧
      (s.handleProposals env arrivals).trace.filter Call.isNotify
        = s.trace.filter Call.isNotify := by
  induction arrivals with
  | nil => intro s hopen hnone; simp [session.handleProposals, hopen, hnone]
  | cons a rest ih =>
    intro s hopen hnone
    obtain ⟨h1, h2, h3, h4, h5, h6⟩ :=
      HandleProposal_of_open_none env s a.now a.chProposal a.responder hopen hnone
    obtain ⟨i1, i2, i3, i4⟩ := ih _ h1 h2
    simp only [session.handleProposals]
    refine ⟨i1, i2, ?_, ?_⟩
    · rw [i3, h5, List.map_cons, List.append_assoc, List.singleton_append]
      congr 2
      apply List.map_congr_left
      intro b _
      exact proposalNotif_congr env s _ b.now b.chProposal h3 h4
    · rw [i4, h6]

/-- C7: let an open session without a notifier handle any sequence of proposals.
Each gets one notification appended to the cache, in the order of arrival, and the
notifier is started for none of them. A following `SubChProposals` succeeds, starts
the notifier once on each cached notification, in that order (the notifications
cached before, then the ones of the sequence), and leaves the cache empty. -/
theorem SubChProposals_sends_cache_in_order (env : Env) (s : session)
    (arrivals : List arrival) (notifier : String)
    (hopen : s.isOpen = true) (hnone : s.chProposalNotifier = none) :
    (s.handleProposals env arrivals).chProposalNotifsCache
      = s.chProposalNotifsCache ++
          arrivals.map (fun a => s.proposalNotif env a.now a.chProposal) ∧
    (s.handleProposals env arrivals).trace.filter Call.isNotify
      = s.trace.filter Call.isNotify ∧
    ∃ s1, (s.handleProposals env arrivals).SubChProposals notifier = some (none, s1) ∧
      s1.trace = (s.handleProposals env arrivals).trace ++
        (s.chProposalNotifsCache ++
          arrivals.map (fun a => s.proposalNotif env a.now a.chProposal)).map
            (Call.notify notifier) ∧
      s1.chProposalNotifsCache = [] ∧
      s1.chProposalNotifier = some notifier := by
  obtain ⟨h1, h2, h3, h4⟩ := handleProposals_of_open_none env arrivals s hopen hnone
  refine ⟨h3, h4, _, SubChProposals_of_open_none _ notifier h1 h2, ?_, rfl, rfl⟩
  simp only [h3]

/-- Witness of C7: two proposals, the first from the known peer `bob`, the second
from an unknown address, then a subscription. -/
theorem SubChProposals_sends_cache_in_order_witness :
    ∃ s1, ((sampleSession [] []).handleProposals sampleEnv
        [⟨1700000000000000000, sampleProposal "p1" ["0xa", "0xb"], sampleResponder "r1" "c1"⟩,
         ⟨1700000001000000000, sampleProposal "p2" ["0xa", "0xc"], sampleResponder "r2" "c2"⟩]
        ).SubChProposals "n" = some (none, s1) ∧
      s1.trace.filter Call.isNotify =
        [Call.notify "n" ((sampleSession [] []).proposalNotif sampleEnv 1700000000000000000
            (sampleProposal "p1" ["0xa", "0xb"])),
         Call.notify "n" ((sampleSession [] []).proposalNotif sampleEnv 1700000001000000000
            (sampleProposal "p2" ["0xa", "0xc"]))] ∧
      s1.chProposalNotifsCache = [] := by
  obtain ⟨_, h2, s1, h3, h4, h5, _⟩ := SubChProposals_sends_cache_in_order sampleEnv
    (sampleSession [] [])
    [⟨1700000000000000000, sampleProposal "p1" ["0xa", "0xb"], sampleResponder "r1" "c1"⟩,
     ⟨1700000001000000000, sampleProposal "p2" ["0xa", "0xc"], sampleResponder "r2" "c2"⟩]
    "n" rfl rfl
  refine ⟨s1, h3, ?_, h5⟩
  rw [h4, List.filter_append, h2]
  simp [sampleSession, Call.isNotify]

theorem mapLookup_mapDelete_self {V : Type} (m : List (String × V)) (k : String) :
    mapLookup (mapDelete m k) k = none := by
  simp only [mapLookup, mapDelete, Option.map_eq_none', List.find?_eq_none, List.mem_filter]
  rintro e ⟨_, he⟩
  simpa using he

/-- What `RespondChProposal` does on an open session that holds an entry under the
proposal ID: the entry is removed whatever follows; past the expiry nothing else
happens; otherwise the responder is called once, and the error returned is nil or
the API error of the responder's error. -/
theorem RespondChProposal_of_entry (env : Env) (s : session) (now : Int)
    (chProposalID : String) (accept : Bool) (entry : chProposalResponderEntry)
    (hopen : s.isOpen = true)
    (hentry : mapLookup s.chProposalResponders chProposalID = some entry) :
    (s.RespondChProposal env now chProposalID accept).2.isOpen = true ∧
    (s.RespondChProposal env now chProposalID accept).2.chProposalResponders
      = mapDelete s.chProposalResponders chProposalID ∧
    (entry.notif.Expiry < Unix now →
      s.RespondChProposal env now chProposalID accept
        = ((zeroChInfo, some Err.ErrRespTimeoutExpired),
            { s with chProposalResponders := mapDelete s.chProposalResponders chProposalID })) ∧
    (¬ entry.notif.Expiry < Unix now →
      (s.RespondChProposal env now chProposalID accept).2.trace = s.trace ++
        [if accept then Call.respAccept entry.responder.name s.user.Peer.OffChainAddr
         else Call.respReject entry.responder.name "rejected by user"] ∧
      ((s.RespondChProposal env now chProposalID accept).1.2 = none ∨
        ∃ m, (s.RespondChProposal env now chProposalID accept).1.2
          = some (env.GetAPIError (Err.outside m)))) := by
  unfold session.RespondChProposal
  simp only [hopen, hentry, Bool.not_true, Bool.false_eq_true, if_false]
  by_cases ht : entry.notif.Expiry < Unix now
  · simp [ht, hopen]
  · simp only [ht, if_false, not_false_eq_true, true_implies, false_implies, and_true]
    cases accept with
    | true =>
      simp only [session.acceptChProposal, if_true]
      cases hr : entry.responder.acceptRet with
      | error e => simp [hopen, getAPIError]; exact ⟨e, rfl⟩
      | ok pch => simp [hopen, getAPIError, session.addCh]
    | false =>
      simp only [session.rejectChProposal, Bool.false_eq_true, if_false]
      cases hr : entry.responder.rejectRet with
      | none => simp [hopen, getAPIError]
      | some e => simp [hopen, getAPIError]; exact ⟨e, rfl⟩

/-- C8: on an open session that holds a responder entry under the proposal ID,
`RespondChProposal` returns `ErrRespTimeoutExpired` exactly when the expiry of the
entry's notification is strictly less than the current unix time (for a
`GetAPIError` that does not turn an error of the responder into that error). In that
case, for either value of `accept`, no call is made on the responder (the trace is
unchanged) and the channels are unchanged. When the expiry is the current time or
later, the responder is called: `Accept` for accept, `Reject` otherwise. -/
theorem RespondChProposal_timeout (env : Env) (s : session) (now : Int)
    (chProposalID : String) (accept : Bool) (entry : chProposalResponderEntry)
    (hopen : s.isOpen = true)
    (hentry : mapLookup s.chProposalResponders chProposalID = some entry)
    (hapi : ∀ m, env.GetAPIError (Err.outside m) ≠ Err.ErrRespTimeoutExpired) :
    ((s.RespondChProposal env now chProposalID accept).1.2 = some Err.ErrRespTimeoutExpired
      ↔ entry.notif.Expiry < Unix now) ∧
    (entry.notif.Expiry < Unix now →
      (s.RespondChProposal env now chProposalID accept).1
        = (zeroChInfo, some Err.ErrRespTimeoutExpired) ∧
      (s.RespondChProposal env now chProposalID accept).2.trace = s.trace ∧
      (s.RespondChProposal env now chProposalID accept).2.chs = s.chs) ∧
    (Unix now ≤ entry.notif.Expiry →
      (s.RespondChProposal env now chProposalID accept).2.trace = s.trace ++
        [if accept then Call.respAccept entry.responder.name s.user.Peer.OffChainAddr
         else Call.respReject entry.responder.name "rejected by user"]) := by
  obtain ⟨_, _, h3, h4⟩ :=
    RespondChProposal_of_entry env s now chProposalID accept entry hopen hentry
  refine ⟨⟨?_, ?_⟩, ?_, ?_⟩
  · intro herr
    by_contra ht
    rcases (h4 ht).2 with h | ⟨m, h⟩
    · rw [h] at herr; cases herr
    · rw [h] at herr
      exact hapi m (Option.some.inj herr)
  · intro ht
    rw [h3 ht]
  · intro ht
    rw [h3 ht]
    exact ⟨rfl, rfl, rfl⟩
  · intro ht
    exact (h4 (not_lt.mpr ht)).1

/-- What `RespondChProposal` does on an open session that holds no entry under the
proposal ID. -/
theorem RespondChProposal_of_missing (env : Env) (s : session) (now : Int)
    (chProposalID : String) (accept : Bool) (hopen : s.isOpen = true)
    (hmiss : mapLookup s.chProposalResponders chProposalID = none) :
    s.RespondChProposal env now chProposalID accept
      = ((zeroChInfo, some Err.ErrUnknownProposalID), s) := by
  simp [session.RespondChProposal, hopen, hmiss]

/-- Witness of C8: an entry with expiry 100, answered at the unix time 101. -/
theorem RespondChProposal_timeout_witness :
    ((sampleSession [] [("p1", sampleEntry "p1" 100)]).RespondChProposal sampleEnv
      101000000000 "p1" true).1.2 = some Err.ErrRespTimeoutExpired :=
  (RespondChProposal_timeout sampleEnv (sampleSession [] [("p1", sampleEntry "p1" 100)])
    101000000000 "p1" true (sampleEntry "p1" 100) rfl
    (by simp [mapLookup, sampleSession])
    (by intro m; simp [sampleEnv])).1.mpr (by decide)

/-- C9: on an open session, `RespondChProposal` returns `ErrUnknownProposalID` exactly
when no responder entry is stored under the proposal ID (for a `GetAPIError` that
does not turn an error of the responder into that error), and then leaves the
session as it was. When an entry is found, it is gone from `chProposalResponders`
after the call, whatever the outcome, and a second response to the same proposal ID,
at any time and with either answer, returns `ErrUnknownProposalID`. -/
theorem RespondChProposal_removes_entry (env : Env) (s : session) (now : Int)
    (chProposalID : String) (accept : Bool)
    (hopen : s.isOpen = true)
    (hapi : ∀ m, env.GetAPIError (Err.outside m) ≠ Err.ErrUnknownProposalID) :
    ((s.RespondChProposal env now chProposalID accept).1.2 = some Err.ErrUnknownProposalID
      ↔ mapLookup s.chProposalResponders chProposalID = none) ∧
    (mapLookup s.chProposalResponders chProposalID = none →
      s.RespondChProposal env now chProposalID accept
        = ((zeroChInfo, some Err.ErrUnknownProposalID), s)) ∧
    (∀ entry, mapLookup s.chProposalResponders chProposalID = some entry →
      (s.RespondChProposal env now chProposalID accept).2.chProposalResponders
        = mapDelete s.chProposalResponders chProposalID ∧
      mapLookup (s.RespondChProposal env now chProposalID accept).2.chProposalResponders
        chProposalID = none ∧
      ∀ (now2 : Int) (accept2 : Bool),
        (s.RespondChProposal env now chProposalID accept).2.RespondChProposal env now2
            chProposalID accept2
          = ((zeroChInfo, some Err.ErrUnknownProposalID),
              (s.RespondChProposal env now chProposalID accept).2)) := by
  have hmiss : mapLookup s.chProposalResponders chProposalID = none →
      s.RespondChProposal env now chProposalID accept
        = ((zeroChInfo, some Err.ErrUnknownProposalID), s) :=
    RespondChProposal_of_missing env s now chProposalID accept hopen
  have hfound : ∀ entry, mapLookup s.chProposalResponders chProposalID = some entry →
      (s.RespondChProposal env now chProposalID accept).2.isOpen = true ∧
      (s.RespondChProposal env now chProposalID accept).2.chProposalResponders
        = mapDelete s.chProposalResponders chProposalID ∧
      (s.RespondChProposal env now chProposalID accept).1.2 ≠ some Err.ErrUnknownProposalID := by
    intro entry hentry
    obtain ⟨h1, h2, h3, h4⟩ :=
      RespondChProposal_of_entry env s now chProposalID accept entry hopen hentry
    refine ⟨h1, h2, ?_⟩
    by_cases ht : entry.notif.Expiry < Unix now
    · rw [h3 ht]; simp
    · rcases (h4 ht).2 with h | ⟨m, h⟩
      · rw [h]; simp
      · rw [h]
        intro heq
        exact hapi m (Option.some.inj heq)
  refine ⟨⟨?_, ?_⟩, hmiss, ?_⟩
  · intro herr
    cases hl : mapLookup s.chProposalResponders chProposalID with
    | none => rfl
    | some entry => exact absurd herr (hfound entry hl).2.2
  · intro h
    rw [hmiss h]
  · intro entry hentry
    obtain ⟨h1, h2, _⟩ := hfound entry hentry
    have hgone : mapLookup
        (s.RespondChProposal env now chProposalID accept).2.chProposalResponders
        chProposalID = none := by
      rw [h2]; exact mapLookup_mapDelete_self _ _
    refine ⟨h2, hgone, ?_⟩
    intro now2 accept2
    exact RespondChProposal_of_missing env _ now2 chProposalID accept2 h1 hgone

/-- Witness of C9: an entry under `p1`, accepted in time; the second response finds
nothing. -/
theorem RespondChProposal_removes_entry_witness :
    ((sampleSession [] [("p1", sampleEntry "p1" 100)]).RespondChProposal sampleEnv
        99000000000 "p1" true).2.chProposalResponders = [] ∧
    (((sampleSession [] [("p1", sampleEntry "p1" 100)]).RespondChProposal sampleEnv
        99000000000 "p1" true).2.RespondChProposal sampleEnv 99000000000 "p1" false).1
      = (zeroChInfo, some Err.ErrUnknownProposalID) := by
  obtain ⟨h1, _, h3⟩ := (RespondChProposal_removes_entry sampleEnv
    (sampleSession [] [("p1", sampleEntry "p1" 100)]) 99000000000 "p1" true rfl
    (by intro m; simp [sampleEnv])).2.2 (sampleEntry "p1" 100)
    (by simp [mapLookup, sampleSession])
  constructor
  · rw [h1]; simp [mapDelete, sampleSession]
  · rw [h3 99000000000 false]

theorem mapLookup_mapInsert_self {V : Type} (m : List (String × V)) (k : String) (v : V) :
    mapLookup (mapInsert m k v) k = some v := by
  induction m with
  | nil => simp [mapInsert, mapLookup]
  | cons e rest ih =>
    unfold mapInsert
    by_cases h : (e.1 == k) = true
    · simp [h, mapLookup]
    · simp only [h, Bool.false_eq_true, if_false]
      simp only [mapLookup] at ih ⊢
      rw [List.find?_cons]
      simp only [h]
      exact ih

theorem resolvePeerAddrs_unknown (idp : IDProvider) (addrs : List String) :
    (resolvePeerAddrs idp addrs).unknown = none ↔
      ∀ a ∈ addrs, idp.ReadByOffChainAddr a ≠ none := by
  induction addrs with
  | nil => simp [resolvePeerAddrs]
  | cons a rest ih =>
    unfold resolvePeerAddrs
    cases h : idp.ReadByOffChainAddr a with
    | none => simp [h]
    | some p => simp [h, ih]

theorem resolvePeerAddrs_reads_reject (idp : IDProvider) (addrs : List String) :
    (resolvePeerAddrs idp addrs).reads.filter Call.isReject = [] := by
  induction addrs with
  | nil => rfl
  | cons a rest ih =>
    unfold resolvePeerAddrs
    cases idp.ReadByOffChainAddr a with
    | none => simp [Call.isReject]
    | some p => simp [Call.isReject, ih]

/-- What `HandleProposal` does on an open session to the responder entries and how
often it calls `Reject`. -/
theorem HandleProposal_of_open (env : Env) (s : session) (now : Int)
    (chProposal : ChannelProposal) (responder : chProposalResponder)
    (hopen : s.isOpen = true) :
    (s.HandleProposal env now chProposal responder).isOpen = true ∧
    ((resolvePeerAddrs s.idProvider chProposal.PeerAddrs).unknown ≠ none →
      (s.HandleProposal env now chProposal responder).chProposalResponders
        = s.chProposalResponders ∧
      (s.HandleProposal env now chProposal responder).trace.filter Call.isReject
        = s.trace.filter Call.isReject ++
            [Call.respReject responder.name "peer not found in session idProvider"]) ∧
    ((resolvePeerAddrs s.idProvider chProposal.PeerAddrs).unknown = none →
      (s.HandleProposal env now chProposal responder).trace.filter Call.isReject
        = s.trace.filter Call.isReject ∧
      (Unix (now + s.timeoutCfg.response) ≠ 0 →
        (s.HandleProposal env now chProposal responder).chProposalResponders
          = mapInsert s.chProposalResponders chProposal.ProposalID
              { proposal := chProposal, notif := s.proposalNotif env now chProposal,
                responder := responder }) ∧
      (Unix (now + s.timeoutCfg.response) = 0 →
        (s.HandleProposal env now chProposal responder).chProposalResponders
          = s.chProposalResponders)) := by
  unfold session.HandleProposal session.proposalNotif
  simp only [hopen, Bool.not_true, Bool.false_eq_true, if_false]
  cases hu : (resolvePeerAddrs s.idProvider chProposal.PeerAddrs).unknown with
  | some a =>
    cases hn : s.chProposalNotifier <;>
      simp [session.rejectChProposal, hn, hopen, Call.isReject, resolvePeerAddrs_reads_reject]
  | none =>
    by_cases he : Unix (now + s.timeoutCfg.response) = 0
    · cases hn : s.chProposalNotifier <;>
        simp [he, hn, hopen, Call.isReject, resolvePeerAddrs_reads_reject]
    · cases hn : s.chProposalNotifier <;>
        simp [he, hn, hopen, Call.isReject, resolvePeerAddrs_reads_reject, chProposalNotif]

/-- C10, the code at a proposal whose peer addresses are all known, arriving a tenth of
a second after the Unix epoch on a session with a response timeout of half a second:
the expiry computed is 0, the value kept for rejected proposals, so that no `Reject`
is issued, but no entry is stored under the proposal ID either, and a response to the
proposal returns `ErrUnknownProposalID`. -/
theorem HandleProposal_known_peers_expiry_zero :
    sampleSessionShortTimeout.isOpen = true ∧
    (∀ a ∈ (sampleProposal "p1" ["0xa", "0xb"]).PeerAddrs,
      sampleSessionShortTimeout.idProvider.ReadByOffChainAddr a ≠ none) ∧
    (sampleSessionShortTimeout.HandleProposal sampleEnv 100000000
      (sampleProposal "p1" ["0xa", "0xb"]) (sampleResponder "r1" "c1")).trace.filter
        Call.isReject = [] ∧
    mapLookup (sampleSessionShortTimeout.HandleProposal sampleEnv 100000000
      (sampleProposal "p1" ["0xa", "0xb"]) (sampleResponder "r1" "c1")).chProposalResponders
        "p1" = none ∧
    ((sampleSessionShortTimeout.HandleProposal sampleEnv 100000000
      (sampleProposal "p1" ["0xa", "0xb"]) (sampleResponder "r1" "c1")).RespondChProposal
        sampleEnv 200000000 "p1" true).1 = (zeroChInfo, some Err.ErrUnknownProposalID) := by
  have hk : (resolvePeerAddrs sampleSessionShortTimeout.idProvider
      (sampleProposal "p1" ["0xa", "0xb"]).PeerAddrs).unknown = none := by
    simp [resolvePeerAddrs, sampleSessionShortTimeout, sampleSession, sampleProposal,
      IDProvider.ReadByOffChainAddr, samplePeer]
  have ht : Unix (100000000 + sampleSessionShortTimeout.timeoutCfg.response) = 0 := by
    decide
  obtain ⟨h1, _, h3⟩ := HandleProposal_of_open sampleEnv sampleSessionShortTimeout 100000000
    (sampleProposal "p1" ["0xa", "0xb"]) (sampleResponder "r1" "c1") rfl
  obtain ⟨h4, _, h6⟩ := h3 hk
  have hresp := h6 ht
  have hgone : mapLookup (sampleSessionShortTimeout.HandleProposal sampleEnv 100000000
      (sampleProposal "p1" ["0xa", "0xb"]) (sampleResponder "r1" "c1")).chProposalResponders
        "p1" = none := by
    rw [hresp]; rfl
  refine ⟨rfl, (resolvePeerAddrs_unknown _ _).mp hk, ?_, hgone, ?_⟩
  · rw [h4]; rfl
  · rw [RespondChProposal_of_missing sampleEnv _ 200000000 "p1" true h1 hgone]

/-- Let `HandleProposal` receive a proposal on an open session. When
at least one peer address is not known to the ID provider, it calls `Reject` on the
responder exactly once, with the reason "peer not found in session idProvider", and
leaves `chProposalResponders` unchanged, so that, no entry being stored under the
proposal ID before, a later `RespondChProposal` for that ID returns
`ErrUnknownProposalID`. When every peer address is known, no `Reject` is issued, and
an entry is stored under the proposal ID provided the expiry computed (the unix time
of the instant plus the response timeout) is not 0, the value kept for rejected
proposals; when it is 0, `chProposalResponders` is unchanged. -/
theorem HandleProposal_unknown_peer (env : Env) (s : session) (now : Int)
    (chProposal : ChannelProposal) (responder : chProposalResponder)
    (hopen : s.isOpen = true) :
    ((∃ a ∈ chProposal.PeerAddrs, s.idProvider.ReadByOffChainAddr a = none) →
      (s.HandleProposal env now chProposal responder).trace.filter Call.isReject
        = s.trace.filter Call.isReject ++
            [Call.respReject responder.name "peer not found in session idProvider"] ∧
      (s.HandleProposal env now chProposal responder).chProposalResponders
        = s.chProposalResponders ∧
      (mapLookup s.chProposalResponders chProposal.ProposalID = none →
        ∀ (now2 : Int) (accept : Bool),
          (s.HandleProposal env now chProposal responder).RespondChProposal env now2
              chProposal.ProposalID accept
            = ((zeroChInfo, some Err.ErrUnknownProposalID),
                s.HandleProposal env now chProposal responder))) ∧
    ((∀ a ∈ chProposal.PeerAddrs, s.idProvider.ReadByOffChainAddr a ≠ none) →
      (s.HandleProposal env now chProposal responder).trace.filter Call.isReject
        = s.trace.filter Call.isReject ∧
      (Unix (now + s.timeoutCfg.response) ≠ 0 →
        mapLookup (s.HandleProposal env now chProposal responder).chProposalResponders
            chProposal.ProposalID
          = some { proposal := chProposal, notif := s.proposalNotif env now chProposal,
                   responder := responder }) ∧
      (Unix (now + s.timeoutCfg.response) = 0 →
        (s.HandleProposal env now chProposal responder).chProposalResponders
          = s.chProposalResponders)) := by
  obtain ⟨h1, h2, h3⟩ := HandleProposal_of_open env s now chProposal responder hopen
  constructor
  · rintro ⟨a, ha, hnone⟩
    have hu : (resolvePeerAddrs s.idProvider chProposal.PeerAddrs).unknown ≠ none := by
      intro h
      exact (resolvePeerAddrs_unknown _ _).mp h a ha hnone
    obtain ⟨h4, h5⟩ := h2 hu
    refine ⟨h5, h4, ?_⟩
    intro hfresh now2 accept
    apply RespondChProposal_of_missing env _ now2 _ accept h1
    rw [h4]
    exact hfresh
  · intro hall
    obtain ⟨h4, h5, h6⟩ := h3 ((resolvePeerAddrs_unknown _ _).mpr hall)
    refine ⟨h4, ?_, h6⟩
    intro he
    rw [h5 he]
    exact mapLookup_mapInsert_self _ _ _

/-- A proposal with the unknown peer address `0xc` is rejected and leaves no entry, one
of the known peer `bob` is stored. -/
theorem HandleProposal_unknown_peer_witness :
    ((sampleSession [] []).HandleProposal sampleEnv 1700000000000000000
        (sampleProposal "p2" ["0xa", "0xc"]) (sampleResponder "r2" "c2")).trace.filter
          Call.isReject
      = [Call.respReject "r2" "peer not found in session idProvider"] ∧
    ((sampleSession [] []).HandleProposal sampleEnv 1700000000000000000
        (sampleProposal "p2" ["0xa", "0xc"]) (sampleResponder "r2" "c2")).chProposalResponders
      = [] ∧
    mapLookup ((sampleSession [] []).HandleProposal sampleEnv 1700000000000000000
        (sampleProposal "p1" ["0xa", "0xb"]) (sampleResponder "r1" "c1")).chProposalResponders
        "p1"
      = some { proposal := sampleProposal "p1" ["0xa", "0xb"],
               notif := (sampleSession [] []).proposalNotif sampleEnv 1700000000000000000
                 (sampleProposal "p1" ["0xa", "0xb"]),
               responder := sampleResponder "r1" "c1" } := by
  obtain ⟨h1, h2, _⟩ := (HandleProposal_unknown_peer sampleEnv (sampleSession [] [])
    1700000000000000000 (sampleProposal "p2" ["0xa", "0xc"]) (sampleResponder "r2" "c2")
    rfl).1 ⟨"0xc", by simp [sampleProposal], by
      simp [sampleSession, IDProvider.ReadByOffChainAddr, samplePeer]⟩
  obtain ⟨_, h4, _⟩ := (HandleProposal_unknown_peer sampleEnv (sampleSession [] [])
    1700000000000000000 (sampleProposal "p1" ["0xa", "0xb"]) (sampleResponder "r1" "c1")
    rfl).2 (by simp [sampleSession, sampleProposal, IDProvider.ReadByOffChainAddr, samplePeer])
  refine ⟨?_, ?_, ?_⟩
  · rw [h1]; rfl
  · rw [h2]; rfl
  · exact h4 (by decide)

/-- C11 (as stated, refuted): a proposal with the unknown peer address `0xc` arrives.
With the notifier `n` registered, the notifier is started on a notification for the
proposal; without a notifier, a notification for it is appended to the cache, and a
later `SubChProposals` starts the notifier on it. -/
theorem HandleProposal_unknown_peer_notifies_counterexample :
    (sampleSessionSubscribed.idProvider.ReadByOffChainAddr "0xc" = none) ∧
    (sampleSessionSubscribed.HandleProposal sampleEnv 1700000000000000000
        (sampleProposal "p2" ["0xa", "0xc"]) (sampleResponder "r2" "c2")).trace.filter
          Call.isNotify
      = [Call.notify "n" (chProposalNotif sampleEnv ["self", ""] currencyETH
          (sampleProposal "p2" ["0xa", "0xc"]) 0)] ∧
    ((sampleSession [] []).HandleProposal sampleEnv 1700000000000000000
        (sampleProposal "p2" ["0xa", "0xc"]) (sampleResponder "r2" "c2")).chProposalNotifsCache
      = [chProposalNotif sampleEnv ["self", ""] currencyETH
          (sampleProposal "p2" ["0xa", "0xc"]) 0] ∧
    ((((sampleSession [] []).HandleProposal sampleEnv 1700000000000000000
        (sampleProposal "p2" ["0xa", "0xc"]) (sampleResponder "r2" "c2")).SubChProposals
          "n").map (fun r => r.2.trace.filter Call.isNotify))
      = some [Call.notify "n" (chProposalNotif sampleEnv ["self", ""] currencyETH
          (sampleProposal "p2" ["0xa", "0xc"]) 0)] := by
  refine ⟨rfl, rfl, rfl, rfl⟩

/-- What `HandleProposal` does on an open session with a notifier registered: the
notifier is started once, on the notification of the proposal, and the cache is
left alone. -/
theorem HandleProposal_of_open_some (env : Env) (s : session) (now : Int)
    (chProposal : ChannelProposal) (responder : chProposalResponder) (notifier : String)
    (hopen : s.isOpen = true) (hsome : s.chProposalNotifier = some notifier) :
    (s.HandleProposal env now chProposal responder).trace.filter Call.isNotify
      = s.trace.filter Call.isNotify ++
          [Call.notify notifier (s.proposalNotif env now chProposal)] ∧
    (s.HandleProposal env now chProposal responder).chProposalNotifsCache
      = s.chProposalNotifsCache := by
  unfold session.HandleProposal session.proposalNotif
  simp only [hopen, Bool.not_true, Bool.false_eq_true, if_false]
  cases hu : (resolvePeerAddrs s.idProvider chProposal.PeerAddrs).unknown with
  | some a =>
    simp [session.rejectChProposal, hsome, hopen, Call.isNotify,
      resolvePeerAddrs_reads_notify]
  | none =>
    by_cases he : Unix (now + s.timeoutCfg.response) = 0
    · simp [he, hsome, hopen, Call.isNotify, resolvePeerAddrs_reads_notify]
    · simp [he, hsome, hopen, Call.isNotify, resolvePeerAddrs_reads_notify]

/-- C11 (amended): when `HandleProposal` receives, on an open session, a proposal in
which some peer address is not known to the ID provider, it still surfaces one
notification for it, with expiry 0: a registered notifier is started on it once and
the cache is left alone; without a notifier it is appended to the cache, and a
`SubChProposals` that follows starts the notifier on it. -/
theorem HandleProposal_unknown_peer_notifies (env : Env) (s : session) (now : Int)
    (chProposal : ChannelProposal) (responder : chProposalResponder)
    (hopen : s.isOpen = true)
    (hunknown : ∃ a ∈ chProposal.PeerAddrs, s.idProvider.ReadByOffChainAddr a = none) :
    (s.proposalNotif env now chProposal).Expiry = 0 ∧
    (s.proposalNotif env now chProposal).ProposalID = chProposal.ProposalID ∧
    (∀ notifier, s.chProposalNotifier = some notifier →
      (s.HandleProposal env now chProposal responder).trace.filter Call.isNotify
        = s.trace.filter Call.isNotify ++
            [Call.notify notifier (s.proposalNotif env now chProposal)] ∧
      (s.HandleProposal env now chProposal responder).chProposalNotifsCache
        = s.chProposalNotifsCache) ∧
    (s.chProposalNotifier = none →
      (s.HandleProposal env now chProposal responder).chProposalNotifsCache
        = s.chProposalNotifsCache ++ [s.proposalNotif env now chProposal] ∧
      ∀ notifier, ∃ s1,
        (s.HandleProposal env now chProposal responder).SubChProposals notifier
          = some (none, s1) ∧
        s1.trace = (s.HandleProposal env now chProposal responder).trace ++
          (s.chProposalNotifsCache ++ [s.proposalNotif env now chProposal]).map
            (Call.notify notifier)) := by
  have hu : (resolvePeerAddrs s.idProvider chProposal.PeerAddrs).unknown ≠ none := by
    obtain ⟨a, ha, hnone⟩ := hunknown
    intro h
    exact (resolvePeerAddrs_unknown _ _).mp h a ha hnone
  refine ⟨?_, rfl, ?_, ?_⟩
  · unfold session.proposalNotif chProposalNotif
    cases h : (resolvePeerAddrs s.idProvider chProposal.PeerAddrs).unknown with
    | none => exact absurd h hu
    | some a => rfl
  · intro notifier hsome
    exact HandleProposal_of_open_some env s now chProposal responder notifier hopen hsome
  · intro hnone
    obtain ⟨h1, h2, _, _, h5, _⟩ :=
      HandleProposal_of_open_none env s now chProposal responder hopen hnone
    refine ⟨h5, ?_⟩
    intro notifier
    refine ⟨_, SubChProposals_of_open_none _ notifier h1 h2, ?_⟩
    simp only [h5]

/-- Witness of C11: the proposal with the unknown peer address `0xc`, handled with the
notifier `n` registered. -/
theorem HandleProposal_unknown_peer_notifies_witness :
    (sampleSessionSubscribed.HandleProposal sampleEnv 1700000000000000000
        (sampleProposal "p2" ["0xa", "0xc"]) (sampleResponder "r2" "c2")).trace.filter
          Call.isNotify
      = [Call.notify "n" (sampleSessionSubscribed.proposalNotif sampleEnv 1700000000000000000
          (sampleProposal "p2" ["0xa", "0xc"]))] :=
  ((HandleProposal_unknown_peer_notifies sampleEnv sampleSessionSubscribed
    1700000000000000000 (sampleProposal "p2" ["0xa", "0xc"]) (sampleResponder "r2" "c2") rfl
    ⟨"0xc", by simp [sampleProposal], rfl⟩).2.2.1 "n" rfl).1

theorem mapInsert_of_not_mem {V : Type} (m : List (String × V)) (k : String) (v : V)
    (h : ∀ e ∈ m, e.1 ≠ k) : mapInsert m k v = m ++ [(k, v)] := by
  induction m with
  | nil => rfl
  | cons e rest ih =>
    have he : e.1 ≠ k := h e (List.mem_cons_self _ _)
    have hrest : ∀ e ∈ rest, e.1 ≠ k := fun x hx => h x (List.mem_cons_of_mem _ hx)
    simp [mapInsert, he, ih hrest]

theorem resolveRestoredPeers_ok (idp : IDProvider) (peers : List String) :
    (resolveRestoredPeers idp peers).ok = true ↔
      ∀ a ∈ peers, idp.ReadByOffChainAddr a ≠ none := by
  induction peers with
  | nil => simp [resolveRestoredPeers]
  | cons a rest ih =>
    unfold resolveRestoredPeers
    cases h : idp.ReadByOffChainAddr a with
    | none => simp [h]
    | some p => simp [h, ih]

theorem resolveRestoredPeers_reads_register (idp : IDProvider) (peers : List String) :
    (resolveRestoredPeers idp peers).reads.filter Call.isRegister = [] := by
  induction peers with
  | nil => rfl
  | cons a rest ih =>
    unfold resolveRestoredPeers
    cases idp.ReadByOffChainAddr a with
    | none => simp [Call.isRegister]
    | some p => simp [Call.isRegister, ih]

theorem restorable_iff (s : session) (pch : PChannel) :
    s.restorable pch = true ↔
      pch.phase = Phase.Acting ∧ ∀ a ∈ pch.Peers, s.idProvider.ReadByOffChainAddr a ≠ none := by
  simp [session.restorable, Option.isSome_iff_ne_none]

/-- What `handleRestoredCh` does to the session. -/
theorem handleRestoredCh_eq (s : session) (pch : PChannel) :
    (s.handleRestoredCh pch).idProvider = s.idProvider ∧
    (s.handleRestoredCh pch).timeoutCfg = s.timeoutCfg ∧
    (s.restorable pch = true →
      (s.handleRestoredCh pch).chs = mapInsert s.chs pch.ID (s.restoredCh pch)) ∧
    (s.restorable pch = false →
      (s.handleRestoredCh pch).chs = s.chs ∧
      (s.handleRestoredCh pch).chClient = s.chClient ∧
      (s.handleRestoredCh pch).trace.filter Call.isRegister
        = s.trace.filter Call.isRegister) := by
  unfold session.handleRestoredCh
  by_cases hp : pch.phase = Phase.Acting
  · have hok := resolveRestoredPeers_ok s.idProvider pch.Peers
    have hres := restorable_iff s pch
    cases hr : (resolveRestoredPeers s.idProvider pch.Peers).ok with
    | true =>
      have hall := hok.mp hr
      have hrt : s.restorable pch = true := hres.mpr ⟨hp, hall⟩
      simp [hp, hr, hrt, session.addCh, session.restoredCh, newCh]
    | false =>
      have hrf : s.restorable pch = false := by
        cases hb : s.restorable pch with
        | false => rfl
        | true =>
          have := hok.mpr (hres.mp hb).2
          rw [hr] at this
          cases this
      simp [hp, hr, hrf, resolveRestoredPeers_reads_register]
  · have hrf : s.restorable pch = false := by
      cases hb : s.restorable pch with
      | false => rfl
      | true => exact absurd ((restorable_iff s pch).mp hb).1 hp
    simp [hp, hrf]

theorem restorable_congr (s t : session) (h : t.idProvider = s.idProvider) :
    t.restorable = s.restorable := by
  funext pch
  simp [session.restorable, h]

theorem restoredCh_congr (s t : session) (h : t.idProvider = s.idProvider)
    (htc : t.timeoutCfg = s.timeoutCfg) : t.restoredCh = s.restoredCh := by
  funext pch
  simp [session.restoredCh, h, htc]

/-- What `restoreChs` leaves in the channel map when the persisted channels have
IDs different from each other and from the ones the session holds. -/
theorem restoreChs_chs (persisted : List PChannel) :
    ∀ s : session, (persisted.map (fun p => p.ID)).Nodup →
      (∀ e ∈ s.chs, ∀ p ∈ persisted, e.1 ≠ p.ID) →
      (s.restoreChs persisted).chs
        = s.chs ++ (persisted.filter s.restorable).map (fun p => (p.ID, s.restoredCh p)) := by
  induction persisted with
  | nil => intro s _ _; simp [session.restoreChs]
  | cons pch rest ih =>
    intro s hnd hdis
    obtain ⟨h1, h2, h3, h4⟩ := handleRestoredCh_eq s pch
    rw [List.map_cons, List.nodup_cons] at hnd
    simp only [session.restoreChs]
    have hkey : ∀ e ∈ s.chs, e.1 ≠ pch.ID :=
      fun e he => hdis e he pch (List.mem_cons_self _ _)
    have hdis1 : ∀ e ∈ (s.handleRestoredCh pch).chs, ∀ p ∈ rest, e.1 ≠ p.ID := by
      intro e he p hp
      cases hb : s.restorable pch with
      | false =>
        rw [(h4 hb).1] at he
        exact hdis e he p (List.mem_cons_of_mem _ hp)
      | true =>
        rw [h3 hb, mapInsert_of_not_mem _ _ _ hkey, List.mem_append] at he
        rcases he with he | he
        · exact hdis e he p (List.mem_cons_of_mem _ hp)
        · simp only [List.mem_singleton] at he
          rw [he]
          intro heq
          exact hnd.1 (List.mem_map.mpr ⟨p, hp, heq.symm⟩)
    rw [ih _ hnd.2 hdis1, restorable_congr s _ h1, restoredCh_congr s _ h1 h2]
    cases hb : s.restorable pch with
    | false => rw [(h4 hb).1, List.filter_cons_of_neg (by simp [hb])]
    | true =>
      rw [h3 hb, mapInsert_of_not_mem _ _ _ hkey, List.filter_cons_of_pos hb, List.map_cons,
        List.append_assoc, List.singleton_append]

/-- C12: `handleRestoredCh` puts the persisted channel into the channel map, under its
ID, exactly when its phase is Acting and each of its peer addresses is known to the
ID provider; in every other case the channel map and the channel client are
unchanged and no peer is registered. So a session that starts with an empty channel
map and is handed persisted channels of different IDs holds, and lists through
`GetChsInfo`, exactly the persisted channels that meet both conditions. -/
theorem handleRestoredCh_restores_iff (env : Env) (s : session) (pch : PChannel) :
    (s.restorable pch = true ↔
      pch.phase = Phase.Acting ∧
        ∀ a ∈ pch.Peers, s.idProvider.ReadByOffChainAddr a ≠ none) ∧
    (s.restorable pch = true →
      (s.handleRestoredCh pch).chs = mapInsert s.chs pch.ID (s.restoredCh pch) ∧
      mapLookup (s.handleRestoredCh pch).chs pch.ID = some (s.restoredCh pch) ∧
      (s.restoredCh pch).pch = pch ∧ (s.restoredCh pch).id = pch.ID) ∧
    (s.restorable pch = false →
      (s.handleRestoredCh pch).chs = s.chs ∧
      (s.handleRestoredCh pch).chClient = s.chClient ∧
      (s.handleRestoredCh pch).trace.filter Call.isRegister
        = s.trace.filter Call.isRegister) ∧
    (∀ persisted : List PChannel, (persisted.map (fun p => p.ID)).Nodup → s.chs = [] →
      (s.restoreChs persisted).chs
        = (persisted.filter s.restorable).map (fun p => (p.ID, s.restoredCh p)) ∧
      (s.restoreChs persisted).chs.map (fun e => e.2.pch) = persisted.filter s.restorable ∧
      (s.restoreChs persisted).GetChsInfo env
        = (persisted.filter s.restorable).map (fun p => (s.restoredCh p).getChInfo env)) := by
  obtain ⟨_, _, h3, h4⟩ := handleRestoredCh_eq s pch
  refine ⟨restorable_iff s pch, ?_, h4, ?_⟩
  · intro hb
    refine ⟨h3 hb, ?_, rfl, rfl⟩
    rw [h3 hb]
    exact mapLookup_mapInsert_self _ _ _
  · intro persisted hnd hempty
    have h := restoreChs_chs persisted s hnd (by simp [hempty])
    rw [hempty, List.nil_append] at h
    refine ⟨h, ?_, ?_⟩
    · rw [h, List.map_map]
      have : ((fun e : String × channel => e.2.pch) ∘ fun p => (p.ID, s.restoredCh p)) = id := by
        funext p; rfl
      rw [this, List.map_id]
    · simp only [session.GetChsInfo, h, List.map_map]
      rfl

/-- The loop of `sanitizeBalInfo` returns the start value when the own alias is not in
the list, and otherwise an index of the list (counted from `idx`) at which the own
alias stands and after which it does not stand again. -/
theorem sanitizeOwnIdx_spec (parts : List String) :
    ∀ idx ownIdx : Nat,
      (OwnAlias ∉ parts ∧ sanitizeOwnIdx parts idx ownIdx = ownIdx) ∨
      (OwnAlias ∈ parts ∧ idx ≤ sanitizeOwnIdx parts idx ownIdx ∧
        sanitizeOwnIdx parts idx ownIdx < idx + parts.length ∧
        parts[sanitizeOwnIdx parts idx ownIdx - idx]? = some OwnAlias ∧
        ∀ j, sanitizeOwnIdx parts idx ownIdx - idx < j → parts[j]? ≠ some OwnAlias) := by
  induction parts with
  | nil => intro idx ownIdx; left; simp [sanitizeOwnIdx]
  | cons p ps ih =>
    intro idx ownIdx
    rw [sanitizeOwnIdx]
    rcases ih (idx + 1) (if p = OwnAlias then idx else ownIdx) with ⟨hno, heq⟩ | ⟨hin, hle, hlt, hget, hlast⟩
    · rw [heq]
      by_cases hp : p = OwnAlias
      · right
        simp only [hp, if_true, List.mem_cons, true_or, le_refl, List.length_cons, Nat.sub_self,
          List.getElem?_cons_zero, true_and]
        refine ⟨by omega, ?_⟩
        intro j hj
        cases j with
        | zero => omega
        | succ k =>
          rw [List.getElem?_cons_succ]
          intro hk
          exact hno (List.getElem?_mem hk)
      · left
        simp only [hp, if_false, List.mem_cons, not_or, and_true]
        exact ⟨fun h => hp h.symm, hno⟩
    · right
      refine ⟨List.mem_cons_of_mem _ hin, by omega, by rw [List.length_cons]; omega, ?_, ?_⟩
      · have hk : sanitizeOwnIdx ps (idx + 1) (if p = OwnAlias then idx else ownIdx) - idx
            = (sanitizeOwnIdx ps (idx + 1) (if p = OwnAlias then idx else ownIdx) - (idx + 1)) + 1 := by
          omega
        rw [hk, List.getElem?_cons_succ]
        exact hget
      · intro j hj
        cases j with
        | zero => omega
        | succ k =>
          rw [List.getElem?_cons_succ]
          exact hlast k (by omega)

/-- C13: for a BalInfo whose `Parts` and `Bal` have the same length and whose `Parts`
holds the own alias `self` at least once, at whatever index and however often,
`sanitizeBalInfo` returns (it does not panic) and `Parts[0]` is `self` afterwards. -/
theorem sanitizeBalInfo_own_first (balInfo : BalInfo)
    (hlen : balInfo.Parts.length = balInfo.Bal.length)
    (hown : OwnAlias ∈ balInfo.Parts) :
    ∃ res, sanitizeBalInfo balInfo = some res ∧ res.Parts[0]? = some OwnAlias := by
  rcases sanitizeOwnIdx_spec balInfo.Parts 0 0 with ⟨hno, _⟩ | ⟨_, _, hlt, hget, _⟩
  · exact absurd hown hno
  · unfold sanitizeBalInfo
    by_cases h0 : sanitizeOwnIdx balInfo.Parts 0 0 = 0
    · refine ⟨balInfo, by simp [h0], ?_⟩
      rw [h0] at hget
      exact hget
    · have hb : sanitizeOwnIdx balInfo.Parts 0 0 < balInfo.Bal.length := by omega
      have hpos : 0 < balInfo.Parts.length := by omega
      simp only [ne_eq, h0, not_false_eq_true, if_true, List.getElem?_eq_getElem hb]
      refine ⟨_, rfl, ?_⟩
      simp [List.getElem?_set, hpos]

/-- Witness of C13: the own alias at the indices 1 and 3. -/
theorem sanitizeBalInfo_own_first_witness :
    sanitizeBalInfo sampleBalInfo
      = some { Currency := "ETH", Parts := ["self", "self", "carol", "bob"],
               Bal := ["4", "2", "3", "1"] } ∧
    ∃ res, sanitizeBalInfo sampleBalInfo = some res ∧ res.Parts[0]? = some OwnAlias :=
  ⟨by rfl, sanitizeBalInfo_own_first sampleBalInfo rfl (by simp [sampleBalInfo, OwnAlias])⟩

theorem mapLookup_mapInsert_isSome {V : Type} (m : List (String × V)) (k k1 : String) (v : V) :
    (mapLookup (mapInsert m k v) k1).isSome = (k == k1 || (mapLookup m k1).isSome) := by
  induction m with
  | nil =>
    by_cases h : k = k1 <;> simp [mapInsert, mapLookup, h]
  | cons e rest ih =>
    unfold mapInsert
    by_cases he : e.1 = k
    · by_cases h : k = k1
      · simp [he, h, mapLookup]
      · simp [he, h, mapLookup]
    · simp only [beq_iff_eq, he, if_false]
      by_cases h1 : e.1 = k1
      · simp [mapLookup, h1]
      · have hb : (e.1 == k1) = false := by simp [h1]
        simp only [mapLookup, List.find?_cons, hb] at ih ⊢
        simpa using ih

/-- The lists the loop of `retrieveParts` builds, in closed form. -/
theorem retrievePartsLoop_lists (idp : IDProvider) (aliases : List String) :
    ∀ st : retrieveState,
      (retrievePartsLoop idp aliases st).parts
        = st.parts ++ aliases.map (fun a => (idp.ReadByAlias a).getD zeroPeer) ∧
      (retrievePartsLoop idp aliases st).missingParts
        = st.missingParts ++ aliases.filter (fun a => (idp.ReadByAlias a).isNone) ∧
      (retrievePartsLoop idp aliases st).foundOwnAlias
        = (st.foundOwnAlias || decide (OwnAlias ∈ aliases)) := by
  induction aliases with
  | nil => intro st; simp [retrievePartsLoop]
  | cons a rest ih =>
    intro st
    unfold retrievePartsLoop
    cases h : idp.ReadByAlias a with
    | none =>
      obtain ⟨h1, h2, h3⟩ := ih
        { st with foundOwnAlias := if a = OwnAlias then true else st.foundOwnAlias,
                  missingParts := st.missingParts ++ [a], parts := st.parts ++ [zeroPeer] }
      simp only [h1, h2, h3]
      by_cases ha : a = OwnAlias
      · have h0 := h
        rw [ha] at h0
        simp [h0, ha]
      · have ha1 : ¬ OwnAlias = a := fun x => ha x.symm
        simp [h, ha, ha1]
    | some p =>
      obtain ⟨h1, h2, h3⟩ := ih
        { knownParts := mapInsert st.knownParts a p, parts := st.parts ++ [p],
          missingParts := st.missingParts,
          repeatedParts := if (mapLookup st.knownParts a).isSome then st.repeatedParts ++ [a]
            else st.repeatedParts,
          foundOwnAlias := if a = OwnAlias then true else st.foundOwnAlias }
      simp only [h1, h2, h3]
      by_cases ha : a = OwnAlias
      · have h0 := h
        rw [ha] at h0
        simp [h0, ha]
      · have ha1 : ¬ OwnAlias = a := fun x => ha x.symm
        simp [h, ha, ha1]

/-- When every alias resolves, the loop of `retrieveParts` finds no repeated alias
exactly when it starts with none, the aliases differ from each other and none of
them is among the aliases seen before. -/
theorem retrievePartsLoop_repeated (idp : IDProvider) (aliases : List String) :
    ∀ st : retrieveState, (∀ a ∈ aliases, idp.ReadByAlias a ≠ none) →
      ((retrievePartsLoop idp aliases st).repeatedParts = [] ↔
        st.repeatedParts = [] ∧ aliases.Nodup ∧
          ∀ a ∈ aliases, mapLookup st.knownParts a = none) := by
  induction aliases with
  | nil => intro st _; simp [retrievePartsLoop]
  | cons a rest ih =>
    intro st hall
    have ha : idp.ReadByAlias a ≠ none := hall a (List.mem_cons_self _ _)
    have hrest : ∀ b ∈ rest, idp.ReadByAlias b ≠ none :=
      fun b hb => hall b (List.mem_cons_of_mem _ hb)
    unfold retrievePartsLoop
    cases h : idp.ReadByAlias a with
    | none => exact absurd h ha
    | some p =>
      simp only
      rw [ih _ hrest]
      simp only [List.nodup_cons, List.mem_cons, forall_eq_or_imp]
      have hins : ∀ b, mapLookup (mapInsert st.knownParts a p) b = none ↔
          a ≠ b ∧ mapLookup st.knownParts b = none := by
        intro b
        have := mapLookup_mapInsert_isSome st.knownParts a b p
        rw [← Option.not_isSome_iff_eq_none, this, ← Option.not_isSome_iff_eq_none]
        simp
      cases hk : mapLookup st.knownParts a with
      | none =>
        simp only [Option.isSome_none, Bool.false_eq_true, if_false, true_and]
        constructor
        · rintro ⟨h1, h2, h3⟩
          refine ⟨h1, ⟨?_, h2⟩, fun b hb => ((hins b).mp (h3 b hb)).2⟩
          intro hmem
          exact ((hins a).mp (h3 a hmem)).1 rfl
        · rintro ⟨h1, ⟨h2, h3⟩, h4⟩
          refine ⟨h1, h3, fun b hb => (hins b).mpr ⟨?_, h4 b hb⟩⟩
          intro hab
          rw [← hab] at hb
          exact h2 hb
      | some q => simp

/-- C14: `retrieveParts` succeeds exactly when every alias of the list resolves in the
ID provider, no alias occurs twice and the own alias `self` is in the list. On
success the parts have the length of the aliases and the entry at each index is the
peer the ID provider returns for the alias at that index, whose alias is that alias.
In every other case, for the empty list too, it returns an error and no parts. -/
theorem retrieveParts_succeeds_iff (aliases : List String) (idProvider : IDProvider) :
    ((retrieveParts aliases idProvider).2 = none ↔
      (∀ a ∈ aliases, idProvider.ReadByAlias a ≠ none) ∧ aliases.Nodup ∧
        OwnAlias ∈ aliases) ∧
    ((retrieveParts aliases idProvider).2 = none →
      (retrieveParts aliases idProvider).1.length = aliases.length ∧
      (∀ i : Nat, (retrieveParts aliases idProvider).1[i]?
        = (aliases[i]?).bind idProvider.ReadByAlias) ∧
      (retrieveParts aliases idProvider).1.map (fun p => p.Alias) = aliases) ∧
    ((retrieveParts aliases idProvider).2 ≠ none → (retrieveParts aliases idProvider).1 = []) ∧
    (retrieveParts [] idProvider).2 ≠ none := by
  obtain ⟨hparts, hmiss, hfound⟩ := retrievePartsLoop_lists idProvider aliases
    { knownParts := [], parts := [], missingParts := [], repeatedParts := [],
      foundOwnAlias := false }
  have hrep := retrievePartsLoop_repeated idProvider aliases
    { knownParts := [], parts := [], missingParts := [], repeatedParts := [],
      foundOwnAlias := false }
  simp only [List.nil_append, Bool.false_or] at hparts hmiss hfound
  have hmiss_iff : (retrievePartsLoop idProvider aliases
      { knownParts := [], parts := [], missingParts := [], repeatedParts := [],
        foundOwnAlias := false }).missingParts = [] ↔
      ∀ a ∈ aliases, idProvider.ReadByAlias a ≠ none := by
    rw [hmiss, List.filter_eq_nil_iff]
    simp [Option.isNone_iff_eq_none]
  have hsucc : (retrieveParts aliases idProvider).2 = none ↔
      (∀ a ∈ aliases, idProvider.ReadByAlias a ≠ none) ∧ aliases.Nodup ∧
        OwnAlias ∈ aliases := by
    unfold retrieveParts
    simp only [ne_eq, List.length_eq_zero, ite_not]
    constructor
    · intro h
      split at h
      · rename_i hm
        have hall := hmiss_iff.mp hm
        split at h
        · rename_i hr
          split at h
          · cases h
          · rename_i hf
            have hnd := ((hrep hall).mp hr).2.1
            refine ⟨hall, hnd, ?_⟩
            rw [hfound] at hf
            simpa using hf
        · cases h
      · cases h
    · rintro ⟨hall, hnd, hown⟩
      have hm := hmiss_iff.mpr hall
      have hr := (hrep hall).mpr ⟨rfl, hnd, fun a _ => rfl⟩
      have hf : (retrievePartsLoop idProvider aliases
          { knownParts := [], parts := [], missingParts := [], repeatedParts := [],
            foundOwnAlias := false }).foundOwnAlias = true := by
        rw [hfound]; simpa using hown
      simp [hm, hr, hf]
  have hres : (retrieveParts aliases idProvider).2 = none →
      (retrieveParts aliases idProvider).1
        = aliases.map (fun a => (idProvider.ReadByAlias a).getD zeroPeer) := by
    intro h
    rw [← hparts]
    unfold retrieveParts at h ⊢
    simp only [ne_eq, List.length_eq_zero, ite_not] at h ⊢
    split at h
    · split at h
      · split at h
        · cases h
        · rename_i hm hr hf
          simp [hm, hr, hf]
      · cases h
    · cases h
  refine ⟨hsucc, ?_, ?_, ?_⟩
  · intro h
    have hall := (hsucc.mp h).1
    rw [hres h]
    refine ⟨by simp, ?_, ?_⟩
    · intro i
      rw [List.getElem?_map]
      cases hi : aliases[i]? with
      | none => rfl
      | some a =>
        have hmem : a ∈ aliases := List.getElem?_mem hi
        cases hp : idProvider.ReadByAlias a with
        | none => exact absurd hp (hall a hmem)
        | some p => simp [hp]
    · rw [List.map_map]
      conv_rhs => rw [← List.map_id aliases]
      apply List.map_congr_left
      intro a hmem
      cases hp : idProvider.ReadByAlias a with
      | none => exact absurd hp (hall a hmem)
      | some p =>
        have := List.find?_some hp
        simpa [hp] using this
  · intro h
    unfold retrieveParts at h ⊢
    simp only [ne_eq, List.length_eq_zero, ite_not] at h ⊢
    split
    · split
      · split
        · rfl
        · rename_i hm hr hf
          simp [hm, hr, hf] at h
      · rfl
    · rfl
  · simp [retrieveParts, retrievePartsLoop]

/-! ## Contract registry -/

theorem isAssetRegistered_false (r : contractRegistry) (asset : String) :
    (r.isAssetRegistered asset).2 = false ↔ ∀ e ∈ r.assets, e.2 ≠ asset := by
  unfold contractRegistry.isAssetRegistered
  cases h : r.assets.find? (fun e => e.2 == asset) with
  | none =>
    simp only [true_iff]
    intro e he
    have := List.find?_eq_none.mp h e he
    simpa using this
  | some e =>
    simp only [Bool.true_eq_false, false_iff, not_forall]
    have h1 := List.find?_some h
    have h2 := List.mem_of_find?_eq_some h
    exact ⟨e, h2, by simpa using h1⟩

theorem isSymbolRegistered_false (r : contractRegistry) (symbol : String) :
    (r.isSymbolRegistered symbol).2 = false ↔ ∀ e ∈ r.assets, e.1 ≠ symbol := by
  unfold contractRegistry.isSymbolRegistered mapLookup
  cases h : r.assets.find? (fun e => e.1 == symbol) with
  | none =>
    simp only [Option.map_none', true_iff]
    intro e he
    have := List.find?_eq_none.mp h e he
    simpa using this
  | some e =>
    simp only [Option.map_some', Bool.true_eq_false, false_iff, not_forall]
    have h1 := List.find?_some h
    have h2 := List.mem_of_find?_eq_some h
    exact ⟨e, h2, by simpa using h1⟩

/-- What `RegisterAssetERC20` does, case by case. -/
theorem RegisterAssetERC20_cases (r : contractRegistry) (token asset : String)
    (chainRet : Except String (String × Nat)) :
    (∀ symbol, r.isAssetRegistered asset = (symbol, true) →
      r.RegisterAssetERC20 token asset chainRet
        = (("", 0, some (RegistryErr.AssetERC20RegisteredError asset symbol)), r)) ∧
    ((r.isAssetRegistered asset).2 = false →
      (∀ e, chainRet = .error e →
        r.RegisterAssetERC20 token asset chainRet
          = (("", 0, some (RegistryErr.chain e)),
              { r with chainCalls := r.chainCalls ++ [(token, asset)] })) ∧
      (∀ symbol maxDecimals other, chainRet = .ok (symbol, maxDecimals) →
        r.isSymbolRegistered symbol = (some other, true) →
        r.RegisterAssetERC20 token asset chainRet
          = (("", 0, some (RegistryErr.AssetERC20RegisteredError other symbol)),
              { r with chainCalls := r.chainCalls ++ [(token, asset)] })) ∧
      (∀ symbol maxDecimals, chainRet = .ok (symbol, maxDecimals) →
        (r.isSymbolRegistered symbol).2 = false →
        r.RegisterAssetERC20 token asset chainRet
          = ((symbol, maxDecimals, none),
              { r with chainCalls := r.chainCalls ++ [(token, asset)],
                       assets := r.assets ++ [(symbol, asset)] }))) := by
  constructor
  · intro symbol h
    simp [contractRegistry.RegisterAssetERC20, h]
  · intro hnot
    have hpair : r.isAssetRegistered asset = ((r.isAssetRegistered asset).1, false) := by
      rw [← hnot]
    refine ⟨?_, ?_, ?_⟩
    · intro e he
      unfold contractRegistry.RegisterAssetERC20
      rw [hpair, he]
    · intro symbol maxDecimals other hc hs
      unfold contractRegistry.RegisterAssetERC20
      rw [hpair, hc]
      have hs1 : ({ r with chainCalls := r.chainCalls ++ [(token, asset)] } :
          contractRegistry).isSymbolRegistered symbol = (some other, true) := hs
      simp only [hs1]
    · intro symbol maxDecimals hc hs
      have hkeys := (isSymbolRegistered_false r symbol).mp hs
      unfold contractRegistry.RegisterAssetERC20
      rw [hpair, hc]
      have hs1 : ({ r with chainCalls := r.chainCalls ++ [(token, asset)] } :
          contractRegistry).isSymbolRegistered symbol = (none, false) := by
        have : r.isSymbolRegistered symbol = (none, false) := by
          unfold contractRegistry.isSymbolRegistered at hs ⊢
          cases hl : mapLookup r.assets symbol with
          | none => rfl
          | some a => rw [hl] at hs; cases hs
        exact this
      simp only [hs1, mapInsert_of_not_mem r.assets symbol asset hkeys]

/-- C17: `RegisterAssetERC20(token, asset)` fails with an `AssetERC20RegisteredError`
when the asset is registered already, and then makes no call on the chain backend;
otherwise it fails with the error of the chain backend when the validation fails,
and with an `AssetERC20RegisteredError` when the symbol the chain reports is
registered, to another asset. On every failure the registered assets are unchanged.
On success the pair of the reported symbol and the asset is added and nothing else,
and the reported symbol and decimals are returned. -/
theorem RegisterAssetERC20_outcomes (r : contractRegistry) (token asset : String)
    (chainRet : Except String (String × Nat)) :
    (∀ symbol, r.Symbol asset = (symbol, true) →
      r.RegisterAssetERC20 token asset chainRet
        = (("", 0, some (RegistryErr.AssetERC20RegisteredError asset symbol)), r)) ∧
    ((r.Symbol asset).2 = false →
      (r.RegisterAssetERC20 token asset chainRet).2.chainCalls
        = r.chainCalls ++ [(token, asset)] ∧
      (∀ e, chainRet = .error e →
        (r.RegisterAssetERC20 token asset chainRet).1 = ("", 0, some (RegistryErr.chain e))) ∧
      (∀ symbol maxDecimals other, chainRet = .ok (symbol, maxDecimals) →
        r.Asset symbol = (some other, true) →
        other ≠ asset ∧
        (r.RegisterAssetERC20 token asset chainRet).1
          = ("", 0, some (RegistryErr.AssetERC20RegisteredError other symbol))) ∧
      (∀ symbol maxDecimals, chainRet = .ok (symbol, maxDecimals) →
        (r.Asset symbol).2 = false →
        (r.RegisterAssetERC20 token asset chainRet).1 = (symbol, maxDecimals, none) ∧
        (r.RegisterAssetERC20 token asset chainRet).2.assets
          = r.assets ++ [(symbol, asset)])) ∧
    ((r.RegisterAssetERC20 token asset chainRet).1.2.2 ≠ none →
      (r.RegisterAssetERC20 token asset chainRet).2.assets = r.assets) := by
  obtain ⟨h1, h2⟩ := RegisterAssetERC20_cases r token asset chainRet
  refine ⟨h1, ?_, ?_⟩
  · intro hnot
    obtain ⟨ha, hb, hc⟩ := h2 hnot
    refine ⟨?_, ?_, ?_, ?_⟩
    · cases hch : chainRet with
      | error e => rw [← hch, ha e hch]
      | ok p =>
        obtain ⟨symbol, maxDecimals⟩ := p
        cases hs : (r.isSymbolRegistered symbol).2 with
        | false => rw [← hch, hc symbol maxDecimals hch hs]
        | true =>
          have : ∃ other, r.isSymbolRegistered symbol = (some other, true) := by
            unfold contractRegistry.isSymbolRegistered at hs ⊢
            cases hl : mapLookup r.assets symbol with
            | none => rw [hl] at hs; cases hs
            | some a => exact ⟨a, rfl⟩
          obtain ⟨other, ho⟩ := this
          rw [← hch, hb symbol maxDecimals other hch ho]
    · intro e he
      rw [ha e he]
    · intro symbol maxDecimals other hch ho
      refine ⟨?_, by rw [hb symbol maxDecimals other hch ho]⟩
      intro heq
      have hmem : (symbol, other) ∈ r.assets := by
        unfold contractRegistry.Asset contractRegistry.isSymbolRegistered mapLookup at ho
        cases hf : r.assets.find? (fun e => e.1 == symbol) with
        | none => rw [hf] at ho; cases ho
        | some e =>
          rw [hf] at ho
          have h3 := List.find?_some hf
          have h4 := List.mem_of_find?_eq_some hf
          simp only [Option.map_some', Prod.mk.injEq, Option.some.injEq, and_true] at ho
          have h5 : e.1 = symbol := by simpa using h3
          have : e = (symbol, other) := Prod.ext h5 ho
          rw [← this]
          exact h4
      exact (isAssetRegistered_false r asset).mp hnot _ hmem heq
    · intro symbol maxDecimals hch hs
      rw [hc symbol maxDecimals hch hs]
      exact ⟨rfl, rfl⟩
  · intro herr
    cases hreg : (r.isAssetRegistered asset).2 with
    | true =>
      have : r.isAssetRegistered asset = ((r.isAssetRegistered asset).1, true) := by
        rw [← hreg]
      rw [h1 _ this]
    | false =>
      obtain ⟨ha, hb, hc⟩ := h2 hreg
      cases hch : chainRet with
      | error e => rw [← hch, ha e hch]
      | ok p =>
        obtain ⟨symbol, maxDecimals⟩ := p
        cases hs : (r.isSymbolRegistered symbol).2 with
        | false =>
          rw [hc symbol maxDecimals hch hs] at herr
          exact absurd rfl herr
        | true =>
          have : ∃ other, r.isSymbolRegistered symbol = (some other, true) := by
            unfold contractRegistry.isSymbolRegistered at hs ⊢
            cases hl : mapLookup r.assets symbol with
            | none => rw [hl] at hs; cases hs
            | some a => exact ⟨a, rfl⟩
          obtain ⟨other, ho⟩ := this
          rw [← hch, hb symbol maxDecimals other hch ho]

/-- One call of `RegisterAssetERC20` leaves the registered assets as they are or adds
one entry at the end, whose symbol and whose asset are not registered before. -/
theorem RegisterAssetERC20_step (r : contractRegistry) (token asset : String)
    (chainRet : Except String (String × Nat)) :
    (r.RegisterAssetERC20 token asset chainRet).2.assets = r.assets ∨
    ∃ symbol, (r.RegisterAssetERC20 token asset chainRet).2.assets
        = r.assets ++ [(symbol, asset)] ∧
      (∀ e ∈ r.assets, e.1 ≠ symbol) ∧ (∀ e ∈ r.assets, e.2 ≠ asset) := by
  obtain ⟨h1, h2⟩ := RegisterAssetERC20_cases r token asset chainRet
  cases hreg : (r.isAssetRegistered asset).2 with
  | true =>
    left
    have : r.isAssetRegistered asset = ((r.isAssetRegistered asset).1, true) := by
      rw [← hreg]
    rw [h1 _ this]
  | false =>
    obtain ⟨ha, hb, hc⟩ := h2 hreg
    cases hch : chainRet with
    | error e => left; rw [← hch, ha e hch]
    | ok p =>
      obtain ⟨symbol, maxDecimals⟩ := p
      cases hs : (r.isSymbolRegistered symbol).2 with
      | false =>
        right
        refine ⟨symbol, by rw [← hch, hc symbol maxDecimals hch hs],
          (isSymbolRegistered_false r symbol).mp hs, (isAssetRegistered_false r asset).mp hreg⟩
      | true =>
        left
        have : ∃ other, r.isSymbolRegistered symbol = (some other, true) := by
          unfold contractRegistry.isSymbolRegistered at hs ⊢
          cases hl : mapLookup r.assets symbol with
          | none => rw [hl] at hs; cases hs
          | some a => exact ⟨a, rfl⟩
        obtain ⟨other, ho⟩ := this
        rw [← hch, hb symbol maxDecimals other hch ho]

theorem Asset_of_append (r t : contractRegistry) (x : String × String) (symbol asset : String)
    (ht : t.assets = r.assets ++ [x]) (h : r.Asset symbol = (some asset, true)) :
    t.Asset symbol = (some asset, true) := by
  unfold contractRegistry.Asset contractRegistry.isSymbolRegistered mapLookup at h ⊢
  rw [ht, List.find?_append]
  cases hf : r.assets.find? (fun e => e.1 == symbol) with
  | none => rw [hf] at h; cases h
  | some e => rw [hf] at h; simpa using h

theorem Symbol_of_append (r t : contractRegistry) (x : String × String) (symbol asset : String)
    (ht : t.assets = r.assets ++ [x]) (h : r.Symbol asset = (symbol, true)) :
    t.Symbol asset = (symbol, true) := by
  unfold contractRegistry.Symbol contractRegistry.isAssetRegistered at h ⊢
  rw [ht, List.find?_append]
  cases hf : r.assets.find? (fun e => e.2 == asset) with
  | none => rw [hf] at h; cases h
  | some e => rw [hf] at h; simpa using h

theorem Asset_of_assets_eq (r t : contractRegistry) (h : t.assets = r.assets) :
    t.Asset = r.Asset ∧ t.Symbol = r.Symbol := by
  constructor
  · funext s
    simp [contractRegistry.Asset, contractRegistry.isSymbolRegistered, h]
  · funext a
    simp [contractRegistry.Symbol, contractRegistry.isAssetRegistered, h]

/-- Lookups that succeed keep their result through further calls of
`RegisterAssetERC20`. -/
theorem registerAll_keeps (calls : List registerCall) :
    ∀ (r : contractRegistry) (symbol asset : String),
      (r.Asset symbol = (some asset, true) →
        (r.registerAll calls).Asset symbol = (some asset, true)) ∧
      (r.Symbol asset = (symbol, true) →
        (r.registerAll calls).Symbol asset = (symbol, true)) := by
  induction calls with
  | nil => intro r symbol asset; exact ⟨id, id⟩
  | cons c rest ih =>
    intro r symbol asset
    simp only [contractRegistry.registerAll]
    rcases RegisterAssetERC20_step r c.token c.asset c.chainRet with h | ⟨s, h, _, _⟩
    · obtain ⟨e1, e2⟩ := Asset_of_assets_eq r _ h
      constructor
      · intro ha
        exact (ih _ symbol asset).1 (by rw [e1]; exact ha)
      · intro hs
        exact (ih _ symbol asset).2 (by rw [e2]; exact hs)
    · constructor
      · intro ha
        exact (ih _ symbol asset).1 (Asset_of_append r _ _ symbol asset h ha)
      · intro hs
        exact (ih _ symbol asset).2 (Symbol_of_append r _ _ symbol asset h hs)

/-- C15: after `RegisterAssetERC20(token, asset)` succeeded and returned the symbol
`s`, `Asset(s)` returns the asset and `Symbol(asset)` returns `s`, both as found, and
they still do after any further calls of `RegisterAssetERC20`, whether these succeed
or fail. -/
theorem registered_asset_stays (r r1 : contractRegistry) (token asset symbol : String)
    (maxDecimals : Nat) (chainRet : Except String (String × Nat))
    (calls : List registerCall)
    (h : r.RegisterAssetERC20 token asset chainRet = ((symbol, maxDecimals, none), r1)) :
    (r1.registerAll calls).Asset symbol = (some asset, true) ∧
    (r1.registerAll calls).Symbol asset = (symbol, true) := by
  obtain ⟨h1, h2⟩ := RegisterAssetERC20_cases r token asset chainRet
  have hreg : (r.isAssetRegistered asset).2 = false := by
    cases hb : (r.isAssetRegistered asset).2 with
    | false => rfl
    | true =>
      have : r.isAssetRegistered asset = ((r.isAssetRegistered asset).1, true) := by
        rw [← hb]
      rw [h1 _ this] at h
      cases h
  obtain ⟨ha, hb, hc⟩ := h2 hreg
  have hsucc : chainRet = .ok (symbol, maxDecimals) ∧ (r.isSymbolRegistered symbol).2 = false := by
    cases hch : chainRet with
    | error e => rw [ha e hch] at h; cases h
    | ok p =>
      obtain ⟨s, d⟩ := p
      cases hs : (r.isSymbolRegistered s).2 with
      | false =>
        rw [hc s d hch hs] at h
        simp only [Prod.mk.injEq, and_true] at h
        obtain ⟨⟨hs1, hd1⟩, _⟩ := h
        subst hs1 hd1
        exact ⟨rfl, hs⟩
      | true =>
        have : ∃ other, r.isSymbolRegistered s = (some other, true) := by
          unfold contractRegistry.isSymbolRegistered at hs ⊢
          cases hl : mapLookup r.assets s with
          | none => rw [hl] at hs; cases hs
          | some a => exact ⟨a, rfl⟩
        obtain ⟨other, ho⟩ := this
        rw [hb s d other hch ho] at h
        cases h
  have hr1 : r1.assets = r.assets ++ [(symbol, asset)] := by
    rw [hc symbol maxDecimals hsucc.1 hsucc.2] at h
    cases h
    rfl
  have hkeys := (isSymbolRegistered_false r symbol).mp hsucc.2
  have hvals := (isAssetRegistered_false r asset).mp hreg
  have hA : r1.Asset symbol = (some asset, true) := by
    unfold contractRegistry.Asset contractRegistry.isSymbolRegistered
    rw [hr1, ← mapInsert_of_not_mem r.assets symbol asset hkeys, mapLookup_mapInsert_self]
  have hS : r1.Symbol asset = (symbol, true) := by
    unfold contractRegistry.Symbol contractRegistry.isAssetRegistered
    have hnone : r.assets.find? (fun e => e.2 == asset) = none := by
      rw [List.find?_eq_none]
      intro e he
      simpa using hvals e he
    rw [hr1, List.find?_append, hnone]
    simp
  exact ⟨(registerAll_keeps calls r1 symbol asset).1 hA,
    (registerAll_keeps calls r1 symbol asset).2 hS⟩

/-- Witness of C15: the token `TKA` registered on a new registry, followed by a call
that fails on the chain, a call for the same symbol and a call for another token. -/
theorem registered_asset_stays_witness :
    ((sampleRegistry.RegisterAssetERC20 "0xtka" "0xassetA" (.ok ("TKA", 18))).2.registerAll
        [⟨"0xtkb", "0xassetB", .error "invalid contract"⟩,
         ⟨"0xtkc", "0xassetC", .ok ("TKA", 6)⟩,
         ⟨"0xtkd", "0xassetD", .ok ("TKD", 6)⟩]).Asset "TKA" = (some "0xassetA", true) ∧
    ((sampleRegistry.RegisterAssetERC20 "0xtka" "0xassetA" (.ok ("TKA", 18))).2.registerAll
        [⟨"0xtkb", "0xassetB", .error "invalid contract"⟩,
         ⟨"0xtkc", "0xassetC", .ok ("TKA", 6)⟩,
         ⟨"0xtkd", "0xassetD", .ok ("TKD", 6)⟩]).Symbol "0xassetA" = ("TKA", true) :=
  registered_asset_stays sampleRegistry _ "0xtka" "0xassetA" "TKA" 18 (.ok ("TKA", 18))
    [⟨"0xtkb", "0xassetB", .error "invalid contract"⟩,
     ⟨"0xtkc", "0xassetC", .ok ("TKA", 6)⟩,
     ⟨"0xtkd", "0xassetD", .ok ("TKD", 6)⟩] (by rfl)

theorem registerAll_distinct (calls : List registerCall) :
    ∀ r : contractRegistry, r.distinct → (r.registerAll calls).distinct := by
  induction calls with
  | nil => intro r h; exact h
  | cons c rest ih =>
    intro r h
    simp only [contractRegistry.registerAll]
    apply ih
    rcases RegisterAssetERC20_step r c.token c.asset c.chainRet with he | ⟨s, he, hk, hv⟩
    · unfold contractRegistry.distinct
      rw [he]
      exact h
    · unfold contractRegistry.distinct at h ⊢
      rw [he, List.map_append, List.map_append]
      constructor
      · rw [List.nodup_append]
        refine ⟨h.1, by simp, ?_⟩
        intro x hx1 hx2
        simp only [List.map_cons, List.map_nil, List.mem_singleton] at hx2
        obtain ⟨e, hmem, hx⟩ := List.mem_map.mp hx1
        exact hk e hmem (hx.trans hx2)
      · rw [List.nodup_append]
        refine ⟨h.2, by simp, ?_⟩
        intro x hx1 hx2
        simp only [List.map_cons, List.map_nil, List.mem_singleton] at hx2
        obtain ⟨e, hmem, hx⟩ := List.mem_map.mp hx1
        exact hv e hmem (hx.trans hx2)

theorem Asset_iff_mem (r : contractRegistry) (h : r.distinct) (symbol asset : String) :
    r.Asset symbol = (some asset, true) ↔ (symbol, asset) ∈ r.assets := by
  unfold contractRegistry.Asset contractRegistry.isSymbolRegistered mapLookup
  have hnd := h.1
  generalize r.assets = m at hnd ⊢
  induction m with
  | nil => simp
  | cons e rest ih =>
    rw [List.map_cons, List.nodup_cons] at hnd
    by_cases he : e.1 = symbol
    · have hb : (e.1 == symbol) = true := by simp [he]
      simp only [List.find?_cons, hb, Option.map_some', Prod.mk.injEq, Option.some.injEq,
        and_true, List.mem_cons]
      constructor
      · intro h2
        left
        exact (Prod.ext he h2).symm
      · rintro (h2 | h2)
        · rw [← h2]
        · exfalso
          apply hnd.1
          rw [he]
          exact List.mem_map.mpr ⟨(symbol, asset), h2, rfl⟩
    · have hb : (e.1 == symbol) = false := by simp [he]
      simp only [List.find?_cons, hb, List.mem_cons]
      have ih1 := ih hnd.2
      constructor
      · exact fun h2 => Or.inr (ih1.mp h2)
      · rintro (h2 | h2)
        · exfalso; apply he; rw [← h2]
        · exact ih1.mpr h2

theorem Symbol_iff_mem (r : contractRegistry) (h : r.distinct) (symbol asset : String) :
    r.Symbol asset = (symbol, true) ↔ (symbol, asset) ∈ r.assets := by
  unfold contractRegistry.Symbol contractRegistry.isAssetRegistered
  have hnd := h.2
  generalize r.assets = m at hnd ⊢
  induction m with
  | nil => simp
  | cons e rest ih =>
    rw [List.map_cons, List.nodup_cons] at hnd
    by_cases he : e.2 = asset
    · have hb : (e.2 == asset) = true := by simp [he]
      simp only [List.find?_cons, hb, Prod.mk.injEq, and_true, List.mem_cons]
      constructor
      · intro h2
        left
        exact (Prod.ext h2 he).symm
      · rintro (h2 | h2)
        · rw [← h2]
        · exfalso
          apply hnd.1
          rw [he]
          exact List.mem_map.mpr ⟨(symbol, asset), h2, rfl⟩
    · have hb : (e.2 == asset) = false := by simp [he]
      simp only [List.find?_cons, hb, List.mem_cons]
      have ih1 := ih hnd.2
      constructor
      · exact fun h2 => Or.inr (ih1.mp h2)
      · rintro (h2 | h2)
        · exfalso; apply he; rw [← h2]
        · exact ih1.mpr h2

/-- C16: in every registry reached from a successful `NewContractRegistry` by calls of
`RegisterAssetERC20`, no symbol and no asset is registered twice, so two symbols
whose asset is the same are the same symbol, an asset has one symbol only, and
`Asset` and `Symbol` are inverse to each other: `Asset(s)` finds `a` exactly when
`Symbol(a)` finds `s`. -/
theorem registry_symbol_asset_bijective (adjudicator assetETH : String)
    (adjudicatorRet assetETHRet : Option String) (r0 : contractRegistry)
    (calls : List registerCall)
    (hnew : NewContractRegistry adjudicator assetETH adjudicatorRet assetETHRet = .ok r0) :
    (r0.registerAll calls).distinct ∧
    (∀ s1 s2 a, (r0.registerAll calls).Asset s1 = (some a, true) →
      (r0.registerAll calls).Asset s2 = (some a, true) → s1 = s2) ∧
    (∀ s a1 a2, (r0.registerAll calls).Symbol a1 = (s, true) →
      (r0.registerAll calls).Symbol a2 = (s, true) → a1 = a2) ∧
    (∀ s a, (r0.registerAll calls).Asset s = (some a, true) ↔
      (r0.registerAll calls).Symbol a = (s, true)) := by
  have h0 : r0.distinct := by
    unfold NewContractRegistry at hnew
    cases adjudicatorRet with
    | some e => cases hnew
    | none =>
      cases assetETHRet with
      | some e => cases hnew
      | none =>
        cases hnew
        exact ⟨List.nodup_nil, List.nodup_nil⟩
  have hd := registerAll_distinct calls r0 h0
  refine ⟨hd, ?_, ?_, ?_⟩
  · intro s1 s2 a h1 h2
    rw [Asset_iff_mem _ hd, ← Symbol_iff_mem _ hd] at h1 h2
    rw [h1] at h2
    exact (Prod.mk.inj h2).1
  · intro s a1 a2 h1 h2
    rw [Symbol_iff_mem _ hd, ← Asset_iff_mem _ hd] at h1 h2
    rw [h1] at h2
    exact Option.some.inj (Prod.mk.inj h2).1
  · intro s a
    rw [Asset_iff_mem _ hd, Symbol_iff_mem _ hd]

/-- Witness of C16: a new registry after three calls, two of which succeed. -/
theorem registry_symbol_asset_bijective_witness :
    NewContractRegistry "0xadj" "0xeth" none none = .ok sampleRegistry ∧
    (sampleRegistry.registerAll
        [⟨"0xtka", "0xassetA", .ok ("TKA", 18)⟩,
         ⟨"0xtkc", "0xassetC", .ok ("TKA", 6)⟩,
         ⟨"0xtkd", "0xassetD", .ok ("TKD", 6)⟩]).assets
      = [("TKA", "0xassetA"), ("TKD", "0xassetD")] ∧
    (∀ s a, (sampleRegistry.registerAll
        [⟨"0xtka", "0xassetA", .ok ("TKA", 18)⟩,
         ⟨"0xtkc", "0xassetC", .ok ("TKA", 6)⟩,
         ⟨"0xtkd", "0xassetD", .ok ("TKD", 6)⟩]).Asset s = (some a, true) ↔
      (sampleRegistry.registerAll
        [⟨"0xtka", "0xassetA", .ok ("TKA", 18)⟩,
         ⟨"0xtkc", "0xassetC", .ok ("TKA", 6)⟩,
         ⟨"0xtkd", "0xassetD", .ok ("TKD", 6)⟩]).Symbol a = (s, true)) :=
  ⟨rfl, by rfl, (registry_symbol_asset_bijective "0xadj" "0xeth" none none sampleRegistry
    [⟨"0xtka", "0xassetA", .ok ("TKA", 18)⟩,
     ⟨"0xtkc", "0xassetC", .ok ("TKA", 6)⟩,
     ⟨"0xtkd", "0xassetD", .ok ("TKD", 6)⟩] rfl).2.2.2⟩

/-! ## Channel states -/

namespace pchannel

theorem sampleWire_lawful : sampleWire.Lawful where
  id := by intro id rest _; rfl
  uint64 := by intro v rest _; rfl
  allocation := by
    intro a bs rest h
    simp only [sampleWire, Except.ok.injEq] at h
    subst h
    refine ⟨a, ?_, by simp [sampleWire]⟩
    simp [sampleWire, Encodable.encodek]
  bool := by intro b rest; cases b <;> rfl
  address := by intro a rest; rfl
  equalEncoding := by
    intro d1 d2 bs h1 h2
    simp [sampleWire, h1, h2]

/-- `State.Decode` on the bytes `State.Encode` wrote, followed by any bytes: the ID,
the version, an allocation equal to the one written and the IsFinal flag are read
back, and what remains is decided by the optional app and the data. -/
theorem Decode_Encode_fields (w : Wire) (hw : w.Lawful) (s : State) (bytes rest : Bytes)
    (hid : s.ID < 2 ^ 256) (hversion : s.Version < 2 ^ 64)
    (henc : s.Encode w = .ok bytes) :
    ∃ alloc data a1, w.encodeAllocation s.Allocation = .ok alloc ∧
      s.Data.Encode = .ok data ∧ w.AllocationEqual s.Allocation a1 = none ∧
      bytes = w.encodeID s.ID ++ w.encodeUint64 s.Version ++ alloc ++ w.encodeBool s.IsFinal ++
        OptAppEnc.Encode w s.App ++ data ∧
      State.Decode w (bytes ++ rest) =
        match OptAppDec.Decode w (OptAppEnc.Encode w s.App ++ (data ++ rest)) with
        | .error e => .error (Err.withMessage e "id or version decode")
        | .ok (app, r5) =>
          match app.decodeData w r5 with
          | .error e => .error (Err.withMessage e "app decode data")
          | .ok (d, r6) =>
            .ok ({ ID := s.ID, Version := s.Version, App := app, Allocation := a1,
                   Data := d, IsFinal := s.IsFinal }, r6) := by
  unfold State.Encode at henc
  cases ha : w.encodeAllocation s.Allocation with
  | error e => rw [ha] at henc; cases henc
  | ok alloc =>
    cases hd : s.Data.Encode with
    | error e => rw [ha, hd] at henc; cases henc
    | ok data =>
      rw [ha, hd] at henc
      simp only [Except.ok.injEq] at henc
      obtain ⟨a1, hdec, heq⟩ := hw.allocation s.Allocation alloc
        (w.encodeBool s.IsFinal ++ (OptAppEnc.Encode w s.App ++ (data ++ rest))) ha
      refine ⟨alloc, data, a1, rfl, rfl, heq, henc.symm, ?_⟩
      rw [← henc]
      unfold State.Decode
      simp only [List.append_assoc]
      rw [hw.id s.ID _ hid]
      simp only
      rw [hw.uint64 s.Version _ hversion]
      simp only
      rw [hdec]
      simp only
      rw [hw.bool]

/-- `OptAppDec.Decode` on what `OptAppEnc.Encode` wrote, followed by any bytes. -/
theorem OptAppDec_OptAppEnc (w : Wire) (hw : w.Lawful) (app : App) (rest : Bytes) :
    OptAppDec.Decode w (OptAppEnc.Encode w app ++ rest) =
      match app with
      | .noApp => .ok (App.noApp, rest)
      | .app d _ =>
        match w.Resolve d with
        | .error e => .error (Err.withMessage e "resolve app")
        | .ok app1 => .ok (app1, rest) := by
  cases app with
  | noApp =>
    simp only [OptAppEnc.Encode, OptAppDec.Decode, hw.bool]
    rfl
  | app d dec =>
    simp only [OptAppEnc.Encode, OptAppDec.Decode, List.append_assoc, hw.bool, hw.address]
    rfl

/-- The round trip of a state, with bytes following its encoding: when the app of the
state is the `NoApp` or resolves back from its definition, and its `DecodeData` reads
back the data, `State.Decode` returns a state equal to the one encoded and leaves the
bytes that follow. -/
theorem Decode_Encode (w : Wire) (hw : w.Lawful) (s : State) (bytes rest : Bytes)
    (hid : s.ID < 2 ^ 256) (hversion : s.Version < 2 ^ 64)
    (happ : s.App = App.noApp ∨
      ∃ d dec, s.App = App.app d dec ∧ w.Resolve d = .ok (App.app d dec))
    (hdata : ∀ data, s.Data.Encode = .ok data →
      ∃ d1, s.App.decodeData w (data ++ rest) = .ok (d1, rest) ∧ d1.Encode = .ok data)
    (henc : s.Encode w = .ok bytes) :
    ∃ t, State.Decode w (bytes ++ rest) = .ok (t, rest) ∧ s.Equal w t = none ∧
      t.ID = s.ID ∧ t.Version = s.Version ∧ t.IsFinal = s.IsFinal ∧
      AppShouldEqual s.App t.App = none ∧ w.AllocationEqual s.Allocation t.Allocation = none ∧
      w.EqualEncoding s.Data t.Data = .ok true := by
  obtain ⟨alloc, data, a1, _, hd, heq, _, hdec⟩ :=
    Decode_Encode_fields w hw s bytes rest hid hversion henc
  obtain ⟨d1, hdd, hd1⟩ := hdata data hd
  have hopt : OptAppDec.Decode w (OptAppEnc.Encode w s.App ++ (data ++ rest))
      = .ok (s.App, data ++ rest) := by
    rw [OptAppDec_OptAppEnc w hw]
    rcases happ with h | ⟨d, dec, h, hres⟩
    · rw [h]
    · rw [h]
      simp only [hres]
  rw [hopt] at hdec
  simp only [hdd] at hdec
  have happeq : AppShouldEqual s.App s.App = none := by
    cases s.App <;> simp [AppShouldEqual, IsNoApp]
  refine ⟨_, hdec, ?_, rfl, rfl, rfl, happeq, heq, hw.equalEncoding s.Data d1 data hd hd1⟩
  simp [State.Equal, happeq, heq, hw.equalEncoding s.Data d1 data hd hd1]

/-- C18 (as stated, refuted): the app of the state has the definition 5, the resolver
maps 5 back to this very app, and its `DecodeData` reads nothing and returns empty
data, while the data of the state is written as the byte 7. `State.Encode` succeeds and
`State.Decode` of its bytes succeeds, but `Equal` of the state and the decoded state
is the error "different App data". -/
theorem State_roundtrip_counterexample :
    (sampleState sampleApp [7]).App = App.app 5 (fun r => .ok ({ Encode := .ok [] }, r)) ∧
    sampleWire.Resolve 5 = .ok (App.app 5 (fun r => .ok ({ Encode := .ok [] }, r))) ∧
    (sampleState sampleApp [7]).Encode sampleWire
      = .ok [1, 3, Encodable.encode (([9] : List Nat), ([[1, 2]] : List (List Nat))), 0, 1, 5, 7] ∧
    State.Decode sampleWire
        [1, 3, Encodable.encode (([9] : List Nat), ([[1, 2]] : List (List Nat))), 0, 1, 5, 7]
      = .ok (sampleState sampleApp [], [7]) ∧
    (sampleState sampleApp [7]).Equal sampleWire (sampleState sampleApp [])
      = some (Err.errorf "different App data" []) := by
  refine ⟨rfl, rfl, rfl, ?_, ?_⟩
  · obtain ⟨alloc, data, a1, ha, hd, heq, hb, hdec⟩ := Decode_Encode_fields sampleWire
      sampleWire_lawful (sampleState sampleApp [7])
      [1, 3, Encodable.encode (([9] : List Nat), ([[1, 2]] : List (List Nat))), 0, 1, 5, 7] []
      (by decide) (by decide) rfl
    have hdata : data = [7] := by
      have : (sampleState sampleApp [7]).Data.Encode = .ok [7] := rfl
      rw [this] at hd
      exact (Except.ok.inj hd).symm
    subst hdata
    have heq2 : ({ Assets := [9], Balances := [[1, 2]] } : Allocation) = a1 := by
      simpa [sampleWire, sampleState] using heq
    subst heq2
    rw [OptAppDec_OptAppEnc sampleWire sampleWire_lawful, List.append_nil] at hdec
    exact hdec
  · simp [State.Equal, sampleState, sampleApp, AppShouldEqual, IsNoApp, sampleWire]

/-- C18 (amended): let the decoders of the values read back what the encoders wrote,
let the app of the state be the `NoApp` or an app that the resolver maps back from
its definition to an app with the same definition and the same `DecodeData`, and
let that `DecodeData` read back the data of the state from its encoding. Then
`State.Decode` of the bytes that `State.Encode` wrote succeeds, reads all of them and
returns a state `t` with `Equal` nil: same ID, version and IsFinal flag, same app
definition, equal allocation and data of equal encoding. -/
theorem State_roundtrip (w : Wire) (hw : w.Lawful) (s : State) (bytes : Bytes)
    (hid : s.ID < 2 ^ 256) (hversion : s.Version < 2 ^ 64)
    (happ : s.App = App.noApp ∨
      ∃ d dec, s.App = App.app d dec ∧ w.Resolve d = .ok (App.app d dec))
    (hdata : ∀ data, s.Data.Encode = .ok data →
      ∃ d1, s.App.decodeData w data = .ok (d1, []) ∧ d1.Encode = .ok data)
    (henc : s.Encode w = .ok bytes) :
    ∃ t, State.Decode w bytes = .ok (t, []) ∧ s.Equal w t = none ∧
      t.ID = s.ID ∧ t.Version = s.Version ∧ t.IsFinal = s.IsFinal ∧
      AppShouldEqual s.App t.App = none ∧ w.AllocationEqual s.Allocation t.Allocation = none ∧
      w.EqualEncoding s.Data t.Data = .ok true := by
  have h := Decode_Encode w hw s bytes [] hid hversion happ
    (by simpa using hdata) henc
  simpa using h

/-- Witness of C18: the state with the sample app and empty data. -/
theorem State_roundtrip_witness :
    ∃ t, State.Decode sampleWire
        [1, 3, Encodable.encode (([9] : List Nat), ([[1, 2]] : List (List Nat))), 0, 1, 5]
        = .ok (t, []) ∧
      (sampleState sampleApp []).Equal sampleWire t = none := by
  obtain ⟨t, h1, h2, _⟩ := State_roundtrip sampleWire sampleWire_lawful
    (sampleState sampleApp [])
    [1, 3, Encodable.encode (([9] : List Nat), ([[1, 2]] : List (List Nat))), 0, 1, 5]
    (by decide) (by decide) (Or.inr ⟨5, _, rfl, rfl⟩)
    (by
      intro data hd
      have : data = [] := (Except.ok.inj hd).symm
      subst this
      exact ⟨{ Encode := .ok [] }, rfl, rfl⟩)
    rfl
  exact ⟨t, h1, h2⟩

/-- C19 (as stated, refuted): the bytes `State.Encode` wrote for a state with the
sample app and empty data, followed by the byte 0. `State.Decode` returns no error:
it returns the state and leaves the byte 0 in the reader. -/
theorem State_Decode_trailing_counterexample :
    (sampleState sampleApp []).Encode sampleWire
      = .ok [1, 3, Encodable.encode (([9] : List Nat), ([[1, 2]] : List (List Nat))), 0, 1, 5] ∧
    State.Decode sampleWire
        ([1, 3, Encodable.encode (([9] : List Nat), ([[1, 2]] : List (List Nat))), 0, 1, 5]
          ++ [0])
      = .ok (sampleState sampleApp [], [0]) ∧
    (sampleState sampleApp []).Equal sampleWire (sampleState sampleApp []) = none := by
  refine ⟨rfl, ?_, ?_⟩
  · obtain ⟨alloc, data, a1, ha, hd, heq, hb, hdec⟩ := Decode_Encode_fields sampleWire
      sampleWire_lawful (sampleState sampleApp [])
      [1, 3, Encodable.encode (([9] : List Nat), ([[1, 2]] : List (List Nat))), 0, 1, 5] [0]
      (by decide) (by decide) rfl
    have hdata : data = [] := by
      have : (sampleState sampleApp []).Data.Encode = .ok [] := rfl
      rw [this] at hd
      exact (Except.ok.inj hd).symm
    subst hdata
    have heq2 : ({ Assets := [9], Balances := [[1, 2]] } : Allocation) = a1 := by
      simpa [sampleWire, sampleState] using heq
    subst heq2
    rw [OptAppDec_OptAppEnc sampleWire sampleWire_lawful, List.nil_append] at hdec
    exact hdec
  · simp [State.Equal, sampleState, sampleApp, AppShouldEqual, IsNoApp, sampleWire]

/-- C19 (amended): `State.Decode` does not reject bytes that follow the encoding of a
state. Under the conditions of the round trip (the decoders of the values read back
what the encoders wrote and leave what follows, the app resolves back, and its
`DecodeData` reads back the data and leaves what follows), decoding the bytes of
`State.Encode` followed by any byte string `x` succeeds, returns a state `t` with
`Equal` nil and leaves `x` in the reader. -/
theorem State_Decode_leaves_trailing (w : Wire) (hw : w.Lawful) (s : State) (bytes x : Bytes)
    (hid : s.ID < 2 ^ 256) (hversion : s.Version < 2 ^ 64)
    (happ : s.App = App.noApp ∨
      ∃ d dec, s.App = App.app d dec ∧ w.Resolve d = .ok (App.app d dec))
    (hdata : ∀ data, s.Data.Encode = .ok data →
      ∃ d1, s.App.decodeData w (data ++ x) = .ok (d1, x) ∧ d1.Encode = .ok data)
    (henc : s.Encode w = .ok bytes) :
    ∃ t, State.Decode w (bytes ++ x) = .ok (t, x) ∧ s.Equal w t = none := by
  obtain ⟨t, h1, h2, _⟩ := Decode_Encode w hw s bytes x hid hversion happ hdata henc
  exact ⟨t, h1, h2⟩

/-- Witness of C19: the state with the sample app and empty data, followed by the bytes
0 and 0. -/
theorem State_Decode_leaves_trailing_witness :
    ∃ t, State.Decode sampleWire
        ([1, 3, Encodable.encode (([9] : List Nat), ([[1, 2]] : List (List Nat))), 0, 1, 5]
          ++ [0, 0])
        = .ok (t, [0, 0]) ∧
      (sampleState sampleApp []).Equal sampleWire t = none :=
  State_Decode_leaves_trailing sampleWire sampleWire_lawful (sampleState sampleApp [])
    [1, 3, Encodable.encode (([9] : List Nat), ([[1, 2]] : List (List Nat))), 0, 1, 5] [0, 0]
    (by decide) (by decide) (Or.inr ⟨5, _, rfl, rfl⟩)
    (by
      intro data hd
      have : data = [] := (Except.ok.inj hd).symm
      subst this
      exact ⟨{ Encode := .ok [] }, rfl, rfl⟩)
    rfl

/-- C20 (as stated, refuted): a state without an app whose data is written as the byte
7. The bytes `State.Encode` writes do not end with the (false) flag: the byte 7 follows
it. -/
theorem State_Encode_noApp_counterexample :
    IsNoApp (sampleState App.noApp [7]).App = true ∧
    (sampleState App.noApp [7]).Encode sampleWire
      = .ok (sampleWire.encodeID 1 ++ sampleWire.encodeUint64 3 ++
          [Encodable.encode (([9] : List Nat), ([[1, 2]] : List (List Nat)))] ++
          sampleWire.encodeBool false ++ sampleWire.encodeBool false ++ [7]) ∧
    (sampleState App.noApp [7]).Encode sampleWire
      ≠ .ok (sampleWire.encodeID 1 ++ sampleWire.encodeUint64 3 ++
          [Encodable.encode (([9] : List Nat), ([[1, 2]] : List (List Nat)))] ++
          sampleWire.encodeBool false ++ sampleWire.encodeBool false) := by
  refine ⟨rfl, rfl, ?_⟩
  intro h
  have hlen := congrArg (fun r => match r with
    | Except.ok (b : Bytes) => b.length
    | Except.error (_ : Err) => 0) h
  simp [State.Encode, sampleState, sampleWire, OptAppEnc.Encode] at hlen

/-- C20 (amended): the bytes `State.Encode` produces are, in this order, the encodings
of the channel ID, the version, the allocation, the IsFinal flag and the optional-app
flag, then the app definition exactly when the state has an app, then the encoding
of the data of the state, with or without an app: after the (false) flag of a state
without an app the encoding of its data follows. -/
theorem State_Encode_layout (w : Wire) (s : State) (bytes : Bytes)
    (henc : s.Encode w = .ok bytes) :
    ∃ alloc data, w.encodeAllocation s.Allocation = .ok alloc ∧
      s.Data.Encode = .ok data ∧
      (s.App = App.noApp →
        bytes = w.encodeID s.ID ++ w.encodeUint64 s.Version ++ alloc ++
          w.encodeBool s.IsFinal ++ w.encodeBool false ++ data) ∧
      (∀ d dec, s.App = App.app d dec →
        bytes = w.encodeID s.ID ++ w.encodeUint64 s.Version ++ alloc ++
          w.encodeBool s.IsFinal ++ w.encodeBool true ++ w.encodeAddress d ++ data) := by
  unfold State.Encode at henc
  cases ha : w.encodeAllocation s.Allocation with
  | error e => rw [ha] at henc; cases henc
  | ok alloc =>
    cases hd : s.Data.Encode with
    | error e => rw [ha, hd] at henc; cases henc
    | ok data =>
      rw [ha, hd] at henc
      simp only [Except.ok.injEq] at henc
      refine ⟨alloc, data, rfl, rfl, ?_, ?_⟩
      · intro happ
        rw [← henc, happ]
        rfl
      · intro d dec happ
        rw [← henc, happ]
        simp [OptAppEnc.Encode]

/-- Witness of C20: the state with the sample app and data written as the byte 7. -/
theorem State_Encode_layout_witness :
    ∃ alloc data, sampleWire.encodeAllocation (sampleState sampleApp [7]).Allocation = .ok alloc ∧
      (sampleState sampleApp [7]).Data.Encode = .ok data ∧
      [1, 3, Encodable.encode (([9] : List Nat), ([[1, 2]] : List (List Nat))), 0, 1, 5, 7]
        = sampleWire.encodeID 1 ++ sampleWire.encodeUint64 3 ++ alloc ++
          sampleWire.encodeBool false ++ sampleWire.encodeBool true ++
          sampleWire.encodeAddress 5 ++ data := by
  obtain ⟨alloc, data, h1, h2, _, h4⟩ := State_Encode_layout sampleWire
    (sampleState sampleApp [7])
    [1, 3, Encodable.encode (([9] : List Nat), ([[1, 2]] : List (List Nat))), 0, 1, 5, 7] rfl
  exact ⟨alloc, data, h1, h2, h4 5 _ rfl⟩

end pchannel

/-- C25, the claim does not hold: no number bounds the cache of the sample session
over all sequences of proposals arriving while no notifier is registered. -/
theorem cache_bounded_counterexample :
    ¬ ∃ B : Nat, ∀ arrivals : List arrival,
      ((sampleSession [] []).handleProposals sampleEnv arrivals).chProposalNotifsCache.length
        ≤ B := by
  rintro ⟨B, hB⟩
  have h := hB (List.replicate (B + 1) sampleArrival)
  have h1 := (handleProposals_of_open_none sampleEnv (List.replicate (B + 1) sampleArrival)
    (sampleSession [] []) rfl rfl).2.2.1
  rw [h1] at h
  simp [sampleSession] at h

/-- C25, amended: on an open session without a notifier every `HandleProposal` call
appends one notification, the one built for the proposal, to the cache and leaves the
session open and without a notifier. After any sequence of arrivals the cache is the
cache of before followed by the notifications of the arrivals, in the order of
arrival, and is longer by the number of arrivals; nothing bounds it. -/
theorem cache_grows_with_arrivals (env : Env) (s : session) (arrivals : List arrival)
    (hopen : s.isOpen = true) (hnone : s.chProposalNotifier = none) :
    (s.handleProposals env arrivals).chProposalNotifsCache
      = s.chProposalNotifsCache ++
          arrivals.map (fun a => s.proposalNotif env a.now a.chProposal) ∧
    (s.handleProposals env arrivals).chProposalNotifsCache.length
      = s.chProposalNotifsCache.length + arrivals.length ∧
    (s.handleProposals env arrivals).isOpen = true ∧
    (s.handleProposals env arrivals).chProposalNotifier = none ∧
    (∀ a : arrival,
      (s.HandleProposal env a.now a.chProposal a.responder).chProposalNotifsCache
        = s.chProposalNotifsCache ++ [s.proposalNotif env a.now a.chProposal]) := by
  have h := handleProposals_of_open_none env arrivals s hopen hnone
  refine ⟨h.2.2.1, ?_, h.1, h.2.1, ?_⟩
  · rw [h.2.2.1]
    simp
  · intro a
    have h1 := (handleProposals_of_open_none env [a] s hopen hnone).2.2.1
    simpa [session.handleProposals] using h1

/-- Witness of C25: three arrivals on the sample session leave three notifications. -/
theorem cache_grows_with_arrivals_witness :
    (sampleSession [] []).isOpen = true ∧
    (sampleSession [] []).chProposalNotifier = none ∧
    ((sampleSession [] []).handleProposals sampleEnv
        [sampleArrival, sampleArrival, sampleArrival]).chProposalNotifsCache.length
      = (sampleSession [] []).chProposalNotifsCache.length + 3 :=
  ⟨rfl, rfl, (cache_grows_with_arrivals sampleEnv (sampleSession [] [])
    [sampleArrival, sampleArrival, sampleArrival] rfl rfl).2.1⟩

/-- C28, the claim does not hold: when the go-perun client fails to close, `Close`
returns an error and the open flag, true before the call, is false after it. -/
theorem Close_error_isOpen_counterexample :
    sampleSessionCloseFails.isOpen = true ∧
    (sampleSessionCloseFails.Close sampleEnv true).map (fun r => (r.1.2, r.2.isOpen))
      = some (some (Err.withMessage
          (Err.wrap (Err.outside "boom") "closing channel client") "closing session"),
        false) := by
  refine ⟨rfl, rfl⟩

/-- C28, amended: when `Close` returns an error because the session was closed
already, a channel is in an unexpected phase or channels are open without force, the
open flag has the value it had before the call; when it returns the error of closing
the channel client, the session was open before and the flag is false afterwards. -/
theorem Close_error_isOpen (env : Env) (s : session) (force : Bool)
    (r : (Option (List ChInfo) × Option Err) × session)
    (hr : s.Close env force = some r) (herr : r.1.2 ≠ none) :
    (r.2.isOpen = s.isOpen ∧
      (r.1.2 = some Err.ErrSessionClosed ∨
       (∃ ids, ids ≠ [] ∧ r.1.2 = some (env.GetAPIError (Err.withStack
          (Err.errorf "chs in unexpected phase during session close: %v"
            [FmtArg.strs ids])))) ∨
       (∃ infos, infos ≠ [] ∧ force = false ∧ r.1.2 = some (env.GetAPIError (Err.withStack
          (Err.errorfW "%w: %v" Err.ErrOpenCh [FmtArg.infos infos])))))) ∨
    (s.isOpen = true ∧ r.2.isOpen = false ∧
      r.1.2 = WithMessage s.chClient.Close.1 "closing session") := by
  unfold session.Close at hr
  by_cases hopen : s.isOpen = true
  · simp only [hopen, Bool.not_true, Bool.false_eq_true, if_false] at hr
    cases hloop : closeLoop env s.chs
        { visited := [], openChsInfo := [], unexpectedPhaseChIDs := [] } with
    | none => simp [hloop] at hr
    | some st =>
      simp only [hloop] at hr
      split_ifs at hr with hu ho
      · simp only [Option.some.injEq] at hr
        subst hr
        left
        refine ⟨by simp [session.unlockAllChs, hopen],
          Or.inr (Or.inl ⟨st.unexpectedPhaseChIDs, ?_, ?_⟩)⟩
        · intro h; simp [h] at hu
        · simp [getAPIError]
      · simp only [Option.some.injEq] at hr
        subst hr
        left
        refine ⟨by simp [session.unlockAllChs, hopen],
          Or.inr (Or.inr ⟨st.openChsInfo, ?_, by simpa using ho.1, ?_⟩)⟩
        · intro h; simp [h] at ho
        · simp [getAPIError]
      · simp only [Option.some.injEq] at hr
        subst hr
        right
        refine ⟨hopen, by simp [session.close], by simp [session.close]⟩
  · have hclosed : s.isOpen = false := by simpa using hopen
    simp only [hclosed, Bool.not_false, if_true, Option.some.injEq] at hr
    subst hr
    left
    exact ⟨rfl, Or.inl rfl⟩

/-- Witness of C28: `Close` on the sample session whose go-perun client fails to
close. -/
theorem Close_error_isOpen_witness :
    sampleSessionCloseFails.Close sampleEnv true
      = some ((some [], some (Err.withMessage
          (Err.wrap (Err.outside "boom") "closing channel client") "closing session")),
        sampleSessionCloseFails.closed) ∧
    ((sampleSessionCloseFails.closed.isOpen = sampleSessionCloseFails.isOpen ∧
      ((some (Err.withMessage (Err.wrap (Err.outside "boom") "closing channel client")
            "closing session") : Option Err) = some Err.ErrSessionClosed ∨
       (∃ ids, ids ≠ [] ∧ (some (Err.withMessage
          (Err.wrap (Err.outside "boom") "closing channel client") "closing session")
            : Option Err) = some (sampleEnv.GetAPIError (Err.withStack
          (Err.errorf "chs in unexpected phase during session close: %v"
            [FmtArg.strs ids])))) ∨
       (∃ infos, infos ≠ [] ∧ true = false ∧ (some (Err.withMessage
          (Err.wrap (Err.outside "boom") "closing channel client") "closing session")
            : Option Err) = some (sampleEnv.GetAPIError (Err.withStack
          (Err.errorfW "%w: %v" Err.ErrOpenCh [FmtArg.infos infos])))))) ∨
    (sampleSessionCloseFails.isOpen = true ∧ sampleSessionCloseFails.closed.isOpen = false ∧
      (some (Err.withMessage (Err.wrap (Err.outside "boom") "closing channel client")
            "closing session") : Option Err)
        = WithMessage sampleSessionCloseFails.chClient.Close.1 "closing session")) :=
  ⟨rfl, Close_error_isOpen sampleEnv sampleSessionCloseFails true
    ((some [], some (Err.withMessage
          (Err.wrap (Err.outside "boom") "closing channel client") "closing session")),
        sampleSessionCloseFails.closed) rfl (by simp)⟩
theorem exchange0_zero {α : Type} (l : List α) : exchange0 l 0 = l := by
  unfold exchange0
  cases l with
  | nil => rfl
  | cons a t => simp

theorem zip_set {α β : Type} (l1 : List α) : ∀ (l2 : List β) (k : Nat) (a : α) (b : β),
    (l1.set k a).zip (l2.set k b) = (l1.zip l2).set k (a, b) := by
  induction l1 with
  | nil => intro l2 k a b; simp
  | cons x xs ih =>
    intro l2 k a b
    cases l2 with
    | nil => simp
    | cons y ys =>
      cases k with
      | zero => simp
      | succ n => simp [ih]

theorem exchange0_zip {α β : Type} (l1 : List α) (l2 : List β) (k : Nat)
    (hlen : l1.length = l2.length) :
    (exchange0 l1 k).zip (exchange0 l2 k) = exchange0 (l1.zip l2) k := by
  unfold exchange0
  by_cases hk : k < l1.length
  · have h0 : 0 < l1.length := by omega
    have hk2 : k < l2.length := by omega
    have h02 : 0 < l2.length := by omega
    have hkz : k < (l1.zip l2).length := by simp; omega
    have h0z : 0 < (l1.zip l2).length := by simp; omega
    simp only [List.getElem?_eq_getElem hk, List.getElem?_eq_getElem h0,
      List.getElem?_eq_getElem hk2, List.getElem?_eq_getElem h02,
      List.getElem?_eq_getElem hkz, List.getElem?_eq_getElem h0z, zip_set]
    simp
  · have hk1 : l1[k]? = none := by simp; omega
    have hk2 : l2[k]? = none := by simp; omega
    have hkz : (l1.zip l2)[k]? = none := by simp; omega
    simp only [hk1, hk2, hkz]
    cases l1[0]? <;> cases l2[0]? <;> cases (l1.zip l2)[0]? <;> rfl

theorem exchange0_perm {α : Type} (l : List α) (k : Nat) : (exchange0 l k).Perm l := by
  unfold exchange0
  cases l with
  | nil => simp
  | cons a t =>
    cases k with
    | zero => simp
    | succ j =>
      by_cases hj : j < t.length
      · simp only [List.getElem?_cons_zero, List.getElem?_cons_succ,
          List.getElem?_eq_getElem hj, List.set_cons_succ, List.set_cons_zero]
        rw [List.set_eq_take_append_cons_drop, if_pos hj]
        have ht : t = t.take j ++ t[j] :: t.drop (j + 1) := by
          rw [← List.drop_eq_getElem_cons hj, List.take_append_drop]
        conv_rhs => rw [ht]
        have p1 : (t[j] :: (t.take j ++ a :: t.drop (j + 1))).Perm
            (t[j] :: a :: (t.take j ++ t.drop (j + 1))) := List.Perm.cons _ List.perm_middle
        have p2 : (a :: (t.take j ++ t[j] :: t.drop (j + 1))).Perm
            (a :: t[j] :: (t.take j ++ t.drop (j + 1))) := List.Perm.cons _ List.perm_middle
        exact p1.trans ((List.Perm.swap _ _ _).trans p2.symm)
      · have : t[j]? = none := by simp; omega
        simp [this]

/-- What `sanitizeBalInfo` returns when the two lists have the same length: the entries
at the positions 0 and `sanitizeOwnIdx` exchanged in both. -/
theorem sanitizeBalInfo_eq (b : BalInfo) (hlen : b.Parts.length = b.Bal.length) :
    sanitizeBalInfo b = some { b with
      Parts := exchange0 b.Parts (sanitizeOwnIdx b.Parts 0 0),
      Bal := exchange0 b.Bal (sanitizeOwnIdx b.Parts 0 0) } := by
  unfold sanitizeBalInfo
  by_cases h0 : sanitizeOwnIdx b.Parts 0 0 = 0
  · simp [h0, exchange0_zero]
  · rcases sanitizeOwnIdx_spec b.Parts 0 0 with ⟨_, heq⟩ | ⟨_, _, hlt, hget, _⟩
    · exact absurd heq h0
    · have hk : sanitizeOwnIdx b.Parts 0 0 < b.Parts.length := by omega
      have hb : sanitizeOwnIdx b.Parts 0 0 < b.Bal.length := by omega
      have hp0 : 0 < b.Parts.length := by omega
      have hb0 : 0 < b.Bal.length := by omega
      simp only [Nat.sub_zero] at hget
      have hself : b.Parts[sanitizeOwnIdx b.Parts 0 0] = OwnAlias := by
        rw [List.getElem?_eq_getElem hk] at hget
        exact Option.some.inj hget
      simp only [ne_eq, h0, not_false_eq_true, if_true, List.getElem?_eq_getElem hb,
        exchange0, List.getElem?_eq_getElem hk, List.getElem?_eq_getElem hp0,
        List.getElem?_eq_getElem hb0, List.getD_eq_getElem?_getD, Option.getD_some, hself]

/-- C26: for a BalInfo whose `Parts` and `Bal` have the same length, `sanitizeBalInfo`
returns the input with the entries at the positions 0 and k exchanged in `Parts` and
in `Bal`, k being the last index at which `self` stands (0 when it stands nowhere):
the pairs of alias and amount are the pairs of the input with the positions 0 and k
exchanged, hence a permutation of them, the currency is the one of the input, and
without an entry for `self` the BalInfo is returned as it is. -/
theorem sanitizeBalInfo_exchanges (b : BalInfo) (hlen : b.Parts.length = b.Bal.length) :
    ∃ res k, sanitizeBalInfo b = some res ∧
      (OwnAlias ∉ b.Parts → k = 0) ∧
      (OwnAlias ∈ b.Parts → b.Parts[k]? = some OwnAlias ∧
        ∀ j : Nat, k < j → b.Parts[j]? ≠ some OwnAlias) ∧
      res.Parts = exchange0 b.Parts k ∧
      res.Bal = exchange0 b.Bal k ∧
      res.Parts.zip res.Bal = exchange0 (b.Parts.zip b.Bal) k ∧
      (res.Parts.zip res.Bal).Perm (b.Parts.zip b.Bal) ∧
      res.Currency = b.Currency ∧
      (OwnAlias ∉ b.Parts → res = b) := by
  refine ⟨_, sanitizeOwnIdx b.Parts 0 0, sanitizeBalInfo_eq b hlen, ?_, ?_, rfl, rfl, ?_, ?_,
    rfl, ?_⟩
  · intro hno
    rcases sanitizeOwnIdx_spec b.Parts 0 0 with ⟨_, heq⟩ | ⟨hin, _⟩
    · exact heq
    · exact absurd hin hno
  · intro hin
    rcases sanitizeOwnIdx_spec b.Parts 0 0 with ⟨hno, _⟩ | ⟨_, _, _, hget, hlast⟩
    · exact absurd hin hno
    · simp only [Nat.sub_zero] at hget hlast
      exact ⟨hget, hlast⟩
  · exact exchange0_zip b.Parts b.Bal _ hlen
  · simp only [exchange0_zip b.Parts b.Bal _ hlen]
    exact exchange0_perm _ _
  · intro hno
    rcases sanitizeOwnIdx_spec b.Parts 0 0 with ⟨_, heq⟩ | ⟨hin, _⟩
    · simp only [heq, exchange0_zero]
    · exact absurd hin hno

/-- Witness of C26: the own alias at the indices 1 and 3, so the entries at 0 and 3
change places. -/
theorem sanitizeBalInfo_exchanges_witness :
    sanitizeBalInfo sampleBalInfo
      = some { Currency := "ETH", Parts := ["self", "self", "carol", "bob"],
               Bal := ["4", "2", "3", "1"] } ∧
    ∃ res k, sanitizeBalInfo sampleBalInfo = some res ∧
      (OwnAlias ∉ sampleBalInfo.Parts → k = 0) ∧
      (OwnAlias ∈ sampleBalInfo.Parts → sampleBalInfo.Parts[k]? = some OwnAlias ∧
        ∀ j : Nat, k < j → sampleBalInfo.Parts[j]? ≠ some OwnAlias) ∧
      res.Parts = exchange0 sampleBalInfo.Parts k ∧
      res.Bal = exchange0 sampleBalInfo.Bal k ∧
      res.Parts.zip res.Bal = exchange0 (sampleBalInfo.Parts.zip sampleBalInfo.Bal) k ∧
      (res.Parts.zip res.Bal).Perm (sampleBalInfo.Parts.zip sampleBalInfo.Bal) ∧
      res.Currency = sampleBalInfo.Currency ∧
      (OwnAlias ∉ sampleBalInfo.Parts → res = sampleBalInfo) :=
  ⟨by rfl, sanitizeBalInfo_exchanges sampleBalInfo rfl⟩

/-- C30, the claim does not hold: with `self` at the indices 0 and 1 the first
application exchanges the two amounts and the second exchanges them back. -/
theorem sanitizeBalInfo_idempotent_counterexample :
    sampleBalInfoTwice.Parts.length = sampleBalInfoTwice.Bal.length ∧
    sanitizeBalInfo sampleBalInfoTwice
      = some { Currency := "ETH", Parts := ["self", "self"], Bal := ["2", "1"] } ∧
    (sanitizeBalInfo sampleBalInfoTwice).bind sanitizeBalInfo
      = some { Currency := "ETH", Parts := ["self", "self"], Bal := ["1", "2"] } ∧
    (sanitizeBalInfo sampleBalInfoTwice).bind sanitizeBalInfo
      ≠ sanitizeBalInfo sampleBalInfoTwice := by
  refine ⟨rfl, rfl, rfl, by decide⟩

/-- C30, amended: for a BalInfo whose `Parts` and `Bal` have the same length and
whose `Parts` holds `self` at most once, `sanitizeBalInfo` returns, and applied to
its own result it returns that result again. -/
theorem sanitizeBalInfo_idempotent (b : BalInfo) (hlen : b.Parts.length = b.Bal.length)
    (huniq : ∀ i j : Nat, b.Parts[i]? = some OwnAlias → b.Parts[j]? = some OwnAlias → i = j) :
    ∃ res, sanitizeBalInfo b = some res ∧ sanitizeBalInfo res = some res := by
  refine ⟨_, sanitizeBalInfo_eq b hlen, ?_⟩
  rcases sanitizeOwnIdx_spec b.Parts 0 0 with ⟨_, heq⟩ | ⟨_, _, hlt, hget, _⟩
  · simp only [heq, exchange0_zero]
    exact (sanitizeBalInfo_eq b hlen).trans (by simp [heq, exchange0_zero])
  · simp only [Nat.sub_zero] at hget
    by_cases h0 : sanitizeOwnIdx b.Parts 0 0 = 0
    · simp only [h0, exchange0_zero]
      exact (sanitizeBalInfo_eq b hlen).trans (by simp [h0, exchange0_zero])
    · have hk : sanitizeOwnIdx b.Parts 0 0 < b.Parts.length := by omega
      have hp0 : 0 < b.Parts.length := by omega
      have hex : exchange0 b.Parts (sanitizeOwnIdx b.Parts 0 0)
          = (b.Parts.set (sanitizeOwnIdx b.Parts 0 0) b.Parts[0]).set 0
              b.Parts[sanitizeOwnIdx b.Parts 0 0] := by
        simp [exchange0, List.getElem?_eq_getElem hk, List.getElem?_eq_getElem hp0]
      have key : ∀ j : Nat, (exchange0 b.Parts (sanitizeOwnIdx b.Parts 0 0))[j]?
          = some OwnAlias → j = 0 := by
        intro j hget2
        by_contra hj
        rw [hex, List.getElem?_set_ne (Ne.symm hj)] at hget2
        by_cases hjk : j = sanitizeOwnIdx b.Parts 0 0
        · rw [hjk, List.getElem?_set_self hk] at hget2
          have h00 : b.Parts[0]? = some OwnAlias := by
            rw [List.getElem?_eq_getElem hp0]; exact hget2
          exact h0 (huniq _ _ hget h00)
        · rw [List.getElem?_set_ne (Ne.symm hjk)] at hget2
          exact hjk (huniq _ _ hget2 hget)
      have hidx : sanitizeOwnIdx (exchange0 b.Parts (sanitizeOwnIdx b.Parts 0 0)) 0 0 = 0 := by
        rcases sanitizeOwnIdx_spec (exchange0 b.Parts (sanitizeOwnIdx b.Parts 0 0)) 0 0
          with ⟨_, heq⟩ | ⟨_, _, _, hget2, _⟩
        · exact heq
        · simp only [Nat.sub_zero] at hget2
          exact key _ hget2
      unfold sanitizeBalInfo
      simp [hidx]

/-- Witness of C30: `self` once, at the index 1. -/
theorem sanitizeBalInfo_idempotent_witness :
    sanitizeBalInfo { Currency := "ETH", Parts := ["bob", "self"], Bal := ["1", "2"] }
      = some { Currency := "ETH", Parts := ["self", "bob"], Bal := ["2", "1"] } ∧
    ∃ res, sanitizeBalInfo { Currency := "ETH", Parts := ["bob", "self"], Bal := ["1", "2"] }
        = some res ∧ sanitizeBalInfo res = some res :=
  ⟨by rfl, sanitizeBalInfo_idempotent
    { Currency := "ETH", Parts := ["bob", "self"], Bal := ["1", "2"] } rfl (by
      intro i j hi hj
      have hi1 : i = 1 := by
        rcases i with _ | _ | i
        · simp [OwnAlias] at hi
        · rfl
        · simp at hi
      have hj1 : j = 1 := by
        rcases j with _ | _ | j
        · simp [OwnAlias] at hj
        · rfl
        · simp at hj
      omega)⟩

/-- C27, the code at two inputs: with the aliases `self` and `zed`, `zed` unknown, the
message about missing peers prints the map of the peers that were found (the entry of
`self`), not `zed`; with `bob` given twice the message about repeated entries prints
the map of all peers found (`self` and `bob`), not `bob` alone. -/
theorem retrieveParts_messages_print_knownParts :
    retrieveParts ["self", "zed"] (sampleSession [] []).idProvider
      = ([], some (Err.errorf "No peers found in idProvider for the following alias(es): %v"
          [FmtArg.peerMap [("self", samplePeer "self" "0xa")]])) ∧
    retrieveParts ["self", "bob", "bob"] (sampleSession [] []).idProvider
      = ([], some (Err.errorf "Repeated entries in aliases: %v"
          [FmtArg.peerMap [("self", samplePeer "self" "0xa"), ("bob", samplePeer "bob" "0xb")]])) := by
  refine ⟨rfl, rfl⟩

/-- C29, the code at a token whose symbol on the chain is `ETH`: the registration
succeeds, and afterwards `Assets()` maps `ETH` to the asset of the token, not to
`AssetETH()`, and has one entry, as many as there are registered ERC-20 assets. -/
theorem Assets_ETH_symbol_overwritten :
    (sampleRegistry.RegisterAssetERC20 "0xtok" "0xerc" (.ok ("ETH", 18))).1
      = ("ETH", 18, none) ∧
    (sampleRegistry.RegisterAssetERC20 "0xtok" "0xerc" (.ok ("ETH", 18))).2.assets
      = [("ETH", "0xerc")] ∧
    (sampleRegistry.RegisterAssetERC20 "0xtok" "0xerc" (.ok ("ETH", 18))).2.AssetETH = "0xeth" ∧
    (sampleRegistry.RegisterAssetERC20 "0xtok" "0xerc" (.ok ("ETH", 18))).2.Assets
      = [("ETH", "0xerc")] ∧
    mapLookup (sampleRegistry.RegisterAssetERC20 "0xtok" "0xerc" (.ok ("ETH", 18))).2.Assets "ETH"
      ≠ some (sampleRegistry.RegisterAssetERC20 "0xtok" "0xerc" (.ok ("ETH", 18))).2.AssetETH ∧
    (sampleRegistry.RegisterAssetERC20 "0xtok" "0xerc" (.ok ("ETH", 18))).2.Assets.length
      ≠ (sampleRegistry.RegisterAssetERC20 "0xtok" "0xerc" (.ok ("ETH", 18))).2.assets.length + 1 := by
  refine ⟨rfl, rfl, rfl, rfl, by decide, by decide⟩

/-- C22, the code at a `CloseSession` request: the response is nil, whatever the
request and the state of the server, while `AddContact` answers a request that names
an unknown session with the error variant carrying `ErrUnknownSessionID`. -/
theorem CloseSession_returns_nil_response :
    (∀ (a : PayChServer) (req : CloseSessionReq), a.CloseSession req = ((none, none), a)) ∧
    (PayChServer.mk sampleNode).CloseSession { SessionID := "s1", Force := false }
      = ((none, none), PayChServer.mk sampleNode) ∧
    (PayChServer.mk sampleNode).AddContact sampleEnv
        { SessionID := "s1", Peer := samplePeer "bob" "0xb" }
      = ((some (Response.Error (handlerErr.node NodeErr.ErrUnknownSessionID)), none),
          PayChServer.mk sampleNode) := by
  refine ⟨fun _ _ => rfl, rfl, rfl⟩

/-- C24: when the comm type of the user is not `tcp`, or the type of the ID provider
is not `yaml`, or the wallet backend cannot parse the asset address, `New` returns an
error and no session, and neither the construction of the channel client nor the
restoring of the persisted channels is among the steps it started. With the user
unlocked, the error is `ErrUnsupportedCommType` for the comm type; with a supported
comm type it is the error of the parser for the asset; with the asset parsed it is
`ErrUnsupportedIDProviderType` for the type of the ID provider. -/
theorem New_rejects_unsupported (cenv : calcEnv) (cfg : Config) (out : newOutcomes)
    (h : cfg.User.CommType ≠ "tcp" ∨ cfg.IDProviderType ≠ "yaml" ∨
      ∃ e, out.parseAsset = .error e) :
    (∃ e, (New cenv cfg out).1 = .error e) ∧
    newStep.newChClient ∉ (New cenv cfg out).2 ∧
    newStep.restoreChs ∉ (New cenv cfg out).2 ∧
    newStep.handle ∉ (New cenv cfg out).2 ∧
    (∀ user, out.unlockedUser = .ok user →
      (cfg.User.CommType ≠ "tcp" →
        (New cenv cfg out).1 = .error NewErr.ErrUnsupportedCommType) ∧
      (cfg.User.CommType = "tcp" → ∀ e, out.parseAsset = .error e →
        (New cenv cfg out).1 = .error (NewErr.err e)) ∧
      (cfg.User.CommType = "tcp" → ∀ asset, out.parseAsset = .ok asset →
        cfg.IDProviderType ≠ "yaml" →
        (New cenv cfg out).1 = .error NewErr.ErrUnsupportedIDProviderType)) := by
  have hspec : ∀ user, out.unlockedUser = .ok user →
      (cfg.User.CommType ≠ "tcp" →
        New cenv cfg out = (.error NewErr.ErrUnsupportedCommType, [newStep.unlockUser])) ∧
      (cfg.User.CommType = "tcp" → ∀ e, out.parseAsset = .error e →
        New cenv cfg out = (.error (NewErr.err e), [newStep.unlockUser, newStep.parseAsset])) ∧
      (cfg.User.CommType = "tcp" → ∀ asset, out.parseAsset = .ok asset →
        cfg.IDProviderType ≠ "yaml" →
        New cenv cfg out = (.error NewErr.ErrUnsupportedIDProviderType,
          [newStep.unlockUser, newStep.parseAsset, newStep.initIDProvider])) := by
    intro user hu
    refine ⟨?_, ?_, ?_⟩
    · intro hc
      simp [New, hu, hc]
    · intro hc e he
      simp [New, hu, hc, he]
    · intro hc asset ha ht
      simp [New, hu, hc, ha, initIDProvider, ht]
  have hmain : ∃ e steps, New cenv cfg out = (.error e, steps) ∧
      newStep.newChClient ∉ steps ∧ newStep.restoreChs ∉ steps ∧ newStep.handle ∉ steps := by
    cases hu : out.unlockedUser with
    | error e =>
      exact ⟨NewErr.err e, [newStep.unlockUser], by simp [New, hu], by simp, by simp, by simp⟩
    | ok user =>
      obtain ⟨h1, h2, h3⟩ := hspec user hu
      by_cases hc : cfg.User.CommType = "tcp"
      · cases ha : out.parseAsset with
        | error e => exact ⟨_, _, h2 hc e ha, by simp, by simp, by simp⟩
        | ok asset =>
          rcases h with h | h | ⟨e, he⟩
          · exact absurd hc h
          · exact ⟨_, _, h3 hc asset ha h, by simp, by simp, by simp⟩
          · rw [ha] at he; cases he
      · exact ⟨_, _, h1 hc, by simp, by simp, by simp⟩
  obtain ⟨e, steps, heq, hs1, hs2, hs3⟩ := hmain
  refine ⟨⟨e, by rw [heq]⟩, by rw [heq]; exact hs1, by rw [heq]; exact hs2,
    by rw [heq]; exact hs3, ?_⟩
  intro user hu
  obtain ⟨h1, h2, h3⟩ := hspec user hu
  exact ⟨fun hc => by rw [h1 hc], fun hc e he => by rw [h2 hc e he],
    fun hc asset ha ht => by rw [h3 hc asset ha ht]⟩

/-- Witness of C24: a configuration with the comm type `udp`. -/
theorem New_rejects_unsupported_witness :
    (sampleConfig "udp" "yaml").User.CommType ≠ "tcp" ∧
    New sampleCalcEnv (sampleConfig "udp" "yaml") (sampleOutcomes [] 0)
      = (.error NewErr.ErrUnsupportedCommType, [newStep.unlockUser]) ∧
    (∃ e, (New sampleCalcEnv (sampleConfig "udp" "yaml") (sampleOutcomes [] 0)).1 = .error e) ∧
    newStep.newChClient ∉ (New sampleCalcEnv (sampleConfig "udp" "yaml") (sampleOutcomes [] 0)).2 :=
  ⟨by decide, rfl,
    (New_rejects_unsupported sampleCalcEnv (sampleConfig "udp" "yaml") (sampleOutcomes [] 0)
      (Or.inl (by decide))).1,
    (New_rejects_unsupported sampleCalcEnv (sampleConfig "udp" "yaml") (sampleOutcomes [] 0)
      (Or.inl (by decide))).2.1⟩

theorem ReadByAlias_append_new (idp : IDProvider) (p : Peer)
    (h : idp.ReadByAlias p.Alias = none) :
    ({ peers := idp.peers ++ [p] } : IDProvider).ReadByAlias p.Alias = some p := by
  unfold IDProvider.ReadByAlias at h ⊢
  rw [List.find?_append, h]
  simp

/-- What `initIDProvider` does once the ID provider is loaded: it adds the own peer
when there is no entry for `self`, keeps the provider when the entry is the own peer,
and fails when the entry is another peer. -/
theorem initIDProvider_of_loaded (idp0 : IDProvider) (own : Peer) :
    initIDProvider "yaml" (.ok idp0) own =
      match idp0.ReadByAlias OwnAlias with
      | none => .ok { peers := idp0.peers ++ [{ own with Alias := OwnAlias }] }
      | some old =>
        if old = { own with Alias := OwnAlias } then .ok idp0
        else .error (NewErr.err
          (Err.wrap Err.ErrPeerAliasInUse "registering own user in idProvider")) := by
  unfold initIDProvider IDProvider.Write
  cases h : idp0.ReadByAlias OwnAlias with
  | none => simp [h]
  | some old =>
    by_cases ho : old = { own with Alias := OwnAlias }
    · simp [h, ho, Err.Is]
    · simp [h, ho, Err.Is]

/-- `New` fails when `initIDProvider` fails for the peer of the unlocked user. -/
theorem New_error_of_initIDProvider (cenv : calcEnv) (cfg : Config) (out : newOutcomes)
    (user : User) (e : NewErr) (hu : out.unlockedUser = .ok user)
    (hinit : initIDProvider cfg.IDProviderType out.localNew user.Peer = .error e) :
    ∃ e1, (New cenv cfg out).1 = .error e1 := by
  unfold New
  simp only [hu]
  split_ifs with hc
  · exact ⟨_, rfl⟩
  · cases out.parseAsset with
    | error e2 => exact ⟨_, rfl⟩
    | ok asset =>
      simp only [hinit]
      exact ⟨_, rfl⟩

/-- C23: whenever `initIDProvider` succeeds, the ID provider it returns resolves
`self` to the peer of the local user, with its off-chain address and comm address
and the alias `self`. An entry for `self` that the loaded provider holds already and
that is this peer is accepted, the provider is returned as loaded; an entry for
`self` that is another peer makes `initIDProvider` fail, and with it `New`. -/
theorem initIDProvider_self (idProviderType : String) (localNew : Except Err IDProvider)
    (own : Peer) :
    (∀ idp, initIDProvider idProviderType localNew own = .ok idp →
      idp.ReadByAlias OwnAlias = some { own with Alias := OwnAlias } ∧
      ∃ p, idp.ReadByAlias OwnAlias = some p ∧ p.OffChainAddr = own.OffChainAddr ∧
        p.CommAddr = own.CommAddr) ∧
    (∀ idp0, idProviderType = "yaml" → localNew = .ok idp0 →
      idp0.ReadByAlias OwnAlias = some { own with Alias := OwnAlias } →
      initIDProvider idProviderType localNew own = .ok idp0) ∧
    (∀ idp0 old, localNew = .ok idp0 → idp0.ReadByAlias OwnAlias = some old →
      old ≠ { own with Alias := OwnAlias } →
      (∃ e, initIDProvider idProviderType localNew own = .error e) ∧
      ∀ (cenv : calcEnv) (cfg : Config) (out : newOutcomes) (user : User),
        cfg.IDProviderType = idProviderType → out.localNew = localNew →
        out.unlockedUser = .ok user → user.Peer = own →
        ∃ e, (New cenv cfg out).1 = .error e) := by
  have hfail : ∀ idp0 old, localNew = .ok idp0 → idp0.ReadByAlias OwnAlias = some old →
      old ≠ { own with Alias := OwnAlias } →
      ∃ e, initIDProvider idProviderType localNew own = .error e := by
    intro idp0 old hl hold hne
    by_cases ht : idProviderType = "yaml"
    · subst ht; subst hl
      rw [initIDProvider_of_loaded, hold]
      simp only [hne, if_false]
      exact ⟨_, rfl⟩
    · exact ⟨NewErr.ErrUnsupportedIDProviderType, by simp [initIDProvider, ht]⟩
  refine ⟨?_, ?_, ?_⟩
  · intro idp h
    have key : idp.ReadByAlias OwnAlias = some { own with Alias := OwnAlias } := by
      by_cases ht : idProviderType = "yaml"
      · subst ht
        cases localNew with
        | error e => simp [initIDProvider] at h
        | ok idp0 =>
          rw [initIDProvider_of_loaded] at h
          cases hold : idp0.ReadByAlias OwnAlias with
          | none =>
            simp only [hold, Except.ok.injEq] at h
            subst h
            exact ReadByAlias_append_new idp0 { own with Alias := OwnAlias } hold
          | some old =>
            simp only [hold] at h
            split_ifs at h with ho
            simp only [Except.ok.injEq] at h
            subst h
            rw [hold, ho]
      · simp [initIDProvider, ht] at h
    exact ⟨key, _, key, rfl, rfl⟩
  · intro idp0 ht hl hold
    subst ht; subst hl
    rw [initIDProvider_of_loaded, hold]
    simp
  · intro idp0 old hl hold hne
    refine ⟨hfail idp0 old hl hold hne, ?_⟩
    intro cenv cfg out user hct hcl hu hp
    obtain ⟨e, he⟩ := hfail idp0 old hl hold hne
    exact New_error_of_initIDProvider cenv cfg out user e hu (by rw [hct, hcl, hp]; exact he)

theorem mapLookup_mapInsert_ne {V : Type} (m : List (String × V)) (k k1 : String) (v : V)
    (h : k ≠ k1) : mapLookup (mapInsert m k v) k1 = mapLookup m k1 := by
  induction m with
  | nil => simp [mapInsert, mapLookup, h]
  | cons e rest ih =>
    unfold mapInsert
    by_cases he : e.1 = k
    · have hk1 : e.1 ≠ k1 := by rw [he]; exact h
      simp [he, mapLookup, h, hk1]
    · simp only [beq_iff_eq, he, if_false]
      simp only [mapLookup, List.find?_cons] at ih ⊢
      cases hb : (e.1 == k1)
      · simpa using ih
      · simp

theorem handleRestoredCh_id (s : session) (pch : PChannel) :
    (s.handleRestoredCh pch).id = s.id := by
  unfold session.handleRestoredCh
  by_cases h1 : pch.phase ≠ Phase.Acting
  · simp [h1]
  · by_cases h2 : (resolveRestoredPeers s.idProvider pch.Peers).ok = true
    · simp [h1, h2, session.addCh]
    · simp [h1, h2]

theorem restoreChs_id (persisted : List PChannel) :
    ∀ s : session, (s.restoreChs persisted).id = s.id := by
  induction persisted with
  | nil => intro s; rfl
  | cons pch rest ih =>
    intro s
    rw [session.restoreChs, ih, handleRestoredCh_id]

/-- The ID of the session `New` returns. -/
theorem New_ok_id (cenv : calcEnv) (cfg : Config) (out : newOutcomes) (sess : session)
    (user : User) (hu : out.unlockedUser = .ok user)
    (hnew : (New cenv cfg out).1 = .ok sess) :
    sess.id = calcSessionID cenv user.Peer.OffChainAddr out.now := by
  unfold New at hnew
  simp only [hu] at hnew
  split_ifs at hnew with hc
  cases hp : out.parseAsset with
  | error e => simp [hp] at hnew
  | ok asset =>
    simp only [hp] at hnew
    cases hi : initIDProvider cfg.IDProviderType out.localNew user.Peer with
    | error e => simp [hi] at hnew
    | ok idp =>
      simp only [hi] at hnew
      cases hcl : NewEthereumPaymentClient out.chClient with
      | error e => simp [hcl] at hnew
      | ok cl =>
        simp only [hcl] at hnew
        cases hr : out.restoreRet with
        | some e => simp [hr] at hnew
        | none =>
          simp only [hr, Except.ok.injEq] at hnew
          rw [← hnew, restoreChs_id]

/-- `OpenSession` in closed form when it succeeds. -/
theorem OpenSession_success (env : Env) (cenv : calcEnv) (n : node)
    (parseRet : Except Err Config) (out : newOutcomes)
    (h : (n.OpenSession env cenv parseRet out).1.2.2 = none) :
    ∃ cfg sess user, parseRet = .ok cfg ∧ (New cenv cfg out).1 = .ok sess ∧
      out.unlockedUser = .ok user ∧
      sess.id = calcSessionID cenv user.Peer.OffChainAddr out.now ∧
      n.OpenSession env cenv parseRet out
        = ((sess.id, sess.GetChsInfo env, none),
            { sessions := mapInsert n.sessions sess.id sess }) := by
  unfold node.OpenSession at h ⊢
  cases parseRet with
  | error e => simp at h
  | ok cfg =>
    simp only at h ⊢
    cases hnew : (New cenv cfg out).1 with
    | error e => simp [hnew] at h
    | ok sess =>
      cases hu : out.unlockedUser with
      | error e => simp [New, hu] at hnew
      | ok user =>
        exact ⟨cfg, sess, user, rfl, hnew, rfl, New_ok_id cenv cfg out sess user hu hnew, rfl⟩

/-- C21, the code at two sessions of one user opened while the clock reads the same
instant: the user `self` opens a session with the database directory `db1` and the
comm address `127.0.0.1:5750`, and one with `db2` and `127.0.0.1:5751`. Both calls
succeed and return the same session ID, the node holds one session afterwards, and
`GetSession` returns under this ID the second session where it returned the first
one before. -/
theorem OpenSession_same_instant_same_id :
    (sampleNode.OpenSession sampleEnv sampleCalcEnv
        (.ok (sampleConfigAt "db1" "127.0.0.1:5750"))
        (sampleOutcomesAt "127.0.0.1:5750" 1700000000000000000)).1
      = ("0xa1700000000000000000", [], none) ∧
    ((sampleNode.OpenSession sampleEnv sampleCalcEnv
        (.ok (sampleConfigAt "db1" "127.0.0.1:5750"))
        (sampleOutcomesAt "127.0.0.1:5750" 1700000000000000000)).2.OpenSession
          sampleEnv sampleCalcEnv (.ok (sampleConfigAt "db2" "127.0.0.1:5751"))
          (sampleOutcomesAt "127.0.0.1:5751" 1700000000000000000)).1
      = ("0xa1700000000000000000", [], none) ∧
    ((sampleNode.OpenSession sampleEnv sampleCalcEnv
        (.ok (sampleConfigAt "db1" "127.0.0.1:5750"))
        (sampleOutcomesAt "127.0.0.1:5750" 1700000000000000000)).2.OpenSession
          sampleEnv sampleCalcEnv (.ok (sampleConfigAt "db2" "127.0.0.1:5751"))
          (sampleOutcomesAt "127.0.0.1:5751" 1700000000000000000)).2.sessions.length = 1 ∧
    ((sampleNode.OpenSession sampleEnv sampleCalcEnv
        (.ok (sampleConfigAt "db1" "127.0.0.1:5750"))
        (sampleOutcomesAt "127.0.0.1:5750" 1700000000000000000)).2.GetSession
          "0xa1700000000000000000").map (fun s => s.user.Peer.CommAddr)
      = .ok "127.0.0.1:5750" ∧
    (((sampleNode.OpenSession sampleEnv sampleCalcEnv
        (.ok (sampleConfigAt "db1" "127.0.0.1:5750"))
        (sampleOutcomesAt "127.0.0.1:5750" 1700000000000000000)).2.OpenSession
          sampleEnv sampleCalcEnv (.ok (sampleConfigAt "db2" "127.0.0.1:5751"))
          (sampleOutcomesAt "127.0.0.1:5751" 1700000000000000000)).2.GetSession
          "0xa1700000000000000000").map (fun s => s.user.Peer.CommAddr)
      = .ok "127.0.0.1:5751" := by
  refine ⟨rfl, rfl, rfl, rfl, rfl⟩

/-- Two successful `OpenSession` calls on a node return the IDs of the two sessions, each the digest of the off-chain address of its user followed by the
string form of the clock reading of its call. After the second call `GetSession`
returns the second session under its ID; it returns the first session under the
first ID when the two IDs differ, and the second session when they are equal, the
first one being replaced in the map of the node; under any other ID it returns what
it returned before the two calls, `ErrUnknownSessionID` when the node held no session
under it. -/
theorem OpenSession_ids (env : Env) (cenv : calcEnv) (n : node)
    (p1 p2 : Except Err Config) (o1 o2 : newOutcomes)
    (h1 : (n.OpenSession env cenv p1 o1).1.2.2 = none)
    (h2 : ((n.OpenSession env cenv p1 o1).2.OpenSession env cenv p2 o2).1.2.2 = none) :
    ∃ s1 s2 u1 u2,
      o1.unlockedUser = .ok u1 ∧ o2.unlockedUser = .ok u2 ∧
      (n.OpenSession env cenv p1 o1).1.1 = s1.id ∧
      ((n.OpenSession env cenv p1 o1).2.OpenSession env cenv p2 o2).1.1 = s2.id ∧
      s1.id = cenv.sha256Hex (u1.Peer.OffChainAddr ++ cenv.utcString o1.now) ∧
      s2.id = cenv.sha256Hex (u2.Peer.OffChainAddr ++ cenv.utcString o2.now) ∧
      (n.OpenSession env cenv p1 o1).2.GetSession s1.id = .ok s1 ∧
      ((n.OpenSession env cenv p1 o1).2.OpenSession env cenv p2 o2).2.GetSession s2.id
        = .ok s2 ∧
      (s1.id ≠ s2.id →
        ((n.OpenSession env cenv p1 o1).2.OpenSession env cenv p2 o2).2.GetSession s1.id
          = .ok s1) ∧
      (s1.id = s2.id →
        ((n.OpenSession env cenv p1 o1).2.OpenSession env cenv p2 o2).2.GetSession s1.id
          = .ok s2) ∧
      (∀ id, id ≠ s1.id → id ≠ s2.id →
        ((n.OpenSession env cenv p1 o1).2.OpenSession env cenv p2 o2).2.GetSession id
          = n.GetSession id) ∧
      (∀ id, id ≠ s1.id → id ≠ s2.id → mapLookup n.sessions id = none →
        ((n.OpenSession env cenv p1 o1).2.OpenSession env cenv p2 o2).2.GetSession id
          = .error NodeErr.ErrUnknownSessionID) := by
  obtain ⟨cfg1, s1, u1, _, _, hu1, hid1, heq1⟩ := OpenSession_success env cenv n p1 o1 h1
  rw [heq1] at h2 ⊢
  obtain ⟨cfg2, s2, u2, _, _, hu2, hid2, heq2⟩ :=
    OpenSession_success env cenv _ p2 o2 h2
  rw [heq2]
  have hother : ∀ id, id ≠ s1.id → id ≠ s2.id →
      node.GetSession { sessions := mapInsert (mapInsert n.sessions s1.id s1) s2.id s2 } id
        = n.GetSession id := by
    intro id hne1 hne2
    simp only [node.GetSession, mapLookup_mapInsert_ne _ _ _ _ (Ne.symm hne2),
      mapLookup_mapInsert_ne _ _ _ _ (Ne.symm hne1)]
  refine ⟨s1, s2, u1, u2, hu1, hu2, rfl, rfl, hid1, hid2, ?_, ?_, ?_, ?_, hother, ?_⟩
  · simp [node.GetSession, mapLookup_mapInsert_self]
  · simp [node.GetSession, mapLookup_mapInsert_self]
  · intro hne
    simp [node.GetSession, mapLookup_mapInsert_ne _ _ _ _ (Ne.symm hne), mapLookup_mapInsert_self]
  · intro he
    rw [he]
    simp [node.GetSession, mapLookup_mapInsert_self]
  · intro id hne1 hne2 hnone
    rw [hother id hne1 hne2]
    simp [node.GetSession, hnone]

/-- The user `self` opens two sessions at the clock readings 0 and 1; the IDs differ and
`GetSession` returns each session under its ID. -/
theorem OpenSession_ids_witness :
    (sampleNode.OpenSession sampleEnv sampleCalcEnv (.ok (sampleConfig "tcp" "yaml"))
        (sampleOutcomes [] 0)).1 = ("0xa0", [], none) ∧
    ((sampleNode.OpenSession sampleEnv sampleCalcEnv (.ok (sampleConfig "tcp" "yaml"))
        (sampleOutcomes [] 0)).2.OpenSession sampleEnv sampleCalcEnv
          (.ok (sampleConfig "tcp" "yaml")) (sampleOutcomes [] 1)).1 = ("0xa1", [], none) ∧
    ∃ s1 s2 u1 u2,
      (sampleOutcomes [] 0).unlockedUser = .ok u1 ∧ (sampleOutcomes [] 1).unlockedUser = .ok u2 ∧
      (sampleNode.OpenSession sampleEnv sampleCalcEnv (.ok (sampleConfig "tcp" "yaml"))
        (sampleOutcomes [] 0)).1.1 = s1.id ∧
      ((sampleNode.OpenSession sampleEnv sampleCalcEnv (.ok (sampleConfig "tcp" "yaml"))
        (sampleOutcomes [] 0)).2.OpenSession sampleEnv sampleCalcEnv
          (.ok (sampleConfig "tcp" "yaml")) (sampleOutcomes [] 1)).1.1 = s2.id ∧
      s1.id = sampleCalcEnv.sha256Hex
        (u1.Peer.OffChainAddr ++ sampleCalcEnv.utcString (sampleOutcomes [] 0).now) ∧
      s2.id = sampleCalcEnv.sha256Hex
        (u2.Peer.OffChainAddr ++ sampleCalcEnv.utcString (sampleOutcomes [] 1).now) ∧
      (sampleNode.OpenSession sampleEnv sampleCalcEnv (.ok (sampleConfig "tcp" "yaml"))
        (sampleOutcomes [] 0)).2.GetSession s1.id = .ok s1 ∧
      ((sampleNode.OpenSession sampleEnv sampleCalcEnv (.ok (sampleConfig "tcp" "yaml"))
        (sampleOutcomes [] 0)).2.OpenSession sampleEnv sampleCalcEnv
          (.ok (sampleConfig "tcp" "yaml")) (sampleOutcomes [] 1)).2.GetSession s2.id
        = .ok s2 ∧
      (s1.id ≠ s2.id →
        ((sampleNode.OpenSession sampleEnv sampleCalcEnv (.ok (sampleConfig "tcp" "yaml"))
          (sampleOutcomes [] 0)).2.OpenSession sampleEnv sampleCalcEnv
            (.ok (sampleConfig "tcp" "yaml")) (sampleOutcomes [] 1)).2.GetSession s1.id
          = .ok s1) ∧
      (s1.id = s2.id →
        ((sampleNode.OpenSession sampleEnv sampleCalcEnv (.ok (sampleConfig "tcp" "yaml"))
          (sampleOutcomes [] 0)).2.OpenSession sampleEnv sampleCalcEnv
            (.ok (sampleConfig "tcp" "yaml")) (sampleOutcomes [] 1)).2.GetSession s1.id
          = .ok s2) ∧
      (∀ id, id ≠ s1.id → id ≠ s2.id →
        ((sampleNode.OpenSession sampleEnv sampleCalcEnv (.ok (sampleConfig "tcp" "yaml"))
          (sampleOutcomes [] 0)).2.OpenSession sampleEnv sampleCalcEnv
            (.ok (sampleConfig "tcp" "yaml")) (sampleOutcomes [] 1)).2.GetSession id
          = sampleNode.GetSession id) ∧
      (∀ id, id ≠ s1.id → id ≠ s2.id → mapLookup sampleNode.sessions id = none →
        ((sampleNode.OpenSession sampleEnv sampleCalcEnv (.ok (sampleConfig "tcp" "yaml"))
          (sampleOutcomes [] 0)).2.OpenSession sampleEnv sampleCalcEnv
            (.ok (sampleConfig "tcp" "yaml")) (sampleOutcomes [] 1)).2.GetSession id
          = .error NodeErr.ErrUnknownSessionID) :=
  ⟨rfl, rfl, OpenSession_ids sampleEnv sampleCalcEnv sampleNode
    (.ok (sampleConfig "tcp" "yaml")) (.ok (sampleConfig "tcp" "yaml"))
    (sampleOutcomes [] 0) (sampleOutcomes [] 1) rfl rfl⟩

end PerunNode
